import Mathlib

/-!
# Gopherbot message dispatch: a shallow embedding of `bot/dispatch.go`

The Go functions `pluginAvailable`, `checkPluginMatchers` and `handleMessage`
are translated into pure Lean functions over an explicit `World`:

* Go maps (`shortTermMemories.m`, `replies.m`) are partial functions
  `key → Option value`;
* `bot.Say`, `go callPlugin(...)` and sends on a reply channel are recorded, in
  program order, in the lists `said`, `scheduled` and `sent`;
* everything the dispatcher calls but does not define (the compiled regular
  expressions, `filepath.Match`, the clock, the synchronous `callPlugin` used for
  authorization and the registered elevation provider) is a field of `Env`,
  threaded through an external state `σ` so that successive calls may answer
  differently;
* a Go run-time panic (index out of range) is the `Result.panic` outcome;
* mutex operations and `Log` calls have no counterpart: one call is modelled in
  isolation and the log is not part of any statement below.
-/

namespace Gopherbot

/-! ## Data model -/

/-- Modelled from the spec: the result codes of the external plugin
invocation (`PlugRetVal`); the Go type declaration is outside `dispatch.go`. -/
inductive PlugRetVal where
  | Success
  | Fail
  | GeneralError
  | TechnicalProblem
  | Ok
  deriving DecidableEq, Repr

/-- The per-message `Robot` value (`Format` is always `Variable` here). -/
structure Robot where
  User : String
  Channel : String
  pluginID : String
  deriving DecidableEq, Repr

/-- An `InputMatcher`; `re` is `matcher.re.FindAllStringSubmatch(text, -1)`, with
`[]` for Go's `nil`. -/
structure InputMatcher where
  Regex : String
  Command : String
  Contexts : List String
  re : String → List (List String)

/-- A `Plugin` descriptor (the fields `dispatch.go` reads). -/
structure Plugin where
  name : String
  DirectOnly : Bool
  AllowDirect : Bool
  RequireAdmin : Bool
  AllChannels : Bool
  CatchAll : Bool
  Channels : List String
  Users : List String
  CommandMatchers : List InputMatcher
  MessageMatchers : List InputMatcher
  Authorizer : String
  AuthRequire : String
  TrustAllPlugins : Bool
  TrustedPlugins : List String
  ElevatedCommands : List String
  ElevateImmediateCommands : List String

/-- Key of the short-term memory map. -/
structure memoryContext where
  key : String
  user : String
  channel : String
  deriving DecidableEq, Repr

/-- Value of the short-term memory map; `timestamp` is in nanoseconds. -/
structure shortTermMemory where
  memory : String
  timestamp : Int
  deriving DecidableEq, Repr

/-- Key of the reply-waiter map. -/
structure replyMatcher where
  user : String
  channel : String
  deriving DecidableEq, Repr

/-- What the dispatcher sends to a waiter: `reply{matched, interrupted, text}`. -/
structure reply where
  matched : Bool
  interrupted : Bool
  rep : String
  deriving DecidableEq, Repr

/-- A registered waiter: `re` is `rep.re.MatchString`, `replyChannel` identifies
the one-shot Go channel. -/
structure replyWaiter where
  re : String → Bool
  replyChannel : Nat

/-- One `go callPlugin(bot, plugin, interactive, background, command, args...)`. -/
structure PluginCall where
  bot : Robot
  plugin : Plugin
  interactive : Bool
  background : Bool
  command : String
  args : List String

/-- The mutable globals of package `bot` together with the observable effects of
a call and the state `ext` of the external collaborators. -/
structure World (σ : Type) where
  pluginlist : List Plugin
  shortTermMemories : memoryContext → Option shortTermMemory
  replies : replyMatcher → Option replyWaiter
  paused : Bool
  shuttingDown : Bool
  ext : σ
  said : List (Robot × String)
  scheduled : List PluginCall
  sent : List (Nat × reply)

/-- The global `robot` configuration and the operations defined outside
`dispatch.go`. -/
structure Env (σ : Type) where
  adminUsers : List String
  elevatorProvider : String
  /-- `robot.elevator`, `none` for `nil`. -/
  elevator : Option (Robot → Bool → σ → Bool × σ)
  /-- The synchronous `callPlugin(bot, plugin, false, false, command, args...)`. -/
  callPlugin : Robot → Plugin → String → List String → σ → PlugRetVal × σ
  /-- `time.Now()` in nanoseconds. -/
  timeNow : σ → Int × σ
  /-- `filepath.Match(pattern, name)`: `some b` for `(b, nil)`, `none` on error. -/
  filepathMatch : String → String → Option Bool

/-- Outcome of a Go function body: a normal return or a run-time panic. -/
inductive Result (σ : Type) (α : Type) where
  | ok (val : α) (w : World σ)
  | panic (w : World σ)

/-- The world in which a call ended. -/
def Result.world {σ α : Type} : Result σ α → World σ
  | .ok _ w => w
  | .panic w => w

/-- The returned value, if the call returned. -/
def Result.val? {σ α : Type} : Result σ α → Option α
  | .ok v _ => some v
  | .panic _ => none

/-- `const keepListeningDuration = 77 * time.Second`, in nanoseconds. -/
def keepListeningDuration : Int := 77 * 1000000000

/-- `time.Time.Sub`: the difference, saturated to the range of `time.Duration`. -/
def timeSub (t u : Int) : Int :=
  if t - u > 9223372036854775807 then 9223372036854775807
  else if t - u < -9223372036854775808 then -9223372036854775808
  else t - u

/-- `m[c] = s` on a Go map. -/
def mapSet {κ ν : Type} [DecidableEq κ] (m : κ → Option ν) (c : κ) (s : ν) : κ → Option ν :=
  fun k => if k = c then some s else m k

/-- `delete(m, c)` on a Go map. -/
def mapDelete {κ ν : Type} [DecidableEq κ] (m : κ → Option ν) (c : κ) : κ → Option ν :=
  fun k => if k = c then none else m k

/-- `bot.Say(msg)`. -/
def World.say {σ : Type} (w : World σ) (bot : Robot) (msg : String) : World σ :=
  { w with said := w.said ++ [(bot, msg)] }

/-! ## `pluginAvailable` -/

/-- The loop over `plugin.Users`: `userOk` becomes true when some entry matches
without error. -/
def userOk {σ : Type} (env : Env σ) (user : String) : List String → Bool
  | [] => false
  | allowedUser :: rest =>
    if env.filepathMatch allowedUser user = some true then true else userOk env user rest

/-- `pluginAvailable(user, channel, plugin)`. -/
def pluginAvailable {σ : Type} (env : Env σ) (user channel : String) (plugin : Plugin) : Bool :=
  let directMsg : Bool := channel.length == 0
  if !directMsg && plugin.DirectOnly then false
  else if plugin.RequireAdmin && !(env.adminUsers.contains user) then false
  else if decide (plugin.Users.length > 0) && !(userOk env user plugin.Users) then false
  else if directMsg && (plugin.AllowDirect || plugin.DirectOnly) then true
  else if plugin.Channels.length > 0 then plugin.Channels.contains channel
  else plugin.AllChannels

/-! ## `checkPluginMatchers` -/

/-- How the context loop of one matcher ends: it completes with the (possibly
substituted) arguments, it finds no memory for `label` (the caller then says the
clarification and returns `true`), or it indexes `cmdArgs` out of range. In every
case the memory map as left by the loop is carried along. -/
inductive CtxResult where
  | done (cmdArgs : List String) (m : memoryContext → Option shortTermMemory)
  | forgot (contextLabel : String) (m : memoryContext → Option shortTermMemory)
  | outOfRange (m : memoryContext → Option shortTermMemory)

/-- The memory key of a context label (lines 123-124). -/
def contextKey (bot : Robot) (contextLabel : String) : memoryContext :=
  ⟨"context:" ++ contextLabel, bot.User, bot.Channel⟩

/-- The loop `for i, contextLabel := range matcher.Contexts` (lines 121-144),
started at index `i` on the remaining labels. -/
def contextLoop (bot : Robot) (ts : Int) :
    Nat → List String → List String → (memoryContext → Option shortTermMemory) → CtxResult
  | _, [], cmdArgs, m => .done cmdArgs m
  | i, contextLabel :: rest, cmdArgs, m =>
    if contextLabel ≠ "" then
      let c := contextKey bot contextLabel
      if cmdArgs.length > i ∧ (cmdArgs[i]? = some "it" ∨ cmdArgs[i]? = some "") then
        match m c with
        | some s =>
          contextLoop bot ts (i + 1) rest (cmdArgs.set i s.memory)
            (mapSet m c { s with timestamp := ts })
        | none => .forgot contextLabel m
      else
        match cmdArgs[i]? with
        | some a => contextLoop bot ts (i + 1) rest cmdArgs (mapSet m c ⟨a, ts⟩)
        | none => .outOfRange m
    else contextLoop bot ts (i + 1) rest cmdArgs m

/-- The local variables of `checkPluginMatchers` that survive an iteration of
the matching loops. `sel` holds `runPlugin` and `matchedMatcher`; it is `some`
exactly when `commandMatched` is true. -/
structure ScanState (σ : Type) where
  w : World σ
  sel : Option (Plugin × InputMatcher)
  cmdArgs : List String

/-- The named result `commandMatched`. -/
def ScanState.commandMatched {σ : Type} (st : ScanState σ) : Bool := st.sel.isSome

/-- How a matching loop ends: it falls through (end of list, or `break`) with
the updated locals, or the function returns, or it panics. -/
inductive Scan (σ : Type) where
  | cont (st : ScanState σ)
  | ret (commandMatched : Bool) (w : World σ)
  | panic (w : World σ)

/-- The text of the clarification request (line 135). -/
def forgotMsg (contextLabel : String) : String :=
  "Sorry, I don't remember which " ++ contextLabel ++
    " we were talking about - please re-enter your command and be more specific"

/-- The ambiguity notice (line 151). -/
def ambiguousMsg : String :=
  "Yikes! Your command matched multiple plugins, so I'm not doing ANYTHING"

/-- The capture groups of the first match, `matches[0][1:]` (line 116). -/
def captures (matcher : InputMatcher) (messagetext : String) : List String :=
  ((matcher.re messagetext).headD []).drop 1

/-- Lines 117-146: context resolution for a matcher that matched. The clock is
read only when the matcher declares contexts. -/
def resolveContexts {σ : Type} (env : Env σ) (bot : Robot) (matcher : InputMatcher)
    (cmdArgs : List String) (w : World σ) : World σ × CtxResult :=
  if matcher.Contexts.length > 0 then
    let now := env.timeNow w.ext
    ({ w with ext := now.2 },
      contextLoop bot now.1 0 matcher.Contexts cmdArgs w.shortTermMemories)
  else (w, .done cmdArgs w.shortTermMemories)

/-- Lines 113-159: what the loops do with a matcher of `plugin` whose pattern
matched: resolve the contexts, then either report the ambiguity or select the
command and `break`. -/
def onMatch {σ : Type} (env : Env σ) (bot : Robot) (messagetext : String)
    (plugin : Plugin) (matcher : InputMatcher) (st : ScanState σ) : Scan σ :=
  let r := resolveContexts env bot matcher (captures matcher messagetext) st.w
  match r.2 with
  | .forgot contextLabel m =>
    .ret true ({ r.1 with shortTermMemories := m }.say bot (forgotMsg contextLabel))
  | .outOfRange m => .panic { r.1 with shortTermMemories := m }
  | .done cmdArgs m =>
    if st.commandMatched then
      .ret true ({ r.1 with shortTermMemories := m }.say bot ambiguousMsg)
    else
      .cont { w := { r.1 with shortTermMemories := m }, sel := some (plugin, matcher),
              cmdArgs := cmdArgs }

/-- The loop `for _, matcher := range matchers` for one plugin (lines 109-160). -/
def checkMatchers {σ : Type} (env : Env σ) (bot : Robot) (messagetext : String)
    (plugin : Plugin) : List InputMatcher → ScanState σ → Scan σ
  | [], st => .cont st
  | matcher :: rest, st =>
    if matcher.re messagetext ≠ [] then onMatch env bot messagetext plugin matcher st
    else checkMatchers env bot messagetext plugin rest st

/-- Lines 103-108: the matchers checked for a plugin. -/
def matchersOf (checkCommands : Bool) (plugin : Plugin) : List InputMatcher :=
  if checkCommands then plugin.CommandMatchers else plugin.MessageMatchers

/-- The loop `for _, plugin := range plugins` (lines 96-161). -/
def checkPlugins {σ : Type} (env : Env σ) (checkCommands : Bool) (bot : Robot)
    (messagetext : String) : List Plugin → ScanState σ → Scan σ
  | [], st => .cont st
  | plugin :: rest, st =>
    if !pluginAvailable env bot.User bot.Channel plugin then
      checkPlugins env checkCommands bot messagetext rest st
    else
      match checkMatchers env bot messagetext plugin (matchersOf checkCommands plugin) st with
      | .cont st' => checkPlugins env checkCommands bot messagetext rest st'
      | .ret b w => .ret b w
      | .panic w => .panic w

/-- The reserved abort command (line 166). -/
def isAbort (plugin : Plugin) (matcher : InputMatcher) : Bool :=
  plugin.name == "builtInadmin" && matcher.Command == "abort"

def shuttingDownMsg : String := "Sorry, I'm shutting down and can't start any new tasks"

def pausedMsg : String := "Sorry, I've been paused and can't start any new tasks"

/-- The lifecycle admission check (lines 165-179): `some msg` when the command is
refused with `msg`, `none` when it is admitted. -/
def admissionRefusal {σ : Type} (w : World σ) (plugin : Plugin) (matcher : InputMatcher) :
    Option String :=
  let abort := isAbort plugin matcher
  if w.shuttingDown && !abort then some shuttingDownMsg
  else if w.paused && !abort then some pausedMsg
  else none

def unableToAuthorizeMsg : String :=
  "Sorry, I'm unable to authorize you for that command in this channel"

def notAuthorizedMsg : String :=
  "Sorry, you're not authorized for that command in this channel"

def authMechanismMsg : String :=
  "Sorry, I'm unable to perform authorization for that command in this channel"

/-- The trust test of lines 184-194. -/
def plugAllowed (plugin authPlug : Plugin) : Bool :=
  if authPlug.TrustAllPlugins then true
  else if authPlug.TrustedPlugins.length > 0 then authPlug.TrustedPlugins.contains plugin.name
  else false

/-- The arguments of the synchronous `authorize` call (line 201). -/
def authorizeArgs (plugin : Plugin) (matcher : InputMatcher) : List String :=
  [plugin.name, matcher.Command, "", plugin.AuthRequire]

/-- The loop `for _, authPlug := range plugins` (lines 182-220): `.inl w` when the
loop ends or breaks, with the value of `authorized`, `.inr w` when the function
returns from inside the loop (the refusal is already said in `w`). -/
def authLoop {σ : Type} (env : Env σ) (bot : Robot) (plugin : Plugin) (matcher : InputMatcher) :
    List Plugin → World σ → (Bool × World σ) ⊕ World σ
  | [], w => .inl (false, w)
  | authPlug :: rest, w =>
    if plugin.Authorizer = authPlug.name then
      if plugAllowed plugin authPlug then
        if !pluginAvailable env bot.User bot.Channel authPlug then
          .inr (w.say bot unableToAuthorizeMsg)
        else
          let r := env.callPlugin bot authPlug "authorize" (authorizeArgs plugin matcher) w.ext
          let w' : World σ := { w with ext := r.2 }
          if r.1 = PlugRetVal.Success then .inl (true, w')
          else if r.1 = PlugRetVal.Fail then .inr (w'.say bot notAuthorizedMsg)
          else .inr (w'.say bot authMechanismMsg)
      else .inr (w.say bot unableToAuthorizeMsg)
    else authLoop env bot plugin matcher rest w

/-- The `Robot` handed to the elevation provider (lines 233-239). -/
def elevatorBot {σ : Type} (env : Env σ) (bot : Robot) : Robot :=
  { User := bot.User, Channel := bot.Channel, pluginID := "elevator-" ++ env.elevatorProvider }

/-- One of the two elevation loops (lines 229-246 with `immediate = false`,
lines 249-266 with `immediate = true`), on the pair `(elevationOk, ext)`. -/
def elevateLoop {σ : Type} (env : Env σ) (bot : Robot) (immediate : Bool) (command : String) :
    List String → Bool × σ → Bool × σ
  | [], s => s
  | i :: rest, s =>
    if command = i then
      match env.elevator with
      | some elevator =>
        elevateLoop env bot immediate command rest (elevator (elevatorBot env bot) immediate s.2)
      | none => elevateLoop env bot immediate command rest (false, s.2)
    else elevateLoop env bot immediate command rest s

/-- The refusal naming the command (line 272). -/
def elevationMsg (command : String) : String :=
  "Sorry, the \"" ++ command ++ "\" command requires elevated privileges"

/-- Lines 227-273: both elevation loops, then schedule the plugin body or refuse. -/
def elevateAndRun {σ : Type} (env : Env σ) (bot : Robot) (plugin : Plugin)
    (matcher : InputMatcher) (cmdArgs : List String) (w : World σ) : World σ :=
  let s₁ := elevateLoop env bot false matcher.Command plugin.ElevatedCommands (true, w.ext)
  let s₂ := elevateLoop env bot true matcher.Command plugin.ElevateImmediateCommands s₁
  let w' : World σ := { w with ext := s₂.2 }
  if s₂.1 then
    { w' with scheduled := w'.scheduled ++ [⟨bot, plugin, true, true, matcher.Command, cmdArgs⟩] }
  else w'.say bot (elevationMsg matcher.Command)

/-- Lines 180-273: authorization, then elevation and scheduling. -/
def authorizeAndRun {σ : Type} (env : Env σ) (bot : Robot) (plugins : List Plugin)
    (plugin : Plugin) (matcher : InputMatcher) (cmdArgs : List String) (w : World σ) : World σ :=
  if plugin.Authorizer ≠ "" then
    match authLoop env bot plugin matcher plugins w with
    | .inr w' => w'
    | .inl (authorized, w') =>
      if !authorized then w'.say bot authMechanismMsg
      else elevateAndRun env bot plugin matcher cmdArgs w'
  else elevateAndRun env bot plugin matcher cmdArgs w

/-- Lines 162-275: what `checkPluginMatchers` does with the selected command:
the lifecycle check first, then `authorizeAndRun`. -/
def runMatched {σ : Type} (env : Env σ) (bot : Robot) (plugins : List Plugin)
    (plugin : Plugin) (matcher : InputMatcher) (cmdArgs : List String) (w : World σ) : World σ :=
  match admissionRefusal w plugin matcher with
  | some msg => w.say bot msg
  | none => authorizeAndRun env bot plugins plugin matcher cmdArgs w

/-- Lines 89-161: the matching loops of `checkPluginMatchers` run on the plugin
list, from `commandMatched = false`. -/
def scan {σ : Type} (env : Env σ) (checkCommands : Bool) (bot : Robot)
    (messagetext : String) (w : World σ) : Scan σ :=
  checkPlugins env checkCommands bot messagetext w.pluginlist ⟨w, none, []⟩

/-- `checkPluginMatchers(checkCommands, bot, messagetext)`. -/
def checkPluginMatchers {σ : Type} (env : Env σ) (checkCommands : Bool) (bot : Robot)
    (messagetext : String) (w : World σ) : Result σ Bool :=
  match scan env checkCommands bot messagetext w with
  | .ret b w' => .ok b w'
  | .panic w' => .panic w'
  | .cont st =>
    match st.sel with
    | some (plugin, matcher) =>
      .ok true (runMatched env bot w.pluginlist plugin matcher st.cmdArgs st.w)
    | none => .ok false st.w

/-! ## `handleMessage` -/

/-- Sequencing of Go statements: a panic ends the function. -/
def Result.bind {σ α β : Type} (r : Result σ α) (f : α → World σ → Result σ β) : Result σ β :=
  match r with
  | .ok v w => f v w
  | .panic w => .panic w

/-- The locals of `handleMessage` that later statements read. -/
structure Locals where
  messagetext : String
  commandMatched : Bool
  catchAllPlugins : List Plugin
  waitingForReply : Bool

/-- The key of the reserved last-message slot (line 298). -/
def lastMsgContext (user channel : String) : memoryContext := ⟨"lastMsg", user, channel⟩

/-- Lines 303-314: a blank directed message replays the last message when it is
younger than `keepListeningDuration`, and is answered with "Yes?" otherwise. -/
def blankStage {σ : Type} (env : Env σ) (isCommand : Bool) (bot : Robot) (ts : Int)
    (l : Locals) (w : World σ) : Result σ Locals :=
  if isCommand ∧ l.messagetext = "" then
    match w.shortTermMemories (lastMsgContext bot.User bot.Channel) with
    | some last =>
      if timeSub ts last.timestamp < keepListeningDuration then
        (checkPluginMatchers env true bot last.memory w).bind fun b w' =>
          .ok { l with messagetext := last.memory, commandMatched := b } w'
      else .ok { l with commandMatched := true } (w.say bot "Yes?")
    | none => .ok { l with commandMatched := true } (w.say bot "Yes?")
  else .ok l w

/-- Lines 315-324: collect the catch-all plugins and check the command matchers. -/
def commandStage {σ : Type} (env : Env σ) (isCommand : Bool) (bot : Robot)
    (plugins : List Plugin) (l : Locals) (w : World σ) : Result σ Locals :=
  if !l.commandMatched ∧ isCommand then
    (checkPluginMatchers env true bot l.messagetext w).bind fun b w' =>
      .ok { l with catchAllPlugins := plugins.filter (fun plugin => plugin.CatchAll),
                   commandMatched := b } w'
  else .ok l w

/-- Lines 325-350: deliver to a pending reply waiter, removing it first. -/
def replyStage {σ : Type} (bot : Robot) (l : Locals) (w : World σ) : Locals × World σ :=
  let matcher : replyMatcher := ⟨bot.User, bot.Channel⟩
  match w.replies matcher with
  | none => ({ l with waitingForReply := false }, w)
  | some rep =>
    let w' : World σ := { w with replies := mapDelete w.replies matcher }
    if l.commandMatched then
      ({ l with waitingForReply := true },
        { w' with sent := w'.sent ++ [(rep.replyChannel, ⟨false, true, ""⟩)] })
    else
      ({ l with waitingForReply := true, commandMatched := true },
        { w' with sent := w'.sent ++
            [(rep.replyChannel, ⟨rep.re l.messagetext, false, l.messagetext⟩)] })

/-- Lines 355-358: ambient matchers, for undirected messages nobody consumed. -/
def ambientStage {σ : Type} (env : Env σ) (isCommand : Bool) (bot : Robot)
    (l : Locals) (w : World σ) : Result σ Locals :=
  if !l.commandMatched ∧ !l.waitingForReply ∧ !isCommand then
    (checkPluginMatchers env false bot l.messagetext w).bind fun b w' =>
      .ok { l with commandMatched := b } w'
  else .ok l w

/-- The body of `for _, plugin := range catchAllPlugins` (line 365). -/
def catchAllCalls (bot : Robot) (messagetext : String) (catchAllPlugins : List Plugin) :
    List PluginCall :=
  catchAllPlugins.map fun plugin => ⟨bot, plugin, true, true, "catchall", [messagetext]⟩

/-- Lines 359-371: call the catch-all plugins for an unmatched directed message. -/
def catchAllStage {σ : Type} (isCommand : Bool) (bot : Robot) (l : Locals) (w : World σ) :
    World σ :=
  if isCommand ∧ !l.commandMatched then
    if !w.shuttingDown then
      { w with scheduled := w.scheduled ++ catchAllCalls bot l.messagetext l.catchAllPlugins }
    else w
  else w

/-- Lines 372-381: forget or record the last message. -/
def bookkeepingStage {σ : Type} (isCommand : Bool) (bot : Robot) (ts : Int) (l : Locals)
    (w : World σ) : World σ :=
  if l.commandMatched ∨ isCommand then
    { w with shortTermMemories :=
        mapDelete w.shortTermMemories (lastMsgContext bot.User bot.Channel) }
  else
    { w with shortTermMemories :=
        mapSet w.shortTermMemories (lastMsgContext bot.User bot.Channel) ⟨l.messagetext, ts⟩ }

/-- Lines 315-382: everything `handleMessage` does after the blank-message check. -/
def handleTail {σ : Type} (env : Env σ) (isCommand : Bool) (bot : Robot)
    (plugins : List Plugin) (ts : Int) (l₁ : Locals) (w₁ : World σ) : Result σ Unit :=
  (commandStage env isCommand bot plugins l₁ w₁).bind fun l₂ w₂ =>
  let r₃ := replyStage bot l₂ w₂
  (ambientStage env isCommand bot r₃.1 r₃.2).bind fun l₄ w₄ =>
  let w₅ := catchAllStage isCommand bot l₄ w₄
  .ok () (bookkeepingStage isCommand bot ts l₄ w₅)

/-- `handleMessage(isCommand, channel, user, messagetext)`; the `panic` outcome is
the one the deferred `checkPanic` gets to see. -/
def handleMessage {σ : Type} (env : Env σ) (isCommand : Bool) (channel user messagetext : String)
    (w : World σ) : Result σ Unit :=
  let bot : Robot := { User := user, Channel := channel, pluginID := "" }
  let plugins := w.pluginlist
  let now := env.timeNow w.ext
  let ts := now.1
  let w₀ : World σ := { w with ext := now.2 }
  (blankStage env isCommand bot ts ⟨messagetext, false, [], false⟩ w₀).bind
    (handleTail env isCommand bot plugins ts)

/-! ## Concrete scenarios

Small plugin registries on which the functions above are evaluated. -/

/-- A plugin available to everybody everywhere, with no matchers. -/
def basePlugin (name : String) : Plugin :=
  { name := name, DirectOnly := false, AllowDirect := true, RequireAdmin := false,
    AllChannels := true, CatchAll := false, Channels := [], Users := [],
    CommandMatchers := [], MessageMatchers := [], Authorizer := "", AuthRequire := "",
    TrustAllPlugins := false, TrustedPlugins := [], ElevatedCommands := [],
    ElevateImmediateCommands := [] }

/-- A matcher whose pattern matches exactly `text`, with capture groups `groups`. -/
def literalMatcher (command text : String) (groups contexts : List String) : InputMatcher :=
  { Regex := text, Command := command, Contexts := contexts,
    re := fun t => if t = text then [text :: groups] else [] }

/-- An environment without elevation provider; the external state is the clock,
every authorizer answers `Success`. -/
def demoEnv : Env Int :=
  { adminUsers := [], elevatorProvider := "totp", elevator := none,
    callPlugin := fun _ _ _ _ s => (PlugRetVal.Success, s),
    timeNow := fun s => (s, s), filepathMatch := fun p n => some (p == n) }

/-- A fresh world: nothing remembered, nobody waiting, nothing said or scheduled. -/
def demoWorld (plugins : List Plugin) : World Int :=
  { pluginlist := plugins, shortTermMemories := fun _ => none, replies := fun _ => none,
    paused := false, shuttingDown := false, ext := 0, said := [], scheduled := [], sent := [] }

/-- User "bob" speaking in channel "general". -/
def bob : Robot := ⟨"bob", "general", ""⟩

/-! ## Predicates used in the statements -/

/-- The parts of the world that the matching loops never write. -/
structure Untouched {σ : Type} (w w' : World σ) : Prop where
  pluginlist : w'.pluginlist = w.pluginlist
  replies : w'.replies = w.replies
  paused : w'.paused = w.paused
  shuttingDown : w'.shuttingDown = w.shuttingDown
  scheduled : w'.scheduled = w.scheduled
  sent : w'.sent = w.sent

/-- What each way of leaving a matching loop guarantees, relative to the state
`st` in which the loop was entered. -/
def ScanPost {σ : Type} (bot : Robot) (st : ScanState σ) : Scan σ → Prop
  | .cont st' => Untouched st.w st'.w ∧ st'.w.said = st.w.said
  | .ret b w' => b = true ∧ Untouched st.w w' ∧ ∃ msg, w'.said = st.w.said ++ [(bot, msg)]
  | .panic w' => Untouched st.w w' ∧ w'.said = st.w.said

/-- The parts of the world that the gates after matching (lines 162-275) never
write: everything except `ext`, `said` and `scheduled`. -/
structure SameStores {σ : Type} (w w' : World σ) : Prop where
  pluginlist : w'.pluginlist = w.pluginlist
  shortTermMemories : w'.shortTermMemories = w.shortTermMemories
  replies : w'.replies = w.replies
  paused : w'.paused = w.paused
  shuttingDown : w'.shuttingDown = w.shuttingDown
  sent : w'.sent = w.sent

/-- Authorization lets the command through: the plugin names no authorizer, or
the authorizer loop ends with `authorized = true`. -/
def authorizationPasses {σ : Type} (env : Env σ) (bot : Robot) (plugins : List Plugin)
    (plugin : Plugin) (matcher : InputMatcher) (w : World σ) : Prop :=
  plugin.Authorizer = "" ∨ ∃ w', authLoop env bot plugin matcher plugins w = .inl (true, w')

/-- The world in which the elevation gate runs: after a successful authorizer
call when the plugin names an authorizer, the world after matching otherwise. -/
def afterAuthorization {σ : Type} (env : Env σ) (bot : Robot) (plugins : List Plugin)
    (plugin : Plugin) (matcher : InputMatcher) (w : World σ) : World σ :=
  if plugin.Authorizer ≠ "" then
    match authLoop env bot plugin matcher plugins w with
    | .inl (_, w') => w'
    | .inr w' => w'
  else w

/-- The value of `elevationOk` at line 268 and the external state at that point. -/
def elevationOk {σ : Type} (env : Env σ) (bot : Robot) (plugin : Plugin)
    (matcher : InputMatcher) (e : σ) : Bool × σ :=
  elevateLoop env bot true matcher.Command plugin.ElevateImmediateCommands
    (elevateLoop env bot false matcher.Command plugin.ElevatedCommands (true, e))

/-- A plugin whose command `open` requires elevation. -/
def doorPlugin : Plugin :=
  { basePlugin "door" with
    CommandMatchers := [literalMatcher "open" "open door" ["door"] []],
    ElevatedCommands := ["open"] }

/-- An authorizer that trusts every plugin. -/
def guardPlugin : Plugin := { basePlugin "guard" with TrustAllPlugins := true }

/-- A plugin whose commands are authorized by `guardPlugin`. -/
def safePlugin : Plugin :=
  { basePlugin "safe" with
    CommandMatchers := [literalMatcher "unlock" "unlock safe" [] []],
    Authorizer := "guard", AuthRequire := "ops" }

/-- The matched command gets through all three gates of lines 162-268: the
lifecycle check admits it, authorization passes, and `elevationOk` is true. -/
def passesGates {σ : Type} (env : Env σ) (bot : Robot) (plugins : List Plugin)
    (plugin : Plugin) (matcher : InputMatcher) (w : World σ) : Prop :=
  admissionRefusal w plugin matcher = none ∧
  authorizationPasses env bot plugins plugin matcher w ∧
  (elevationOk env bot plugin matcher
    (afterAuthorization env bot plugins plugin matcher w).ext).1 = true

/-- The call is the reserved abort command. -/
def IsAbortCall (c : PluginCall) : Prop :=
  c.plugin.name = "builtInadmin" ∧ c.command = "abort"

/-- Between `w` and `w'` the lifecycle flags are unchanged and every call added
to the schedule satisfies `Q`. -/
def ScheduledOnly {σ : Type} (Q : PluginCall → Prop) (w w' : World σ) : Prop :=
  w'.paused = w.paused ∧ w'.shuttingDown = w.shuttingDown ∧
  ∃ extra, w'.scheduled = w.scheduled ++ extra ∧ ∀ c ∈ extra, Q c

/-- The first matcher of the list whose pattern matches the text: the only one
the matcher loop acts on. -/
def firstMatch (messagetext : String) : List InputMatcher → Option InputMatcher
  | [] => none
  | matcher :: rest =>
    if matcher.re messagetext ≠ [] then some matcher else firstMatch messagetext rest

/-- The matcher with which `plugin` takes part in the scan: its first matching
matcher of the kind being checked, provided the plugin is available. -/
def candidate {σ : Type} (env : Env σ) (checkCommands : Bool) (bot : Robot)
    (messagetext : String) (plugin : Plugin) : Option InputMatcher :=
  if pluginAvailable env bot.User bot.Channel plugin then
    firstMatch messagetext (matchersOf checkCommands plugin)
  else none

/-- The matchers with which the plugins of the list take part in the scan, in
registry order: one entry per available plugin that has a matching matcher. -/
def candidates {σ : Type} (env : Env σ) (checkCommands : Bool) (bot : Robot)
    (messagetext : String) (plugins : List Plugin) : List InputMatcher :=
  plugins.filterMap (candidate env checkCommands bot messagetext)

/-- A catch-all plugin. -/
def fallbackPlugin : Plugin := { basePlugin "fallback" with CatchAll := true }

/-- Two plugins whose command patterns both match "turn it on"; the first one
declares the context label `device` for its capture group. -/
def lampPlugin : Plugin :=
  { basePlugin "lamp" with
    CommandMatchers := [literalMatcher "switch" "turn it on" ["it"] ["device"]] }

def radioPlugin : Plugin :=
  { basePlugin "radio" with
    CommandMatchers := [literalMatcher "tune" "turn it on" ["it"] []] }

/-- A second plugin matching "open door", without contexts. -/
def gatePlugin : Plugin :=
  { basePlugin "gate" with
    CommandMatchers := [literalMatcher "raise" "open door" [] []] }

/-- A plugin with two commands sharing the context label `thing`. -/
def hallPlugin : Plugin :=
  { basePlugin "hall" with
    CommandMatchers := [literalMatcher "open" "open door" ["door"] ["thing"],
                        literalMatcher "close" "close it" ["it"] ["thing"]] }

/-- A plugin whose command has two capture groups with the same context label. -/
def shelfPlugin : Plugin :=
  { basePlugin "shelf" with
    CommandMatchers := [literalMatcher "move" "move box to it" ["box", "it"] ["thing", "thing"]] }

/-- A plugin with two matchers that both match "open it"; only the second one
declares a context label. -/
def cupboardPlugin : Plugin :=
  { basePlugin "cupboard" with
    CommandMatchers := [literalMatcher "open" "open it" [] [],
                        literalMatcher "unlock" "open it" ["it"] ["door"]] }

/-- A world at clock reading `now` (nanoseconds) in which bob's last unmatched
message in "general", "open door", was recorded at time 0. -/
def recallWorld (now : Int) : World Int :=
  { demoWorld [gatePlugin] with
    ext := now,
    shortTermMemories := fun k =>
      if k = lastMsgContext "bob" "general" then some ⟨"open door", 0⟩ else none }

/-- A world in which a plugin waits for a reply from bob in "general", on reply
channel 7. -/
def waitingWorld (plugins : List Plugin) : World Int :=
  { demoWorld plugins with
    replies := fun k => if k = ⟨"bob", "general"⟩ then some ⟨fun _ => true, 7⟩ else none }

/-- The built-in administration plugin with its reserved `abort` command. -/
def adminPlugin : Plugin :=
  { basePlugin "builtInadmin" with
    CommandMatchers := [literalMatcher "abort" "abort" [] []] }

/-- A plugin with a channel list that also declares all-channels. -/
def opsPlugin : Plugin := { basePlugin "ops" with Channels := ["ops"], AllChannels := true }

/-- A plugin for all channels that does not allow direct messages. -/
def roamingPlugin : Plugin := { basePlugin "roaming" with AllowDirect := false }

/-- A plugin for direct messages only. -/
def whisperPlugin : Plugin := { basePlugin "whisper" with DirectOnly := true }

/-- A provider that refuses a standard elevation and grants an immediate one;
the external state counts its invocations. -/
def flagEnv : Env Int :=
  { demoEnv with elevator := some (fun _ immediate s => (immediate, s + 1)) }

/-- A provider that refuses its first invocation and grants every later one;
the external state counts its invocations. -/
def retryEnv : Env Int :=
  { demoEnv with elevator := some (fun _ _ s => (decide (1 ≤ s), s + 1)) }

/-- A plugin whose command `open` is listed in both elevated sets. -/
def vaultPlugin : Plugin :=
  { basePlugin "vault" with
    CommandMatchers := [literalMatcher "open" "open vault" [] []],
    ElevatedCommands := ["open"], ElevateImmediateCommands := ["open"] }

/-- A plugin whose command `open` is listed twice in the standard elevated set. -/
def cellarPlugin : Plugin :=
  { basePlugin "cellar" with
    CommandMatchers := [literalMatcher "open" "open cellar" [] []],
    ElevatedCommands := ["open", "open"] }

/-- An environment in which every authorizer answers `Fail`; the external state
counts the authorizer invocations. -/
def denyEnv : Env Int :=
  { demoEnv with callPlugin := fun _ _ _ _ s => (PlugRetVal.Fail, s + 1) }

/-- The memory map with which the context loop ends. -/
def CtxResult.memory : CtxResult → (memoryContext → Option shortTermMemory)
  | .done _ m => m
  | .forgot _ m => m
  | .outOfRange m => m

/-- The world in which a matching loop ends. -/
def Scan.world {σ : Type} : Scan σ → World σ
  | .cont st => st.w
  | .ret _ w => w
  | .panic w => w

/-- Between `w` and `w'` no last-message slot was written, for any user and
channel. -/
def KeepsLastMsg {σ : Type} (w w' : World σ) : Prop :=
  ∀ u c, w'.shortTermMemories (lastMsgContext u c) = w.shortTermMemories (lastMsgContext u c)

/-- A plugin whose command declares a context label although its pattern has no
capture group. -/
def clockPlugin : Plugin :=
  { basePlugin "clock" with
    CommandMatchers := [literalMatcher "alarm" "set alarm" [] ["time"]] }

/-- What the stages of `handleMessage` that call `checkPluginMatchers` leave
alone: the plugin list, the waiters, the replies sent, the lifecycle flags and
every last-message slot. -/
structure StageFrame {σ : Type} (w w' : World σ) : Prop where
  pluginlist : w'.pluginlist = w.pluginlist
  replies : w'.replies = w.replies
  sent : w'.sent = w.sent
  paused : w'.paused = w.paused
  shuttingDown : w'.shuttingDown = w.shuttingDown
  lastMsg : KeepsLastMsg w w'

/-- A catch-all plugin reserved to administrators. -/
def vipPlugin : Plugin := { basePlugin "vip" with CatchAll := true, RequireAdmin := true }

/-- A plugin whose command has one capture group and declares two context
labels. -/
def cratePlugin : Plugin :=
  { basePlugin "crate" with
    CommandMatchers := [literalMatcher "move" "move box" ["box"] ["thing", "place"]] }

/-- The call is for a plugin available to `user` in `channel`, or it is the
`catchall` call of a plugin of `plugins` whose catch-all flag is set. -/
def AvailableOrCatchAll {σ : Type} (env : Env σ) (user channel : String)
    (plugins : List Plugin) (c : PluginCall) : Prop :=
  pluginAvailable env user channel c.plugin = true ∨
    (c.command = "catchall" ∧ c.plugin.CatchAll = true ∧ c.plugin ∈ plugins)

/-- The arguments context resolution ends with, when it completes. -/
def CtxResult.cmdArgs? : CtxResult → Option (List String)
  | .done cmdArgs _ => some cmdArgs
  | .forgot _ _ => none
  | .outOfRange _ => none

/-- A plugin whose second command captures two pronouns, the first under the
label `place`, the second under the label `thing`. -/
def pantryPlugin : Plugin :=
  { basePlugin "pantry" with
    CommandMatchers := [literalMatcher "open" "open door" ["door"] ["thing"],
                        literalMatcher "carry" "carry it there" ["it", "it"] ["place", "thing"]] }

/-! ## The TOTP elevation provider (`goplugins/totp/elevator.go`)

The robot methods the provider calls (`Say`, `Pause`, `WaitForReply`, the datum
operations), the OTP library and the clock are fields of `TotpEnv`, threaded
through an external state `τ`; `δ` is the type of the stored `otp.OTPConfig`.
The result codes `bot.RetVal` are taken from the result-code set of the spec,
`PlugRetVal`. Messages said through `r.Say` and `r.Direct().Say` are recorded
with a flag telling whether they were sent directly. -/

/-- `type timeoutType int` with the constants `idle` and `absolute`. -/
inductive timeoutType where
  | idle
  | absolute
  deriving DecidableEq, Repr

/-- `type config struct`; `tf64` is a `float64` that only ever holds the integral
value `float64(TimeoutSeconds)`, kept as the integer it represents. -/
structure config where
  TimeoutSeconds : Int
  tf64 : Int
  TimeoutType : String
  tt : timeoutType
  deriving DecidableEq, Repr

/-- What `elevator.go` calls but does not define. -/
structure TotpEnv (τ δ : Type) where
  /-- `time.Now().UTC()` in nanoseconds. -/
  timeNow : τ → Int × τ
  /-- `r.Pause(seconds)`. -/
  pause : Nat → τ → τ
  /-- `r.Direct().WaitForReply(regexID, timeout)`: the reply and the result code. -/
  waitForReply : Robot → String → Nat → τ → (String × PlugRetVal) × τ
  /-- `r.CheckoutDatum(key, &datum, rw)`: lock token, exists, result code, and the
  datum as left in `&datum`. -/
  checkoutDatum : Robot → String → Bool → τ → (String × Bool × PlugRetVal × δ) × τ
  /-- `r.CheckinDatum(key, lock)`. -/
  checkinDatum : Robot → String → String → τ → τ
  /-- `r.UpdateDatum(key, lock, &datum)`. -/
  updateDatum : Robot → String → String → δ → τ → PlugRetVal × τ
  /-- `userOTP.Authenticate(code)`: valid, whether `err != nil`, and the datum as
  the call left it. -/
  authenticate : δ → String → Bool × Bool × δ
  /-- The floating-point test `diff.Seconds() > cfg.tf64`, on the difference in
  nanoseconds and the timeout in seconds. -/
  exceeds : Int → Int → Bool

/-- The globals of package `totp` (`lastElevate`, `cfg`), the external state and
the messages said. -/
structure TotpWorld (τ : Type) where
  lastElevate : String → Option Int
  cfg : config
  ext : τ
  said : List (Robot × Bool × String)

/-- `r.Say(msg)` (`direct = false`) and `r.Direct().Say(msg)` (`direct = true`). -/
def TotpWorld.say {τ : Type} (w : TotpWorld τ) (r : Robot) (direct : Bool) (msg : String) :
    TotpWorld τ :=
  { w with said := w.said ++ [(r, direct, msg)] }

/-- `checkOTP(r, code)`. -/
def checkOTP {τ δ : Type} (tenv : TotpEnv τ δ) (r : Robot) (code : String) (s : τ) :
    (Bool × PlugRetVal) × τ :=
  let co := tenv.checkoutDatum r r.User true s
  let lock := co.1.1
  let exist := co.1.2.1
  let ret := co.1.2.2.1
  let userOTP := co.1.2.2.2
  if ret ≠ PlugRetVal.Ok then
    ((false, PlugRetVal.GeneralError), tenv.checkinDatum r r.User lock co.2)
  else if !exist then
    ((false, ret), tenv.checkinDatum r r.User lock co.2)
  else
    let au := tenv.authenticate userOTP code
    if au.2.1 then
      ((false, PlugRetVal.TechnicalProblem), tenv.checkinDatum r r.User lock co.2)
    else
      let up := tenv.updateDatum r r.User lock au.2.2 co.2
      if up.1 ≠ PlugRetVal.Ok then ((false, up.1), up.2)
      else ((au.1, PlugRetVal.Ok), up.2)

/-- The first message of `getcode` (lines 57-65). -/
def elevationNotice (r : Robot) (immediate : Bool) : String :=
  let dm := if r.Channel ≠ "" then " - I'll message you directly" else ""
  if immediate then "This command requires immediate elevation" ++ dm
  else "This command requires elevation" ++ dm

/-- `getcode(r, immediate)`. -/
def getcode {τ δ : Type} (tenv : TotpEnv τ δ) (r : Robot) (immediate : Bool)
    (w : TotpWorld τ) : Bool × TotpWorld τ :=
  let w₁ := w.say r false (elevationNotice r immediate)
  let w₂ : TotpWorld τ := { w₁ with ext := tenv.pause 1 w₁.ext }
  let w₃ := w₂.say r true "Please provide your totp launch code"
  let first := tenv.waitForReply r "OTP" 30 w₃.ext
  let w₄ : TotpWorld τ := { w₃ with ext := first.2 }
  let again : (String × PlugRetVal) × TotpWorld τ :=
    if first.1.2 ≠ PlugRetVal.Ok then
      let w₅ := w₄.say r true "Try again? I need a 6-digit launch code"
      let second := tenv.waitForReply r "OTP" 30 w₅.ext
      (second.1, { w₅ with ext := second.2 })
    else (first.1, w₄)
  if again.1.2 = PlugRetVal.Ok then
    let chk := checkOTP tenv r again.1.1 again.2.ext
    let w₆ : TotpWorld τ := { again.2 with ext := chk.2 }
    if chk.1.2 ≠ PlugRetVal.Ok then
      (false, w₆.say r true
        "There were technical issues validating your code, ask an administrator to check the log")
    else (chk.1.1, w₆)
  else (false, again.2)

/-- `elevate(r, immediate)`. -/
def elevate {τ δ : Type} (tenv : TotpEnv τ δ) (r : Robot) (immediate : Bool)
    (w : TotpWorld τ) : Bool × TotpWorld τ :=
  let clock := tenv.timeNow w.ext
  let now := clock.1
  let w₁ : TotpWorld τ := { w with ext := clock.2 }
  let res : Bool × TotpWorld τ :=
    if immediate then getcode tenv r immediate w₁
    else
      match w₁.lastElevate r.User with
      | some le =>
        if tenv.exceeds (timeSub now le) w₁.cfg.tf64 then getcode tenv r immediate w₁
        else (true, w₁)
      | none => getcode tenv r immediate w₁
  if res.1 ∧ res.2.cfg.tt = timeoutType.idle then
    (res.1, { res.2 with lastElevate := mapSet res.2.lastElevate r.User now })
  else res

/-- A TOTP environment in which the user always replies "123456", the stored
configuration exists and accepts exactly that code, and the clock (the external
state) reads a fixed time. -/
def demoTotpEnv : TotpEnv Int Unit :=
  { timeNow := fun s => (s, s), pause := fun _ s => s,
    waitForReply := fun _ _ _ s => (("123456", PlugRetVal.Ok), s),
    checkoutDatum := fun _ _ _ s => (("lock", true, PlugRetVal.Ok, ()), s),
    checkinDatum := fun _ _ _ s => s,
    updateDatum := fun _ _ _ _ s => (PlugRetVal.Ok, s),
    authenticate := fun d code => (code == "123456", false, d),
    exceeds := fun diff timeout => decide (diff > timeout * 1000000000) }

/-- A TOTP world at clock reading 10 s in which bob elevated at 9 s, with an
absolute timeout of one hour. -/
def demoTotpWorld : TotpWorld Int :=
  { lastElevate := fun u => if u = "bob" then some 9000000000 else none,
    cfg := ⟨3600, 3600, "absolute", timeoutType.absolute⟩,
    ext := 10000000000, said := [] }

/-- The `bot.Handler` handed to `provider`, reduced to the one method called on
it: `GetElevateConfig(&cfg)`, which may rewrite the configuration it is given. -/
structure Handler (τ : Type) where
  GetElevateConfig : config → τ → config × τ

/-- The conversion `float64(n)` of a Go `int`: exact below 2^53 in absolute
value, rounded to the nearest value with a 53-bit significand (ties to even)
above. The result is integral and is kept as an integer. -/
def float64 (n : Int) : Int :=
  let a := n.natAbs
  if a < 2 ^ 53 then n
  else
    let e := Nat.log2 a + 1 - 53
    let q := a / 2 ^ e
    let rest := a % 2 ^ e
    let rounded := if rest > 2 ^ (e - 1) ∨ (rest = 2 ^ (e - 1) ∧ q % 2 = 1) then q + 1 else q
    if n < 0 then -((rounded * 2 ^ e : Nat) : Int) else ((rounded * 2 ^ e : Nat) : Int)

/-- `provider(r)` (lines 116-124): loads the configuration, derives `tt` and
`tf64` from it, and returns `elevate`. -/
def provider {τ δ : Type} (tenv : TotpEnv τ δ) (r : Handler τ) (w : TotpWorld τ) :
    (Robot → Bool → TotpWorld τ → Bool × TotpWorld τ) × TotpWorld τ :=
  let loaded := r.GetElevateConfig w.cfg w.ext
  let cfg₁ : config :=
    if loaded.1.TimeoutType = "absolute" then { loaded.1 with tt := timeoutType.absolute }
    else loaded.1
  let cfg₂ : config := { cfg₁ with tf64 := float64 cfg₁.TimeoutSeconds }
  (elevate tenv, { w with cfg := cfg₂, ext := loaded.2 })

/-- The package state after `init()`: an empty `lastElevate` map and the zero
value of `cfg`. -/
def init {τ : Type} (ext : τ) : TotpWorld τ :=
  { lastElevate := fun _ => none, cfg := ⟨0, 0, "", timeoutType.idle⟩, ext := ext, said := [] }

/-- A handler whose configuration asks for an idle timeout of one hour. -/
def idleHandler : Handler Int :=
  ⟨fun c s => ({ c with TimeoutSeconds := 3600, TimeoutType := "idle" }, s)⟩

/-- A handler whose configuration asks for an absolute timeout of one hour. -/
def absoluteHandler : Handler Int :=
  ⟨fun c s => ({ c with TimeoutSeconds := 3600, TimeoutType := "absolute" }, s)⟩


/-- The TOTP world of `demoTotpWorld` with an idle timeout instead. -/
def idleTotpWorld : TotpWorld Int :=
  { demoTotpWorld with cfg := ⟨3600, 3600, "idle", timeoutType.idle⟩ }


/-- The reply `getcode` ends up with (lines 66-71), from the external state `s`
in which the first `WaitForReply` is issued: the first reply when its result
code is `Ok`, the reply to the second request otherwise. -/
def challengeReply {τ δ : Type} (tenv : TotpEnv τ δ) (r : Robot) (s : τ) :
    (String × PlugRetVal) × τ :=
  let first := tenv.waitForReply r "OTP" 30 s
  if first.1.2 ≠ PlugRetVal.Ok then tenv.waitForReply r "OTP" 30 first.2 else first

/-- A TOTP environment like `demoTotpEnv` in which the user replies "000000",
which the stored configuration does not accept. -/
def wrongCodeEnv : TotpEnv Int Unit :=
  { demoTotpEnv with waitForReply := fun _ _ _ s => (("000000", PlugRetVal.Ok), s) }


/-! # Lemmas and theorems -/

/-! ## Frame lemmas for the matching loops -/

theorem untouched_refl {σ : Type} (w : World σ) : Untouched w w :=
  ⟨rfl, rfl, rfl, rfl, rfl, rfl⟩

theorem untouched_trans {σ : Type} {w₁ w₂ w₃ : World σ} (h₁ : Untouched w₁ w₂)
    (h₂ : Untouched w₂ w₃) : Untouched w₁ w₃ :=
  ⟨h₂.pluginlist.trans h₁.pluginlist, h₂.replies.trans h₁.replies,
   h₂.paused.trans h₁.paused, h₂.shuttingDown.trans h₁.shuttingDown,
   h₂.scheduled.trans h₁.scheduled, h₂.sent.trans h₁.sent⟩

/-- Context resolution changes the world only in `ext` (the clock read); the
memory updates travel in the `CtxResult`. -/
theorem resolveContexts_fst {σ : Type} (env : Env σ) (bot : Robot) (m : InputMatcher)
    (args : List String) (w : World σ) :
    (resolveContexts env bot m args w).1 =
      { w with ext := (resolveContexts env bot m args w).1.ext } := by
  unfold resolveContexts
  split <;> rfl

theorem onMatch_post {σ : Type} (env : Env σ) (bot : Robot) (text : String)
    (plugin : Plugin) (m : InputMatcher) (st : ScanState σ) :
    ScanPost bot st (onMatch env bot text plugin m st) := by
  unfold onMatch
  simp only
  rw [resolveContexts_fst]
  split
  · exact ⟨rfl, ⟨rfl, rfl, rfl, rfl, rfl, rfl⟩, _, rfl⟩
  · exact ⟨⟨rfl, rfl, rfl, rfl, rfl, rfl⟩, rfl⟩
  · split
    · exact ⟨rfl, ⟨rfl, rfl, rfl, rfl, rfl, rfl⟩, _, rfl⟩
    · exact ⟨⟨rfl, rfl, rfl, rfl, rfl, rfl⟩, rfl⟩

theorem checkMatchers_post {σ : Type} (env : Env σ) (bot : Robot) (text : String)
    (plugin : Plugin) (ms : List InputMatcher) (st : ScanState σ) :
    ScanPost bot st (checkMatchers env bot text plugin ms st) := by
  induction ms with
  | nil => exact ⟨untouched_refl _, rfl⟩
  | cons m rest ih =>
    unfold checkMatchers
    split
    · exact onMatch_post env bot text plugin m st
    · exact ih

theorem scanPost_trans {σ : Type} {bot : Robot} {st st' : ScanState σ} {r : Scan σ}
    (h : ScanPost bot st (.cont st')) (h' : ScanPost bot st' r) : ScanPost bot st r := by
  obtain ⟨hu, hs⟩ := h
  cases r with
  | cont st'' => exact ⟨untouched_trans hu h'.1, h'.2.trans hs⟩
  | ret b w' =>
    obtain ⟨hb, hu', msg, hm⟩ := h'
    exact ⟨hb, untouched_trans hu hu', msg, by rw [hm, hs]⟩
  | panic w' => exact ⟨untouched_trans hu h'.1, h'.2.trans hs⟩

theorem checkPlugins_post {σ : Type} (env : Env σ) (cc : Bool) (bot : Robot) (text : String)
    (ps : List Plugin) (st : ScanState σ) :
    ScanPost bot st (checkPlugins env cc bot text ps st) := by
  induction ps generalizing st with
  | nil => exact ⟨untouched_refl _, rfl⟩
  | cons p rest ih =>
    unfold checkPlugins
    split
    · exact ih st
    · have hm := checkMatchers_post env bot text p (matchersOf cc p) st
      split
      · next st' heq =>
        rw [heq] at hm
        exact scanPost_trans hm (ih st')
      · next b w' heq => rw [heq] at hm; exact hm
      · next w' heq => rw [heq] at hm; exact hm

theorem scan_post {σ : Type} (env : Env σ) (cc : Bool) (bot : Robot) (text : String)
    (w : World σ) : ScanPost bot ⟨w, none, []⟩ (scan env cc bot text w) :=
  checkPlugins_post env cc bot text w.pluginlist ⟨w, none, []⟩

/-! ## The gates after matching -/

theorem sameStores_refl {σ : Type} (w : World σ) : SameStores w w :=
  ⟨rfl, rfl, rfl, rfl, rfl, rfl⟩

theorem authLoop_inl {σ : Type} (env : Env σ) (bot : Robot) (p : Plugin) (m : InputMatcher)
    (ps : List Plugin) (w : World σ) (b : Bool) (w' : World σ)
    (h : authLoop env bot p m ps w = .inl (b, w')) :
    SameStores w w' ∧ w'.said = w.said ∧ w'.scheduled = w.scheduled := by
  induction ps with
  | nil =>
    simp only [authLoop, Sum.inl.injEq, Prod.mk.injEq] at h
    obtain ⟨-, rfl⟩ := h
    exact ⟨sameStores_refl _, rfl, rfl⟩
  | cons a rest ih =>
    unfold authLoop at h
    split at h
    · split at h
      · split at h
        · cases h
        · simp only at h
          split at h
          · simp only [Sum.inl.injEq, Prod.mk.injEq] at h
            obtain ⟨-, rfl⟩ := h
            exact ⟨⟨rfl, rfl, rfl, rfl, rfl, rfl⟩, rfl, rfl⟩
          · split at h <;> cases h
      · cases h
    · exact ih h

theorem authLoop_inr {σ : Type} (env : Env σ) (bot : Robot) (p : Plugin) (m : InputMatcher)
    (ps : List Plugin) (w : World σ) (w' : World σ)
    (h : authLoop env bot p m ps w = .inr w') :
    SameStores w w' ∧ (∃ msg, w'.said = w.said ++ [(bot, msg)]) ∧
      w'.scheduled = w.scheduled := by
  induction ps with
  | nil => simp only [authLoop] at h; cases h
  | cons a rest ih =>
    unfold authLoop at h
    split at h
    · split at h
      · split at h
        · simp only [Sum.inr.injEq] at h
          subst h
          exact ⟨⟨rfl, rfl, rfl, rfl, rfl, rfl⟩, ⟨_, rfl⟩, rfl⟩
        · simp only at h
          split at h
          · cases h
          · split at h <;>
            · simp only [Sum.inr.injEq] at h
              subst h
              exact ⟨⟨rfl, rfl, rfl, rfl, rfl, rfl⟩, ⟨_, rfl⟩, rfl⟩
      · simp only [Sum.inr.injEq] at h
        subst h
        exact ⟨⟨rfl, rfl, rfl, rfl, rfl, rfl⟩, ⟨_, rfl⟩, rfl⟩
    · exact ih h

theorem elevateAndRun_eq {σ : Type} (env : Env σ) (bot : Robot) (p : Plugin) (m : InputMatcher)
    (args : List String) (w : World σ) :
    elevateAndRun env bot p m args w =
      if (elevationOk env bot p m w.ext).1 then
        { w with ext := (elevationOk env bot p m w.ext).2,
                 scheduled := w.scheduled ++ [⟨bot, p, true, true, m.Command, args⟩] }
      else ({ w with ext := (elevationOk env bot p m w.ext).2 }).say bot
        (elevationMsg m.Command) := rfl

theorem elevateLoop_none {σ : Type} (env : Env σ) (bot : Robot) (imm : Bool) (cmd : String)
    (hnone : env.elevator = none) (l : List String) (s : Bool × σ) :
    elevateLoop env bot imm cmd l s = (if cmd ∈ l then false else s.1, s.2) := by
  induction l generalizing s with
  | nil => simp [elevateLoop]
  | cons i rest ih =>
    unfold elevateLoop
    by_cases hc : cmd = i
    · subst hc
      simp only [if_true, hnone, ih, List.mem_cons, true_or]
      split <;> rfl
    · simp only [hc, if_false, ih, List.mem_cons, false_or]

theorem elevationOk_none {σ : Type} (env : Env σ) (bot : Robot) (p : Plugin) (m : InputMatcher)
    (e : σ) (hnone : env.elevator = none)
    (hel : m.Command ∈ p.ElevatedCommands ∨ m.Command ∈ p.ElevateImmediateCommands) :
    (elevationOk env bot p m e).1 = false := by
  unfold elevationOk
  rw [elevateLoop_none env bot _ _ hnone, elevateLoop_none env bot _ _ hnone]
  rcases hel with h | h
  · by_cases h' : m.Command ∈ p.ElevateImmediateCommands <;> simp [h, h']
  · simp [h]

theorem admissionRefusal_congr {σ : Type} {w w' : World σ} (hp : w'.paused = w.paused)
    (hs : w'.shuttingDown = w.shuttingDown) (p : Plugin) (m : InputMatcher) :
    admissionRefusal w' p m = admissionRefusal w p m := by
  simp only [admissionRefusal, hp, hs]

theorem checkPluginMatchers_of_scan {σ : Type} {env : Env σ} {cc : Bool} {bot : Robot}
    {text : String} {w w₁ : World σ} {p : Plugin} {m : InputMatcher} {args : List String}
    (h : scan env cc bot text w = .cont ⟨w₁, some (p, m), args⟩) :
    checkPluginMatchers env cc bot text w =
      .ok true (runMatched env bot w.pluginlist p m args w₁) := by
  simp only [checkPluginMatchers, h]

theorem scan_cont_frame {σ : Type} {env : Env σ} {cc : Bool} {bot : Robot}
    {text : String} {w : World σ} {st : ScanState σ}
    (h : scan env cc bot text w = .cont st) : Untouched w st.w ∧ st.w.said = w.said := by
  have := scan_post env cc bot text w
  rw [h] at this
  exact this

/-- The outcome of the gates when the elevation gate refuses: nothing is
scheduled and one refusal is said, which is the elevation refusal once the
lifecycle check and authorization have let the command through. -/
theorem runMatched_refused {σ : Type} (env : Env σ) (bot : Robot) (plugins : List Plugin)
    (p : Plugin) (m : InputMatcher) (args : List String) (w : World σ)
    (hel : ∀ e, (elevationOk env bot p m e).1 = false) :
    (runMatched env bot plugins p m args w).scheduled = w.scheduled ∧
    ∃ msg, (runMatched env bot plugins p m args w).said = w.said ++ [(bot, msg)] ∧
      (admissionRefusal w p m = none → authorizationPasses env bot plugins p m w →
        msg = elevationMsg m.Command) := by
  unfold runMatched authorizeAndRun
  split
  · next msg hadm =>
    exact ⟨rfl, msg, rfl, fun h => by rw [hadm] at h; cases h⟩
  · next hadm =>
    split
    · next hauth =>
      split
      · next w' hloop =>
        obtain ⟨-, ⟨msg, hmsg⟩, hsch⟩ := authLoop_inr env bot p m plugins w w' hloop
        refine ⟨hsch, msg, hmsg, fun _ hpass => ?_⟩
        rcases hpass with h | ⟨w'', h⟩
        · exact absurd h hauth
        · rw [hloop] at h; cases h
      · next authorized w' hloop =>
        obtain ⟨-, hsaid, hsch⟩ := authLoop_inl env bot p m plugins w authorized w' hloop
        cases authorized with
        | false =>
          refine ⟨hsch, authMechanismMsg, by simp [World.say, hsaid], fun _ hpass => ?_⟩
          rcases hpass with h | ⟨w'', h⟩
          · exact absurd h hauth
          · rw [hloop] at h; cases h
        | true =>
          simp only [Bool.not_true, Bool.false_eq_true, if_false, elevateAndRun_eq, hel]
          exact ⟨hsch, elevationMsg m.Command, by simp [World.say, hsaid], fun _ _ => rfl⟩
    · simp only [elevateAndRun_eq, hel, Bool.false_eq_true, if_false]
      exact ⟨rfl, elevationMsg m.Command, rfl, fun _ _ => rfl⟩

/-! ## C1: elevation fails closed -/

/-- C1 (amended): when no elevation provider is registered, a matched command
listed in the plugin's standard or immediate elevated-command set is never
scheduled: `checkPluginMatchers` returns `true`, leaves the schedule unchanged
and says exactly one refusal. That refusal names the command whenever the
command was admitted by the lifecycle check and passed authorization (both run
before the elevation gate). -/
theorem elevation_fail_closed {σ : Type} (env : Env σ) (cc : Bool) (bot : Robot)
    (text : String) (w w₁ : World σ) (p : Plugin) (m : InputMatcher) (args : List String)
    (hscan : scan env cc bot text w = .cont ⟨w₁, some (p, m), args⟩)
    (hel : m.Command ∈ p.ElevatedCommands ∨ m.Command ∈ p.ElevateImmediateCommands)
    (hnone : env.elevator = none) :
    ∃ w' msg, checkPluginMatchers env cc bot text w = .ok true w' ∧
      w'.scheduled = w.scheduled ∧ w'.said = w.said ++ [(bot, msg)] ∧
      (admissionRefusal w p m = none →
        authorizationPasses env bot w.pluginlist p m w₁ → msg = elevationMsg m.Command) := by
  obtain ⟨hu, hsaid⟩ := scan_cont_frame hscan
  simp only at hu hsaid
  obtain ⟨hsch, msg, hmsg, hname⟩ := runMatched_refused env bot w.pluginlist p m args w₁
    (fun e => elevationOk_none env bot p m e hnone hel)
  refine ⟨_, msg, checkPluginMatchers_of_scan hscan, ?_, ?_, ?_⟩
  · rw [hsch, hu.scheduled]
  · rw [hmsg, hsaid]
  · intro hadm hpass
    exact hname (by rw [admissionRefusal_congr hu.paused hu.shuttingDown]; exact hadm) hpass

/-- Witness for C1: the elevated command `open` of `doorPlugin`, with no provider. -/
theorem elevation_fail_closed_witness :
    ("open" ∈ doorPlugin.ElevatedCommands ∨ "open" ∈ doorPlugin.ElevateImmediateCommands) ∧
    demoEnv.elevator = none ∧
    ∃ w' msg, checkPluginMatchers demoEnv true bob "open door" (demoWorld [doorPlugin]) =
        .ok true w' ∧
      w'.scheduled = [] ∧ w'.said = [] ++ [(bob, msg)] ∧
      (admissionRefusal (demoWorld [doorPlugin]) doorPlugin
          (literalMatcher "open" "open door" ["door"] []) = none →
        authorizationPasses demoEnv bob [doorPlugin] doorPlugin
          (literalMatcher "open" "open door" ["door"] []) (demoWorld [doorPlugin]) →
        msg = elevationMsg "open") :=
  ⟨Or.inl (by decide), rfl,
    elevation_fail_closed demoEnv true bob "open door" (demoWorld [doorPlugin])
      (demoWorld [doorPlugin]) doorPlugin (literalMatcher "open" "open door" ["door"] [])
      ["door"] rfl (Or.inl (by decide)) rfl⟩

/-- C1 as stated fails while the robot is shutting down: the elevated command
`open` is matched and no provider is registered, but the only thing said is the
shutdown refusal, which does not name the command. -/
theorem elevation_refusal_preempted_by_shutdown :
    (∃ w₁ args, scan demoEnv true bob "open door"
        { demoWorld [doorPlugin] with shuttingDown := true } =
      .cont ⟨w₁, some (doorPlugin, literalMatcher "open" "open door" ["door"] []), args⟩) ∧
    "open" ∈ doorPlugin.ElevatedCommands ∧
    demoEnv.elevator = none ∧
    (checkPluginMatchers demoEnv true bob "open door"
        { demoWorld [doorPlugin] with shuttingDown := true }).world.said =
      [(bob, "Sorry, I'm shutting down and can't start any new tasks")] ∧
    (bob, elevationMsg "open") ∉
      (checkPluginMatchers demoEnv true bob "open door"
        { demoWorld [doorPlugin] with shuttingDown := true }).world.said :=
  ⟨⟨_, _, rfl⟩, by decide, rfl, by decide, by decide⟩

/-! ## C2: authorization -/

theorem plugAllowed_iff (p a : Plugin) :
    plugAllowed p a = true ↔ a.TrustAllPlugins = true ∨ p.name ∈ a.TrustedPlugins := by
  unfold plugAllowed
  by_cases ht : a.TrustAllPlugins = true
  · simp [ht]
  · by_cases hl : a.TrustedPlugins.length > 0
    · simp [ht, hl]
    · have : a.TrustedPlugins = [] := by
        cases h : a.TrustedPlugins with
        | nil => rfl
        | cons x xs => rw [h] at hl; simp at hl
      simp [ht, this]

theorem authLoop_authorized {σ : Type} (env : Env σ) (bot : Robot) (p : Plugin)
    (m : InputMatcher) (ps : List Plugin) (w w' : World σ)
    (h : authLoop env bot p m ps w = .inl (true, w')) :
    ∃ a ∈ ps, a.name = p.Authorizer ∧ plugAllowed p a = true ∧
      pluginAvailable env bot.User bot.Channel a = true ∧
      (env.callPlugin bot a "authorize" (authorizeArgs p m) w.ext).1 = PlugRetVal.Success := by
  induction ps with
  | nil => simp [authLoop] at h
  | cons a rest ih =>
    unfold authLoop at h
    split at h
    · next hname =>
      split at h
      · next hallowed =>
        split at h
        · cases h
        · next havail =>
          simp only at h
          split at h
          · next hret =>
            refine ⟨a, List.mem_cons_self _ _, hname.symm, hallowed, ?_, hret⟩
            simpa using havail
          · split at h <;> cases h
      · cases h
    · obtain ⟨a', hmem, hrest⟩ := ih h
      exact ⟨a', List.mem_cons_of_mem _ hmem, hrest⟩

theorem runMatched_scheduled {σ : Type} (env : Env σ) (bot : Robot) (plugins : List Plugin)
    (p : Plugin) (m : InputMatcher) (args : List String) (w : World σ)
    (hauth : p.Authorizer ≠ "")
    (hsched : (runMatched env bot plugins p m args w).scheduled ≠ w.scheduled) :
    ∃ w', authLoop env bot p m plugins w = .inl (true, w') := by
  unfold runMatched authorizeAndRun at hsched
  split at hsched
  · exact absurd rfl hsched
  · simp only [hauth, ne_eq, not_false_eq_true, if_true] at hsched
    split at hsched
    · next w' hloop => exact absurd (authLoop_inr env bot p m plugins w w' hloop).2.2 hsched
    · next authorized w' hloop =>
      cases authorized with
      | false =>
        exact absurd (authLoop_inl env bot p m plugins w false w' hloop).2.2 hsched
      | true => exact ⟨w', hloop⟩

/-- C2: a matched command whose plugin names an authorizer is scheduled only if
a registered plugin carries the authorizer's name, that plugin trusts the
calling plugin (trust-all, or the caller's name is in its trusted list), it is
available to the message's user and channel, and its synchronous invocation
with command "authorize" and arguments (calling plugin name, matched command,
"", required-auth-level) returned `Success`. -/
theorem scheduled_only_if_authorized {σ : Type} (env : Env σ) (cc : Bool) (bot : Robot)
    (text : String) (w w₁ : World σ) (p : Plugin) (m : InputMatcher) (args : List String)
    (hscan : scan env cc bot text w = .cont ⟨w₁, some (p, m), args⟩)
    (hauth : p.Authorizer ≠ "")
    (hsched : (checkPluginMatchers env cc bot text w).world.scheduled ≠ w.scheduled) :
    ∃ a ∈ w.pluginlist, a.name = p.Authorizer ∧
      (a.TrustAllPlugins = true ∨ p.name ∈ a.TrustedPlugins) ∧
      pluginAvailable env bot.User bot.Channel a = true ∧
      (env.callPlugin bot a "authorize" [p.name, m.Command, "", p.AuthRequire] w₁.ext).1 =
        PlugRetVal.Success := by
  obtain ⟨hu, -⟩ := scan_cont_frame hscan
  simp only at hu
  rw [checkPluginMatchers_of_scan hscan] at hsched
  simp only [Result.world] at hsched
  rw [← hu.scheduled] at hsched
  obtain ⟨w', hloop⟩ := runMatched_scheduled env bot w.pluginlist p m args w₁ hauth hsched
  obtain ⟨a, hmem, hname, hallowed, havail, hret⟩ :=
    authLoop_authorized env bot p m w.pluginlist w₁ w' hloop
  exact ⟨a, hmem, hname, (plugAllowed_iff p a).1 hallowed, havail, hret⟩

/-- Witness for C2: `unlock` of `safePlugin`, authorized by `guardPlugin`. -/
theorem scheduled_only_if_authorized_witness :
    safePlugin.Authorizer ≠ "" ∧
    (checkPluginMatchers demoEnv true bob "unlock safe"
      (demoWorld [safePlugin, guardPlugin])).world.scheduled.length = 1 ∧
    ∃ a ∈ [safePlugin, guardPlugin], a.name = "guard" ∧
      (a.TrustAllPlugins = true ∨ "safe" ∈ a.TrustedPlugins) ∧
      pluginAvailable demoEnv "bob" "general" a = true ∧
      (demoEnv.callPlugin bob a "authorize" ["safe", "unlock", "", "ops"] 0).1 =
        PlugRetVal.Success :=
  ⟨by decide, by decide,
    scheduled_only_if_authorized demoEnv true bob "unlock safe"
      (demoWorld [safePlugin, guardPlugin]) (demoWorld [safePlugin, guardPlugin]) safePlugin
      (literalMatcher "unlock" "unlock safe" [] []) [] rfl (by decide)
      (fun h => absurd (congrArg List.length h) (by decide))⟩

/-! ## The gates as a whole -/

theorem runMatched_sameStores {σ : Type} (env : Env σ) (bot : Robot) (plugins : List Plugin)
    (p : Plugin) (m : InputMatcher) (args : List String) (w : World σ) :
    SameStores w (runMatched env bot plugins p m args w) := by
  unfold runMatched authorizeAndRun
  split
  · exact ⟨rfl, rfl, rfl, rfl, rfl, rfl⟩
  · split
    · split
      · next w' hloop => exact (authLoop_inr env bot p m plugins w w' hloop).1
      · next authorized w' hloop =>
        have hs := (authLoop_inl env bot p m plugins w authorized w' hloop).1
        split
        · exact ⟨hs.pluginlist, hs.shortTermMemories, hs.replies, hs.paused, hs.shuttingDown,
            hs.sent⟩
        · rw [elevateAndRun_eq]
          split
          · exact ⟨hs.pluginlist, hs.shortTermMemories, hs.replies, hs.paused,
              hs.shuttingDown, hs.sent⟩
          · exact ⟨hs.pluginlist, hs.shortTermMemories, hs.replies, hs.paused,
              hs.shuttingDown, hs.sent⟩
    · rw [elevateAndRun_eq]
      split <;> exact ⟨rfl, rfl, rfl, rfl, rfl, rfl⟩

/-- A command that passes the gates is scheduled, once, and nothing is said. -/
theorem runMatched_of_passesGates {σ : Type} (env : Env σ) (bot : Robot)
    (plugins : List Plugin) (p : Plugin) (m : InputMatcher) (args : List String)
    (w : World σ) (h : passesGates env bot plugins p m w) :
    (runMatched env bot plugins p m args w).scheduled =
        w.scheduled ++ [⟨bot, p, true, true, m.Command, args⟩] ∧
      (runMatched env bot plugins p m args w).said = w.said := by
  obtain ⟨hadm, hpass, hel⟩ := h
  unfold afterAuthorization at hel
  unfold runMatched authorizeAndRun
  rw [hadm]
  simp only
  by_cases hauth : p.Authorizer = ""
  · simp only [hauth, ne_eq, not_true_eq_false, if_false, elevateAndRun_eq] at hel ⊢
    rw [hel]
    exact ⟨rfl, rfl⟩
  · rcases hpass with h | ⟨w', hloop⟩
    · exact absurd h hauth
    · obtain ⟨-, hsaid, hsch⟩ := authLoop_inl env bot p m plugins w true w' hloop
      simp only [hauth, ne_eq, not_false_eq_true, if_true, hloop, elevateAndRun_eq,
        Bool.not_true, Bool.false_eq_true, if_false] at hel ⊢
      rw [hel]
      exact ⟨by simp [hsch], hsaid⟩

/-- A command that does not pass the gates is not scheduled; one refusal is said. -/
theorem runMatched_of_not_passesGates {σ : Type} (env : Env σ) (bot : Robot)
    (plugins : List Plugin) (p : Plugin) (m : InputMatcher) (args : List String)
    (w : World σ) (h : ¬ passesGates env bot plugins p m w) :
    (runMatched env bot plugins p m args w).scheduled = w.scheduled ∧
      ∃ msg, (runMatched env bot plugins p m args w).said = w.said ++ [(bot, msg)] := by
  unfold passesGates afterAuthorization authorizationPasses at h
  unfold runMatched authorizeAndRun
  split
  · exact ⟨rfl, _, rfl⟩
  · next hadm =>
    split
    · next hauth =>
      split
      · next w' hloop =>
        obtain ⟨-, hmsg, hsch⟩ := authLoop_inr env bot p m plugins w w' hloop
        exact ⟨hsch, hmsg⟩
      · next authorized w' hloop =>
        obtain ⟨-, hsaid, hsch⟩ := authLoop_inl env bot p m plugins w authorized w' hloop
        cases authorized with
        | false => exact ⟨hsch, authMechanismMsg, by simp [World.say, hsaid]⟩
        | true =>
          simp only [hadm, hauth, hloop, ne_eq, not_false_eq_true, if_true, true_and] at h
          have hel : (elevationOk env bot p m w'.ext).1 = false := by
            cases hv : (elevationOk env bot p m w'.ext).1 with
            | false => rfl
            | true => exact absurd ⟨Or.inr ⟨w', rfl⟩, hv⟩ h
          simp only [Bool.not_true, Bool.false_eq_true, if_false, elevateAndRun_eq, hel]
          exact ⟨hsch, elevationMsg m.Command, by simp [World.say, hsaid]⟩
    · next hauth =>
      simp only [ne_eq, not_not] at hauth
      simp only [hadm, hauth, ne_eq, not_true_eq_false, if_false, true_or, true_and] at h
      have hel : (elevationOk env bot p m w.ext).1 = false := by
        cases hv : (elevationOk env bot p m w.ext).1 with
        | false => rfl
        | true => exact absurd hv h
      simp only [elevateAndRun_eq, hel, Bool.false_eq_true, if_false]
      exact ⟨rfl, elevationMsg m.Command, rfl⟩

/-! ## C5: the lifecycle admission check -/

theorem isAbort_iff (p : Plugin) (m : InputMatcher) :
    isAbort p m = true ↔ p.name = "builtInadmin" ∧ m.Command = "abort" := by
  simp [isAbort]

theorem admissionRefusal_isSome_iff {σ : Type} (w : World σ) (p : Plugin) (m : InputMatcher) :
    (∃ msg, admissionRefusal w p m = some msg) ↔
      (w.shuttingDown = true ∨ w.paused = true) ∧
        ¬ (p.name = "builtInadmin" ∧ m.Command = "abort") := by
  rw [← isAbort_iff]
  unfold admissionRefusal
  cases w.shuttingDown <;> cases w.paused <;> cases isAbort p m <;> simp

theorem admissionRefusal_msg {σ : Type} (w : World σ) (p : Plugin) (m : InputMatcher)
    (msg : String) (h : admissionRefusal w p m = some msg) :
    msg = shuttingDownMsg ∨ msg = pausedMsg := by
  unfold admissionRefusal at h
  simp only at h
  split at h
  · left; simpa using h.symm
  · split at h
    · right; simpa using h.symm
    · cases h

/-- C5: for every combination of the `paused` and `shuttingDown` flags, the
lifecycle check of `checkPluginMatchers` refuses a matched command if and only
if `shuttingDown` or `paused` holds and the command is not the reserved abort
command (command "abort" of plugin "builtInadmin"); a refusal says the shutdown
or pause message and ends the call, an admitted command goes on to
authorization. In particular the abort command is always admitted. -/
theorem lifecycle_admission {σ : Type} (env : Env σ) (cc : Bool) (bot : Robot)
    (text : String) (w w₁ : World σ) (p : Plugin) (m : InputMatcher) (args : List String)
    (hscan : scan env cc bot text w = .cont ⟨w₁, some (p, m), args⟩) :
    ((∃ msg, admissionRefusal w p m = some msg) ↔
      (w.shuttingDown = true ∨ w.paused = true) ∧
        ¬ (p.name = "builtInadmin" ∧ m.Command = "abort")) ∧
    (∀ msg, admissionRefusal w p m = some msg →
      (msg = shuttingDownMsg ∨ msg = pausedMsg) ∧
      checkPluginMatchers env cc bot text w = .ok true (w₁.say bot msg)) ∧
    (admissionRefusal w p m = none →
      checkPluginMatchers env cc bot text w =
        .ok true (authorizeAndRun env bot w.pluginlist p m args w₁)) := by
  obtain ⟨hu, -⟩ := scan_cont_frame hscan
  simp only at hu
  have hadm := admissionRefusal_congr hu.paused hu.shuttingDown p m
  refine ⟨admissionRefusal_isSome_iff w p m, fun msg h => ⟨admissionRefusal_msg w p m msg h, ?_⟩,
    fun h => ?_⟩
  · rw [checkPluginMatchers_of_scan hscan]
    simp only [runMatched, hadm, h]
  · rw [checkPluginMatchers_of_scan hscan]
    simp only [runMatched, hadm, h]

/-- Witness for C5: a paused robot refuses `open` of `doorPlugin`. -/
theorem lifecycle_admission_witness :
    ((∃ msg, admissionRefusal { demoWorld [doorPlugin] with paused := true } doorPlugin
        (literalMatcher "open" "open door" ["door"] []) = some msg) ↔
      ((false = true ∨ true = true) ∧ ¬ ("door" = "builtInadmin" ∧ "open" = "abort"))) ∧
    (∀ msg, admissionRefusal { demoWorld [doorPlugin] with paused := true } doorPlugin
        (literalMatcher "open" "open door" ["door"] []) = some msg →
      (msg = shuttingDownMsg ∨ msg = pausedMsg) ∧
      checkPluginMatchers demoEnv true bob "open door"
          { demoWorld [doorPlugin] with paused := true } =
        .ok true (World.say { demoWorld [doorPlugin] with paused := true } bob msg)) ∧
    (admissionRefusal { demoWorld [doorPlugin] with paused := true } doorPlugin
        (literalMatcher "open" "open door" ["door"] []) = none →
      checkPluginMatchers demoEnv true bob "open door"
          { demoWorld [doorPlugin] with paused := true } =
        .ok true (authorizeAndRun demoEnv bob [doorPlugin] doorPlugin
          (literalMatcher "open" "open door" ["door"] []) ["door"]
          { demoWorld [doorPlugin] with paused := true })) :=
  lifecycle_admission demoEnv true bob "open door" { demoWorld [doorPlugin] with paused := true }
    { demoWorld [doorPlugin] with paused := true } doorPlugin
    (literalMatcher "open" "open door" ["door"] []) ["door"] rfl

/-! ## What one call of `checkPluginMatchers` schedules -/

/-- Every call of `checkPluginMatchers` keeps the flags, the plugin list, the
waiters and the sent replies, and either schedules nothing or schedules exactly
the matched command, which then has passed the three gates. -/
theorem checkPluginMatchers_scheduled {σ : Type} (env : Env σ) (cc : Bool) (bot : Robot)
    (text : String) (w : World σ) :
    (checkPluginMatchers env cc bot text w).world.paused = w.paused ∧
    (checkPluginMatchers env cc bot text w).world.shuttingDown = w.shuttingDown ∧
    (checkPluginMatchers env cc bot text w).world.pluginlist = w.pluginlist ∧
    (checkPluginMatchers env cc bot text w).world.replies = w.replies ∧
    (checkPluginMatchers env cc bot text w).world.sent = w.sent ∧
    ((checkPluginMatchers env cc bot text w).world.scheduled = w.scheduled ∨
      ∃ w₁ p m args, scan env cc bot text w = .cont ⟨w₁, some (p, m), args⟩ ∧
        passesGates env bot w.pluginlist p m w₁ ∧
        (checkPluginMatchers env cc bot text w).world.scheduled =
          w.scheduled ++ [⟨bot, p, true, true, m.Command, args⟩]) := by
  have hpost := scan_post env cc bot text w
  unfold checkPluginMatchers
  cases hs : scan env cc bot text w with
  | ret b w' =>
    rw [hs] at hpost
    obtain ⟨-, hu, -⟩ := hpost
    exact ⟨hu.paused, hu.shuttingDown, hu.pluginlist, hu.replies, hu.sent, Or.inl hu.scheduled⟩
  | panic w' =>
    rw [hs] at hpost
    obtain ⟨hu, -⟩ := hpost
    exact ⟨hu.paused, hu.shuttingDown, hu.pluginlist, hu.replies, hu.sent, Or.inl hu.scheduled⟩
  | cont st =>
    rw [hs] at hpost
    obtain ⟨hu, -⟩ := hpost
    simp only at hu
    obtain ⟨w₁, sel, args⟩ := st
    cases sel with
    | none =>
      exact ⟨hu.paused, hu.shuttingDown, hu.pluginlist, hu.replies, hu.sent,
        Or.inl hu.scheduled⟩
    | some pm =>
      obtain ⟨p, m⟩ := pm
      simp only [Result.world]
      have hss := runMatched_sameStores env bot w.pluginlist p m args w₁
      refine ⟨hss.paused.trans hu.paused, hss.shuttingDown.trans hu.shuttingDown,
        hss.pluginlist.trans hu.pluginlist, hss.replies.trans hu.replies,
        hss.sent.trans hu.sent, ?_⟩
      by_cases hg : passesGates env bot w.pluginlist p m w₁
      · right
        refine ⟨w₁, p, m, args, rfl, hg, ?_⟩
        rw [(runMatched_of_passesGates env bot w.pluginlist p m args w₁ hg).1, hu.scheduled]
      · left
        rw [(runMatched_of_not_passesGates env bot w.pluginlist p m args w₁ hg).1, hu.scheduled]

theorem scheduledOnly_refl {σ : Type} (Q : PluginCall → Prop) (w : World σ) :
    ScheduledOnly Q w w :=
  ⟨rfl, rfl, [], by simp, by simp⟩

theorem scheduledOnly_of_eq {σ : Type} (Q : PluginCall → Prop) {w w' : World σ}
    (hp : w'.paused = w.paused) (hs : w'.shuttingDown = w.shuttingDown)
    (hsch : w'.scheduled = w.scheduled) : ScheduledOnly Q w w' :=
  ⟨hp, hs, [], by simp [hsch], by simp⟩

theorem scheduledOnly_trans {σ : Type} {Q : PluginCall → Prop} {a b c : World σ}
    (h₁ : ScheduledOnly Q a b) (h₂ : ScheduledOnly Q b c) : ScheduledOnly Q a c := by
  obtain ⟨hp₁, hs₁, e₁, he₁, hq₁⟩ := h₁
  obtain ⟨hp₂, hs₂, e₂, he₂, hq₂⟩ := h₂
  refine ⟨hp₂.trans hp₁, hs₂.trans hs₁, e₁ ++ e₂, by rw [he₂, he₁, List.append_assoc], ?_⟩
  intro c hc
  rcases List.mem_append.1 hc with h | h
  · exact hq₁ c h
  · exact hq₂ c h

/-- While paused or shutting down, `checkPluginMatchers` schedules nothing but
the reserved abort command. -/
theorem checkPluginMatchers_abort_only {σ : Type} (env : Env σ) (cc : Bool) (bot : Robot)
    (text : String) (w : World σ) (h : w.shuttingDown = true ∨ w.paused = true) :
    ScheduledOnly IsAbortCall w (checkPluginMatchers env cc bot text w).world := by
  obtain ⟨hp, hs, -, -, -, hsch⟩ := checkPluginMatchers_scheduled env cc bot text w
  rcases hsch with hsch | ⟨w₁, p, m, args, hscan, hg, hsch⟩
  · exact scheduledOnly_of_eq _ hp hs hsch
  · refine ⟨hp, hs, _, hsch, ?_⟩
    intro c hc
    simp only [List.mem_singleton] at hc
    subst hc
    obtain ⟨hu, -⟩ := scan_cont_frame hscan
    simp only at hu
    have hadm : admissionRefusal w p m = none := by
      rw [← admissionRefusal_congr hu.paused hu.shuttingDown]; exact hg.1
    by_contra hna
    obtain ⟨msg, hmsg⟩ := (admissionRefusal_isSome_iff w p m).2 ⟨h, hna⟩
    rw [hadm] at hmsg
    cases hmsg

/-! ## C3: nothing but the abort command is scheduled while shutting down -/

theorem bind_scheduledOnly {σ α β : Type} {Q : PluginCall → Prop} {w : World σ}
    {r : Result σ α} {f : α → World σ → Result σ β}
    (h₁ : ScheduledOnly Q w r.world)
    (h₂ : ∀ v w', r = .ok v w' → ScheduledOnly Q w' (f v w').world) :
    ScheduledOnly Q w (r.bind f).world := by
  cases r with
  | ok v w' => exact scheduledOnly_trans h₁ (h₂ v w' rfl)
  | panic w' => exact h₁

theorem bind_ok_world {σ α β : Type} (r : Result σ α) (g : α → β) :
    (r.bind fun v w' => .ok (g v) w').world = r.world := by
  cases r <;> rfl

theorem blankStage_abort_only {σ : Type} (env : Env σ) (isCommand : Bool) (bot : Robot)
    (ts : Int) (l : Locals) (w : World σ) (h : w.shuttingDown = true ∨ w.paused = true) :
    ScheduledOnly IsAbortCall w (blankStage env isCommand bot ts l w).world := by
  unfold blankStage
  split
  · split
    · split
      · rw [bind_ok_world]
        exact checkPluginMatchers_abort_only env true bot _ w h
      · exact scheduledOnly_of_eq _ rfl rfl rfl
    · exact scheduledOnly_of_eq _ rfl rfl rfl
  · exact scheduledOnly_refl _ _

theorem commandStage_abort_only {σ : Type} (env : Env σ) (isCommand : Bool) (bot : Robot)
    (plugins : List Plugin) (l : Locals) (w : World σ)
    (h : w.shuttingDown = true ∨ w.paused = true) :
    ScheduledOnly IsAbortCall w (commandStage env isCommand bot plugins l w).world := by
  unfold commandStage
  split
  · rw [bind_ok_world]
    exact checkPluginMatchers_abort_only env true bot _ w h
  · exact scheduledOnly_refl _ _

theorem ambientStage_abort_only {σ : Type} (env : Env σ) (isCommand : Bool) (bot : Robot)
    (l : Locals) (w : World σ) (h : w.shuttingDown = true ∨ w.paused = true) :
    ScheduledOnly IsAbortCall w (ambientStage env isCommand bot l w).world := by
  unfold ambientStage
  split
  · rw [bind_ok_world]
    exact checkPluginMatchers_abort_only env false bot _ w h
  · exact scheduledOnly_refl _ _

theorem replyStage_frame {σ : Type} (bot : Robot) (l : Locals) (w : World σ) :
    (replyStage bot l w).2.paused = w.paused ∧
    (replyStage bot l w).2.shuttingDown = w.shuttingDown ∧
    (replyStage bot l w).2.scheduled = w.scheduled ∧
    (replyStage bot l w).2.said = w.said ∧
    (replyStage bot l w).2.pluginlist = w.pluginlist ∧
    (replyStage bot l w).2.shortTermMemories = w.shortTermMemories ∧
    (replyStage bot l w).2.ext = w.ext := by
  unfold replyStage
  simp only
  split
  · exact ⟨rfl, rfl, rfl, rfl, rfl, rfl, rfl⟩
  · split <;> exact ⟨rfl, rfl, rfl, rfl, rfl, rfl, rfl⟩

theorem catchAllStage_shuttingDown {σ : Type} (isCommand : Bool) (bot : Robot) (l : Locals)
    (w : World σ) (h : w.shuttingDown = true) : catchAllStage isCommand bot l w = w := by
  unfold catchAllStage
  simp [h]

/-- C3: whenever `shuttingDown` is true, every plugin body that `handleMessage`
schedules for an inbound message - through a command match, an ambient match or
as a catch-all - is the reserved abort command (command "abort" of plugin
"builtInadmin"); for every other message it schedules nothing. -/
theorem shutdown_schedules_only_abort {σ : Type} (env : Env σ) (isCommand : Bool)
    (channel user messagetext : String) (w : World σ) (h : w.shuttingDown = true) :
    ∃ extra, (handleMessage env isCommand channel user messagetext w).world.scheduled =
        w.scheduled ++ extra ∧
      ∀ c ∈ extra, c.plugin.name = "builtInadmin" ∧ c.command = "abort" := by
  have key : ScheduledOnly IsAbortCall { w with ext := (env.timeNow w.ext).2 }
      (handleMessage env isCommand channel user messagetext w).world := by
    unfold handleMessage
    simp only
    refine bind_scheduledOnly (blankStage_abort_only _ _ _ _ _ _ (Or.inl h)) ?_
    intro l₁ w₁ h₁
    unfold handleTail
    have s₁ := blankStage_abort_only env isCommand ⟨user, channel, ""⟩ (env.timeNow w.ext).1
      ⟨messagetext, false, [], false⟩ { w with ext := (env.timeNow w.ext).2 } (Or.inl h)
    rw [h₁] at s₁
    have hw₁ : w₁.shuttingDown = true := s₁.2.1.trans h
    refine bind_scheduledOnly (commandStage_abort_only _ _ _ _ _ _ (Or.inl hw₁)) ?_
    intro l₂ w₂ h₂
    have s₂ := commandStage_abort_only env isCommand ⟨user, channel, ""⟩ w.pluginlist l₁ w₁
      (Or.inl hw₁)
    rw [h₂] at s₂
    have hw₂ : w₂.shuttingDown = true := s₂.2.1.trans hw₁
    obtain ⟨rp, rs, rsch, -⟩ := replyStage_frame ⟨user, channel, ""⟩ l₂ w₂
    have hw₃ : (replyStage ⟨user, channel, ""⟩ l₂ w₂).2.shuttingDown = true := rs.trans hw₂
    refine scheduledOnly_trans (scheduledOnly_of_eq _ rp rs rsch) ?_
    refine bind_scheduledOnly (ambientStage_abort_only _ _ _ _ _ (Or.inl hw₃)) ?_
    intro l₄ w₄ h₄
    have s₄ := ambientStage_abort_only env isCommand ⟨user, channel, ""⟩
      (replyStage ⟨user, channel, ""⟩ l₂ w₂).1 (replyStage ⟨user, channel, ""⟩ l₂ w₂).2
      (Or.inl hw₃)
    rw [h₄] at s₄
    have hw₄ : w₄.shuttingDown = true := s₄.2.1.trans hw₃
    simp only [Result.world, catchAllStage_shuttingDown _ _ _ _ hw₄]
    unfold bookkeepingStage
    split <;> exact scheduledOnly_of_eq _ rfl rfl rfl
  obtain ⟨-, -, extra, he, hq⟩ := key
  exact ⟨extra, he, hq⟩

/-- Witness for C3: while shutting down, a directed "abort" is the one thing
that still gets scheduled. -/
theorem shutdown_schedules_only_abort_witness :
    ((handleMessage demoEnv true "general" "bob" "abort"
        { demoWorld [adminPlugin, doorPlugin] with shuttingDown := true }).world.scheduled.map
      fun c => (c.plugin.name, c.command)) = [("builtInadmin", "abort")] ∧
    ∃ extra, (handleMessage demoEnv true "general" "bob" "abort"
        { demoWorld [adminPlugin, doorPlugin] with shuttingDown := true }).world.scheduled =
          [] ++ extra ∧
      ∀ c ∈ extra, c.plugin.name = "builtInadmin" ∧ c.command = "abort" :=
  ⟨by decide, shutdown_schedules_only_abort demoEnv true "general" "bob" "abort"
    { demoWorld [adminPlugin, doorPlugin] with shuttingDown := true } rfl⟩

/-! ## Anatomy of the matching loops -/

theorem checkMatchers_eq {σ : Type} (env : Env σ) (bot : Robot) (text : String)
    (plugin : Plugin) (ms : List InputMatcher) (st : ScanState σ) :
    checkMatchers env bot text plugin ms st =
      match firstMatch text ms with
      | none => .cont st
      | some m => onMatch env bot text plugin m st := by
  induction ms with
  | nil => rfl
  | cons m rest ih =>
    unfold checkMatchers firstMatch
    split
    · rfl
    · exact ih

theorem firstMatch_some {text : String} {ms : List InputMatcher} {m : InputMatcher}
    (h : firstMatch text ms = some m) :
    m.re text ≠ [] ∧ ∃ before after, ms = before ++ m :: after ∧
      ∀ m' ∈ before, m'.re text = [] := by
  induction ms with
  | nil => cases h
  | cons a rest ih =>
    unfold firstMatch at h
    split at h
    · next hm =>
      cases h
      exact ⟨hm, [], rest, rfl, by simp⟩
    · next hm =>
      obtain ⟨hne, before, after, heq, hb⟩ := ih h
      refine ⟨hne, a :: before, after, by rw [heq]; rfl, ?_⟩
      intro m' hm'
      rcases List.mem_cons.1 hm' with rfl | hmem
      · simpa using hm
      · exact hb m' hmem

theorem firstMatch_append {text : String} {before after : List InputMatcher} {m : InputMatcher}
    (hb : ∀ m' ∈ before, m'.re text = []) (hm : m.re text ≠ []) :
    firstMatch text (before ++ m :: after) = some m := by
  induction before with
  | nil => simp [firstMatch, hm]
  | cons a rest ih =>
    have ha : a.re text = [] := hb a (List.mem_cons_self _ _)
    simp only [List.cons_append, firstMatch, ha, ne_eq, not_true_eq_false, if_false]
    exact ih (fun m' hm' => hb m' (List.mem_cons_of_mem _ hm'))

theorem checkPlugins_cons {σ : Type} (env : Env σ) (cc : Bool) (bot : Robot) (text : String)
    (p : Plugin) (rest : List Plugin) (st : ScanState σ) :
    checkPlugins env cc bot text (p :: rest) st =
      match candidate env cc bot text p with
      | none => checkPlugins env cc bot text rest st
      | some m =>
        match onMatch env bot text p m st with
        | .cont st' => checkPlugins env cc bot text rest st'
        | .ret b w => .ret b w
        | .panic w => .panic w := by
  conv_lhs => unfold checkPlugins
  unfold candidate
  by_cases hav : pluginAvailable env bot.User bot.Channel p = true
  · simp only [hav, Bool.not_true, Bool.false_eq_true, if_false, if_true, checkMatchers_eq]
    cases firstMatch text (matchersOf cc p) <;> rfl
  · simp only [Bool.not_eq_true] at hav
    simp [hav]

theorem checkPlugins_append {σ : Type} (env : Env σ) (cc : Bool) (bot : Robot) (text : String)
    (pre rest : List Plugin) (st : ScanState σ) :
    checkPlugins env cc bot text (pre ++ rest) st =
      match checkPlugins env cc bot text pre st with
      | .cont st' => checkPlugins env cc bot text rest st'
      | .ret b w => .ret b w
      | .panic w => .panic w := by
  induction pre generalizing st with
  | nil => rfl
  | cons p ps ih =>
    rw [List.cons_append, checkPlugins_cons, checkPlugins_cons]
    cases candidate env cc bot text p with
    | none => exact ih st
    | some m =>
      simp only
      cases onMatch env bot text p m st with
      | cont st' => exact ih st'
      | ret b w => rfl
      | panic w => rfl

theorem checkPlugins_skip {σ : Type} (env : Env σ) (cc : Bool) (bot : Robot) (text : String)
    (pre : List Plugin) (st : ScanState σ)
    (h : ∀ p ∈ pre, candidate env cc bot text p = none) :
    checkPlugins env cc bot text pre st = .cont st := by
  induction pre with
  | nil => rfl
  | cons p ps ih =>
    rw [checkPlugins_cons, h p (List.mem_cons_self _ _)]
    exact ih (fun q hq => h q (List.mem_cons_of_mem _ hq))

/-- With a command already selected, a further match never lets the scan go on:
it ends in the ambiguity notice, a clarification or a panic. -/
theorem onMatch_of_selected {σ : Type} (env : Env σ) (bot : Robot) (text : String)
    (p : Plugin) (m : InputMatcher) (st st' : ScanState σ) (hsel : st.sel.isSome = true) :
    onMatch env bot text p m st ≠ .cont st' := by
  unfold onMatch
  simp only [ScanState.commandMatched, hsel, if_true]
  split <;> simp

/-- A scan that starts with a command selected and runs to completion met no
further candidate and changed nothing. -/
theorem checkPlugins_cont_of_selected {σ : Type} (env : Env σ) (cc : Bool) (bot : Robot)
    (text : String) (ps : List Plugin) (st st' : ScanState σ) (hsel : st.sel.isSome = true)
    (h : checkPlugins env cc bot text ps st = .cont st') :
    st' = st ∧ ∀ p ∈ ps, candidate env cc bot text p = none := by
  induction ps with
  | nil =>
    simp only [checkPlugins, Scan.cont.injEq] at h
    exact ⟨h.symm, by simp⟩
  | cons p rest ih =>
    rw [checkPlugins_cons] at h
    cases hc : candidate env cc bot text p with
    | none =>
      rw [hc] at h
      obtain ⟨heq, hrest⟩ := ih h
      refine ⟨heq, ?_⟩
      intro q hq
      rcases List.mem_cons.1 hq with rfl | hmem
      · exact hc
      · exact hrest q hmem
    | some m =>
      rw [hc] at h
      simp only at h
      cases ho : onMatch env bot text p m st with
      | cont st'' => exact absurd ho (onMatch_of_selected env bot text p m st st'' hsel)
      | ret b w => rw [ho] at h; cases h
      | panic w => rw [ho] at h; cases h

/-- A scan that starts with nothing selected and runs to completion with a
command selected met exactly one candidate: the selected plugin with its first
matching matcher. -/
theorem checkPlugins_cont_some {σ : Type} (env : Env σ) (cc : Bool) (bot : Robot)
    (text : String) (ps : List Plugin) (st st' : ScanState σ) (hsel : st.sel = none)
    (p : Plugin) (m : InputMatcher) (hsel' : st'.sel = some (p, m))
    (h : checkPlugins env cc bot text ps st = .cont st') :
    ∃ pre post, ps = pre ++ p :: post ∧
      (∀ q ∈ pre, candidate env cc bot text q = none) ∧
      (∀ q ∈ post, candidate env cc bot text q = none) ∧
      candidate env cc bot text p = some m ∧
      onMatch env bot text p m st = .cont st' := by
  induction ps with
  | nil =>
    simp only [checkPlugins, Scan.cont.injEq] at h
    subst h
    rw [hsel] at hsel'
    cases hsel'
  | cons a rest ih =>
    rw [checkPlugins_cons] at h
    cases hc : candidate env cc bot text a with
    | none =>
      rw [hc] at h
      obtain ⟨pre, post, heq, hpre, hpost, hcand, hon⟩ := ih h
      refine ⟨a :: pre, post, by rw [heq]; rfl, ?_, hpost, hcand, hon⟩
      intro q hq
      rcases List.mem_cons.1 hq with rfl | hmem
      · exact hc
      · exact hpre q hmem
    | some ma =>
      rw [hc] at h
      simp only at h
      cases ho : onMatch env bot text a ma st with
      | ret b w => rw [ho] at h; cases h
      | panic w => rw [ho] at h; cases h
      | cont st'' =>
        rw [ho] at h
        simp only at h
        have hsome : st''.sel = some (a, ma) := by
          unfold onMatch at ho
          simp only at ho
          split at ho
          · cases ho
          · cases ho
          · split at ho
            · cases ho
            · simp only [Scan.cont.injEq] at ho
              rw [← ho]
        obtain ⟨heq, hrest⟩ := checkPlugins_cont_of_selected env cc bot text rest st'' st'
          (by rw [hsome]; rfl) h
        subst heq
        rw [hsome] at hsel'
        simp only [Option.some.injEq, Prod.mk.injEq] at hsel'
        obtain ⟨rfl, rfl⟩ := hsel'
        exact ⟨[], rest, rfl, by simp, hrest, hc, ho⟩

/-! ## C4: pause and the catch-all plugins -/

/-- C4 (evaluation at the failing input): while the robot is paused, a directed
message that matches no command still gets the catch-all plugin scheduled,
whereas the same message while shutting down schedules nothing. -/
theorem paused_still_schedules_catchall :
    ((handleMessage demoEnv true "general" "bob" "what now"
        { demoWorld [fallbackPlugin] with paused := true }).world.scheduled.map
      fun c => (c.plugin.name, c.command, c.args)) = [("fallback", "catchall", ["what now"])] ∧
    ((handleMessage demoEnv true "general" "bob" "what now"
        { demoWorld [fallbackPlugin] with shuttingDown := true }).world.scheduled.map
      fun c => (c.plugin.name, c.command, c.args)) = [] := by
  constructor <;> decide

/-! ## C6: ambiguous matches -/

theorem onMatch_done_unselected {σ : Type} (env : Env σ) (bot : Robot) (text : String)
    (p : Plugin) (m : InputMatcher) (st : ScanState σ) (args : List String)
    (mem : memoryContext → Option shortTermMemory)
    (hr : (resolveContexts env bot m (captures m text) st.w).2 = .done args mem)
    (hsel : st.sel = none) :
    onMatch env bot text p m st =
      .cont ⟨{ (resolveContexts env bot m (captures m text) st.w).1 with
                shortTermMemories := mem }, some (p, m), args⟩ := by
  unfold onMatch
  simp only [hr, ScanState.commandMatched, hsel, Option.isSome_none, Bool.false_eq_true,
    if_false]

theorem onMatch_done_selected {σ : Type} (env : Env σ) (bot : Robot) (text : String)
    (p : Plugin) (m : InputMatcher) (st : ScanState σ) (args : List String)
    (mem : memoryContext → Option shortTermMemory)
    (hr : (resolveContexts env bot m (captures m text) st.w).2 = .done args mem)
    (hsel : st.sel.isSome = true) :
    onMatch env bot text p m st =
      .ret true (World.say { (resolveContexts env bot m (captures m text) st.w).1 with
                shortTermMemories := mem } bot ambiguousMsg) := by
  unfold onMatch
  simp only [hr, ScanState.commandMatched, hsel, if_true]

theorem filterMap_eq_cons_split {α β : Type} (f : α → Option β) (l : List α) (x : β)
    (xs : List β) (h : l.filterMap f = x :: xs) :
    ∃ pre a post, l = pre ++ a :: post ∧ (∀ q ∈ pre, f q = none) ∧ f a = some x ∧
      post.filterMap f = xs := by
  induction l with
  | nil => simp at h
  | cons a rest ih =>
    cases hfa : f a with
    | none =>
      rw [List.filterMap_cons_none hfa] at h
      obtain ⟨pre, b, post, heq, hpre, hb, hpost⟩ := ih h
      refine ⟨a :: pre, b, post, by rw [heq]; rfl, ?_, hb, hpost⟩
      intro q hq
      rcases List.mem_cons.1 hq with rfl | hmem
      · exact hfa
      · exact hpre q hmem
    | some y =>
      rw [List.filterMap_cons_some hfa] at h
      simp only [List.cons.injEq] at h
      obtain ⟨rfl, hxs⟩ := h
      exact ⟨[], a, rest, rfl, by simp, hfa, hxs⟩

theorem filterMap_all_none {α β : Type} (f : α → Option β) (l : List α)
    (h : ∀ q ∈ l, f q = none) : l.filterMap f = [] := by
  induction l with
  | nil => rfl
  | cons a rest ih =>
    rw [List.filterMap_cons_none (h a (List.mem_cons_self _ _))]
    exact ih (fun q hq => h q (List.mem_cons_of_mem _ hq))

/-- A scan that selects a command met exactly one candidate. -/
theorem candidates_of_scan_cont {σ : Type} {env : Env σ} {cc : Bool} {bot : Robot}
    {text : String} {w w₁ : World σ} {p : Plugin} {m : InputMatcher} {args : List String}
    (h : scan env cc bot text w = .cont ⟨w₁, some (p, m), args⟩) :
    candidates env cc bot text w.pluginlist = [m] := by
  obtain ⟨pre, post, heq, hpre, hpost, hc, -⟩ :=
    checkPlugins_cont_some env cc bot text w.pluginlist ⟨w, none, []⟩ ⟨w₁, some (p, m), args⟩
      rfl p m rfl h
  unfold candidates
  rw [heq, List.filterMap_append, List.filterMap_cons_some hc, filterMap_all_none _ _ hpre,
    filterMap_all_none _ _ hpost]
  rfl

/-- C6 (amended): when two or more available plugins each have a matcher (of the
kind being checked) whose pattern matches the text - `ma` and `mb` being the
first matching matchers of the first two such plugins in registry order -
`checkPluginMatchers` schedules no plugin execution; and when context resolution
completes for `ma` and then for `mb`, it returns `true` having said exactly one
message, the ambiguity notice. (When a context lookup of `ma` or `mb` fails, the
clarification request is said instead, and a context label beyond the capture
groups makes the call panic; nothing is scheduled in those cases either.) -/
theorem ambiguity_schedules_nothing {σ : Type} (env : Env σ) (cc : Bool) (bot : Robot)
    (text : String) (w : World σ) (ma mb : InputMatcher) (more : List InputMatcher)
    (hcand : candidates env cc bot text w.pluginlist = ma :: mb :: more) :
    (checkPluginMatchers env cc bot text w).world.scheduled = w.scheduled ∧
    ∀ args₁ mem₁ args₂ mem₂,
      (resolveContexts env bot ma (captures ma text) w).2 = .done args₁ mem₁ →
      (resolveContexts env bot mb (captures mb text)
        { (resolveContexts env bot ma (captures ma text) w).1 with
          shortTermMemories := mem₁ }).2 = .done args₂ mem₂ →
      ∃ w', checkPluginMatchers env cc bot text w = .ok true w' ∧
        w'.said = w.said ++ [(bot, ambiguousMsg)] := by
  constructor
  · rcases (checkPluginMatchers_scheduled env cc bot text w).2.2.2.2.2 with h | h
    · exact h
    · obtain ⟨w₁, p, m, args, hscan, -, -⟩ := h
      rw [candidates_of_scan_cont hscan] at hcand
      simp at hcand
  · intro args₁ mem₁ args₂ mem₂ h₁ h₂
    obtain ⟨pre, a, rest₁, heq, hpre, ha, hrest⟩ :=
      filterMap_eq_cons_split _ _ _ _ hcand
    obtain ⟨mid, b, post, heq₂, hmid, hb, -⟩ := filterMap_eq_cons_split _ _ _ _ hrest
    have hscan : ∃ w', scan env cc bot text w = .ret true w' ∧
        w'.said = w.said ++ [(bot, ambiguousMsg)] := by
      unfold scan
      rw [heq, checkPlugins_append, checkPlugins_skip env cc bot text pre _ hpre]
      simp only
      rw [checkPlugins_cons, ha]
      simp only
      rw [onMatch_done_unselected env bot text a ma ⟨w, none, []⟩ args₁ mem₁ h₁ rfl]
      simp only
      rw [heq₂, checkPlugins_append, checkPlugins_skip env cc bot text mid _ hmid]
      simp only
      rw [checkPlugins_cons, hb]
      simp only
      rw [onMatch_done_selected env bot text b mb
        ⟨{ (resolveContexts env bot ma (captures ma text) w).1 with
            shortTermMemories := mem₁ }, some (a, ma), args₁⟩ args₂ mem₂ h₂ rfl]
      refine ⟨_, rfl, ?_⟩
      rw [resolveContexts_fst env bot mb, resolveContexts_fst env bot ma]
      rfl
    obtain ⟨w', hw', hsaid⟩ := hscan
    exact ⟨w', by simp only [checkPluginMatchers, hw'], hsaid⟩

/-- Witness for C6: `doorPlugin` and `gatePlugin` both match "open door". -/
theorem ambiguity_schedules_nothing_witness :
    candidates demoEnv true bob "open door" [doorPlugin, gatePlugin] =
      [literalMatcher "open" "open door" ["door"] [], literalMatcher "raise" "open door" [] []] ∧
    (checkPluginMatchers demoEnv true bob "open door"
      (demoWorld [doorPlugin, gatePlugin])).world.scheduled = [] ∧
    (checkPluginMatchers demoEnv true bob "open door"
      (demoWorld [doorPlugin, gatePlugin])).world.said = [(bob, ambiguousMsg)] := by
  have h := ambiguity_schedules_nothing demoEnv true bob "open door"
    (demoWorld [doorPlugin, gatePlugin]) (literalMatcher "open" "open door" ["door"] [])
    (literalMatcher "raise" "open door" [] []) [] rfl
  obtain ⟨w', hw', hsaid⟩ := h.2 _ _ _ _ rfl rfl
  refine ⟨rfl, h.1, ?_⟩
  rw [hw']
  exact hsaid

/-- C6 as stated fails when a context lookup fails first: `lampPlugin` and
`radioPlugin` are both available and both match "turn it on", but the matcher of
`lampPlugin` declares the label `device` for the captured "it" and nothing is
remembered, so the call says the clarification request and never the ambiguity
notice. -/
theorem ambiguity_notice_preempted_by_clarification :
    pluginAvailable demoEnv "bob" "general" lampPlugin = true ∧
    pluginAvailable demoEnv "bob" "general" radioPlugin = true ∧
    candidates demoEnv true bob "turn it on" [lampPlugin, radioPlugin] =
      [literalMatcher "switch" "turn it on" ["it"] ["device"],
       literalMatcher "tune" "turn it on" ["it"] []] ∧
    (checkPluginMatchers demoEnv true bob "turn it on"
      (demoWorld [lampPlugin, radioPlugin])).world.said =
        [(bob, "Sorry, I don't remember which device we were talking about - " ++
          "please re-enter your command and be more specific")] ∧
    (bob, ambiguousMsg) ∉ (checkPluginMatchers demoEnv true bob "turn it on"
      (demoWorld [lampPlugin, radioPlugin])).world.said :=
  ⟨by decide, by decide, rfl, by decide, by decide⟩

/-! ## The context loop -/

theorem contextKey_inj (bot : Robot) (a b : String) (h : contextKey bot a = contextKey bot b) :
    a = b := by
  unfold contextKey at h
  simp only [memoryContext.mk.injEq, and_self, and_true] at h
  have hd := congrArg String.data h
  simp only [String.data_append] at hd
  exact String.ext (List.append_cancel_left hd)

/-- One iteration of the context loop, by cases on the label and on the
argument at the current index. -/
theorem contextLoop_cons (bot : Robot) (ts : Int) (n : Nat) (l : String) (rest : List String)
    (args : List String) (m : memoryContext → Option shortTermMemory) :
    contextLoop bot ts n (l :: rest) args m =
      if l = "" then contextLoop bot ts (n + 1) rest args m
      else match args[n]? with
        | none => .outOfRange m
        | some a =>
          if a = "it" ∨ a = "" then
            match m (contextKey bot l) with
            | some s => contextLoop bot ts (n + 1) rest (args.set n s.memory)
                (mapSet m (contextKey bot l) { s with timestamp := ts })
            | none => .forgot l m
          else contextLoop bot ts (n + 1) rest args (mapSet m (contextKey bot l) ⟨a, ts⟩) := by
  conv_lhs => unfold contextLoop
  by_cases hl : l = ""
  · simp [hl]
  · simp only [ne_eq, hl, not_false_eq_true, if_true, if_false]
    cases ha : args[n]? with
    | none =>
      have : ¬ args.length > n := by
        rw [List.getElem?_eq_none_iff] at ha
        omega
      simp [this]
    | some a =>
      have hlen : args.length > n := by
        by_contra hc
        rw [List.getElem?_eq_none (by omega)] at ha
        cases ha
      by_cases hp : a = "it" ∨ a = ""
      · simp only [hlen, Option.some.injEq, hp, and_self, if_true]
      · simp only [hlen, Option.some.injEq, hp, and_false, if_false]

/-- The loop never touches the arguments before its current index. -/
theorem contextLoop_done_before (bot : Robot) (ts : Int) (labels : List String) :
    ∀ (n : Nat) (args : List String) (m : memoryContext → Option shortTermMemory)
      (args' : List String) (m' : memoryContext → Option shortTermMemory),
      contextLoop bot ts n labels args m = .done args' m' →
      ∀ j, j < n → args'[j]? = args[j]? := by
  induction labels with
  | nil =>
    intro n args m args' m' h j _
    simp only [contextLoop, CtxResult.done.injEq] at h
    rw [h.1]
  | cons l rest ih =>
    intro n args m args' m' h j hj
    rw [contextLoop_cons] at h
    split at h
    · exact ih (n + 1) args m args' m' h j (by omega)
    · split at h
      · cases h
      · split at h
        · split at h
          · rw [ih (n + 1) _ _ args' m' h j (by omega)]
            exact List.getElem?_set_ne (by omega)
          · cases h
        · exact ih (n + 1) args _ args' m' h j (by omega)

theorem mapSet_same {κ ν : Type} [DecidableEq κ] (m : κ → Option ν) (c : κ) (s : ν) :
    mapSet m c s c = some s := by
  simp [mapSet]

theorem mapSet_other {κ ν : Type} [DecidableEq κ] (m : κ → Option ν) (c k : κ) (s : ν)
    (h : k ≠ c) : mapSet m c s k = m k := by
  simp [mapSet, h]

/-- Writing the memory of label `l` keeps the value remembered for label `L`
when `l` is resolved from memory (the timestamp may be refreshed). -/
theorem mapSet_refresh_keeps (bot : Robot) (L l X : String) (ts t : Int)
    (m : memoryContext → Option shortTermMemory) (s : shortTermMemory)
    (hm : m (contextKey bot L) = some ⟨X, t⟩) (hs : m (contextKey bot l) = some s) :
    ∃ t', mapSet m (contextKey bot l) { s with timestamp := ts } (contextKey bot L) =
      some ⟨X, t'⟩ := by
  by_cases hk : contextKey bot L = contextKey bot l
  · rw [hk, mapSet_same]
    rw [hk, hs] at hm
    simp only [Option.some.injEq] at hm
    subst hm
    exact ⟨ts, rfl⟩
  · rw [mapSet_other _ _ _ _ hk]
    exact ⟨t, hm⟩

/-- Once label `L` is bound to `X`, the rest of the loop keeps it bound to `X`
as long as every later position labelled `L` captures a pronoun. -/
theorem contextLoop_keeps_value (bot : Robot) (ts : Int) (L X : String)
    (labels : List String) :
    ∀ (n : Nat) (args : List String) (m : memoryContext → Option shortTermMemory) (t : Int)
      (args' : List String) (m' : memoryContext → Option shortTermMemory),
      m (contextKey bot L) = some ⟨X, t⟩ →
      (∀ j, labels[j]? = some L → ∀ y, args[n + j]? = some y → y = "it" ∨ y = "") →
      contextLoop bot ts n labels args m = .done args' m' →
      ∃ t', m' (contextKey bot L) = some ⟨X, t'⟩ := by
  induction labels with
  | nil =>
    intro n args m t args' m' hm _ h
    simp only [contextLoop, CtxResult.done.injEq] at h
    rw [← h.2]
    exact ⟨t, hm⟩
  | cons l rest ih =>
    intro n args m t args' m' hm hlater h
    have hshift : ∀ (args₂ : List String), (∀ k, n < k → args₂[k]? = args[k]?) →
        ∀ j, rest[j]? = some L → ∀ y, args₂[n + 1 + j]? = some y → y = "it" ∨ y = "" := by
      intro args₂ hsame j hj y hy
      rw [hsame _ (by omega)] at hy
      have e : n + 1 + j = n + (j + 1) := by omega
      rw [e] at hy
      exact hlater (j + 1) (by simpa using hj) y hy
    rw [contextLoop_cons] at h
    split at h
    · exact ih (n + 1) args m t args' m' hm (hshift args (fun _ _ => rfl)) h
    · split at h
      · cases h
      · next a ha =>
        split at h
        · split at h
          · next s hs =>
            obtain ⟨t', ht'⟩ := mapSet_refresh_keeps bot L l X ts t m s hm hs
            exact ih (n + 1) _ _ t' args' m' ht'
              (hshift _ (fun k hk => List.getElem?_set_ne (Nat.ne_of_lt hk))) h
          · cases h
        · next hnp =>
          have hne : contextKey bot L ≠ contextKey bot l := by
            intro hk
            have hLl := contextKey_inj bot L l hk
            subst hLl
            exact hnp (hlater 0 (by simp) a (by simpa using ha))
          exact ih (n + 1) args _ t args' m' (by rw [mapSet_other _ _ _ _ hne]; exact hm)
            (hshift args (fun _ _ => rfl)) h

/-- Binding: a position labelled `L` that captures a concrete value `X` leaves
`L` bound to `X` at the end of the loop, as long as every later position
labelled `L` captures a pronoun. -/
theorem contextLoop_binds (bot : Robot) (ts : Int) (L X : String) (hX : X ≠ "it")
    (hX' : X ≠ "") (hL : L ≠ "") (labels : List String) :
    ∀ (i n : Nat) (args : List String) (m : memoryContext → Option shortTermMemory)
      (args' : List String) (m' : memoryContext → Option shortTermMemory),
      labels[i]? = some L → args[n + i]? = some X →
      (∀ j, i < j → labels[j]? = some L → ∀ y, args[n + j]? = some y → y = "it" ∨ y = "") →
      contextLoop bot ts n labels args m = .done args' m' →
      ∃ t, m' (contextKey bot L) = some ⟨X, t⟩ := by
  induction labels with
  | nil => intro i n args m args' m' hi; simp at hi
  | cons l rest ih =>
    intro i n args m args' m' hi hcap hlater h
    rw [contextLoop_cons] at h
    cases i with
    | zero =>
      simp only [List.getElem?_cons_zero, Option.some.injEq] at hi
      subst hi
      simp only [Nat.add_zero] at hcap
      simp only [hL, if_false, hcap, hX, hX', or_self] at h
      refine contextLoop_keeps_value bot ts l X rest (n + 1) args _ ts args' m'
        (mapSet_same _ _ _) ?_ h
      intro j hj y hy
      have e : n + 1 + j = n + (j + 1) := by omega
      rw [e] at hy
      exact hlater (j + 1) (by omega) (by simpa using hj) y hy
    | succ i' =>
      simp only [List.getElem?_cons_succ] at hi
      have e : n + (i' + 1) = n + 1 + i' := by omega
      rw [e] at hcap
      have hshift : ∀ (args₂ : List String), (∀ k, n < k → args₂[k]? = args[k]?) →
          args₂[n + 1 + i']? = some X ∧
          ∀ j, i' < j → rest[j]? = some L → ∀ y, args₂[n + 1 + j]? = some y →
            y = "it" ∨ y = "" := by
        intro args₂ hsame
        refine ⟨by rw [hsame _ (by omega)]; exact hcap, ?_⟩
        intro j hj hjl y hy
        rw [hsame _ (by omega)] at hy
        have e' : n + 1 + j = n + (j + 1) := by omega
        rw [e'] at hy
        exact hlater (j + 1) (by omega) (by simpa using hjl) y hy
      split at h
      · obtain ⟨h₁, h₂⟩ := hshift args (fun _ _ => rfl)
        exact ih i' (n + 1) args m args' m' hi h₁ h₂ h
      · split at h
        · cases h
        · split at h
          · split at h
            · obtain ⟨h₁, h₂⟩ := hshift _ (fun k hk => List.getElem?_set_ne (Nat.ne_of_lt hk))
              exact ih i' (n + 1) _ _ args' m' hi h₁ h₂ h
            · cases h
          · obtain ⟨h₁, h₂⟩ := hshift args (fun _ _ => rfl)
            exact ih i' (n + 1) args _ args' m' hi h₁ h₂ h

/-- Resolution: with `L` bound to `X`, a position labelled `L` that captures a
pronoun ends up holding `X`, as long as every earlier position labelled `L`
captures a pronoun too. -/
theorem contextLoop_resolves (bot : Robot) (ts : Int) (L X : String) (hL : L ≠ "")
    (labels : List String) :
    ∀ (i n : Nat) (args : List String) (m : memoryContext → Option shortTermMemory) (t : Int)
      (a : String) (args' : List String) (m' : memoryContext → Option shortTermMemory),
      m (contextKey bot L) = some ⟨X, t⟩ →
      labels[i]? = some L → args[n + i]? = some a → (a = "it" ∨ a = "") →
      (∀ j, j < i → labels[j]? = some L → ∀ y, args[n + j]? = some y → y = "it" ∨ y = "") →
      contextLoop bot ts n labels args m = .done args' m' →
      args'[n + i]? = some X := by
  induction labels with
  | nil => intro i n args m t a args' m' _ hi; simp at hi
  | cons l rest ih =>
    intro i n args m t a args' m' hm hi hcap hpron hearlier h
    rw [contextLoop_cons] at h
    cases i with
    | zero =>
      simp only [List.getElem?_cons_zero, Option.some.injEq] at hi
      subst hi
      simp only [Nat.add_zero] at hcap ⊢
      simp only [hL, if_false, hcap, hpron, if_true, hm] at h
      rw [contextLoop_done_before bot ts rest (n + 1) _ _ args' m' h n (by omega)]
      have hlen : n < args.length := by
        by_contra hc
        rw [List.getElem?_eq_none (by omega)] at hcap
        cases hcap
      exact List.getElem?_set_self hlen
    | succ i' =>
      simp only [List.getElem?_cons_succ] at hi
      have e : n + (i' + 1) = n + 1 + i' := by omega
      rw [e] at hcap ⊢
      have hshift : ∀ (args₂ : List String), (∀ k, n < k → args₂[k]? = args[k]?) →
          args₂[n + 1 + i']? = some a ∧
          ∀ j, j < i' → rest[j]? = some L → ∀ y, args₂[n + 1 + j]? = some y →
            y = "it" ∨ y = "" := by
        intro args₂ hsame
        refine ⟨by rw [hsame _ (by omega)]; exact hcap, ?_⟩
        intro j hj hjl y hy
        rw [hsame _ (by omega)] at hy
        have e' : n + 1 + j = n + (j + 1) := by omega
        rw [e'] at hy
        exact hearlier (j + 1) (by omega) (by simpa using hjl) y hy
      split at h
      · obtain ⟨h₁, h₂⟩ := hshift args (fun _ _ => rfl)
        exact ih i' (n + 1) args m t a args' m' hm hi h₁ hpron h₂ h
      · split at h
        · cases h
        · next b hb =>
          split at h
          · split at h
            · next s hs =>
              obtain ⟨t', ht'⟩ := mapSet_refresh_keeps bot L l X ts t m s hm hs
              obtain ⟨h₁, h₂⟩ := hshift _ (fun k hk => List.getElem?_set_ne (Nat.ne_of_lt hk))
              exact ih i' (n + 1) _ _ t' a args' m' ht' hi h₁ hpron h₂ h
            · cases h
          · next hnp =>
            have hne : contextKey bot L ≠ contextKey bot l := by
              intro hk
              have hLl := contextKey_inj bot L l hk
              subst hLl
              exact hnp (hearlier 0 (by omega) (by simp) b (by simpa using hb))
            obtain ⟨h₁, h₂⟩ := hshift args (fun _ _ => rfl)
            exact ih i' (n + 1) args _ t a args' m'
              (by rw [mapSet_other _ _ _ _ hne]; exact hm) hi h₁ hpron h₂ h

/-- A failed lookup: with nothing remembered for `L`, a position labelled `L`
that captures a pronoun makes the loop end in `forgot`, for `L` or for an
earlier unresolved label, as long as no earlier position carries the label `L`. -/
theorem contextLoop_forgets (bot : Robot) (ts : Int) (L : String) (hL : L ≠ "")
    (labels : List String) :
    ∀ (i n : Nat) (args : List String) (m : memoryContext → Option shortTermMemory)
      (a : String),
      m (contextKey bot L) = none →
      labels[i]? = some L → args[n + i]? = some a → (a = "it" ∨ a = "") →
      (∀ j, j < i → labels[j]? ≠ some L) →
      ∃ L' mm, L' ∈ labels ∧ contextLoop bot ts n labels args m = .forgot L' mm := by
  induction labels with
  | nil => intro i n args m a _ hi; simp at hi
  | cons l rest ih =>
    intro i n args m a hm hi hcap hpron hearlier
    rw [contextLoop_cons]
    cases i with
    | zero =>
      simp only [List.getElem?_cons_zero, Option.some.injEq] at hi
      subst hi
      simp only [Nat.add_zero] at hcap
      simp only [hL, if_false, hcap, hpron, if_true, hm]
      exact ⟨_, _, List.mem_cons_self _ _, rfl⟩
    | succ i' =>
      simp only [List.getElem?_cons_succ] at hi
      have e : n + (i' + 1) = n + 1 + i' := by omega
      rw [e] at hcap
      have hne : contextKey bot L ≠ contextKey bot l := by
        intro hk
        have hLl := contextKey_inj bot L l hk
        subst hLl
        exact hearlier 0 (by omega) (by simp)
      have hearlier' : ∀ j, j < i' → rest[j]? ≠ some L := by
        intro j hj hjl
        exact hearlier (j + 1) (by omega) (by simpa using hjl)
      have lift : ∀ r, (∃ L' mm, L' ∈ rest ∧ r = CtxResult.forgot L' mm) →
          ∃ L' mm, L' ∈ l :: rest ∧ r = CtxResult.forgot L' mm := by
        rintro r ⟨L', mm, hmem, hr⟩
        exact ⟨L', mm, List.mem_cons_of_mem _ hmem, hr⟩
      split
      · exact lift _ (ih i' (n + 1) args m a hm hi hcap hpron hearlier')
      · split
        · next hnone =>
          exfalso
          rw [List.getElem?_eq_none_iff] at hnone
          rw [List.getElem?_eq_none (by omega)] at hcap
          cases hcap
        · split
          · split
            · exact lift _ (ih i' (n + 1) _ _ a (by rw [mapSet_other _ _ _ _ hne]; exact hm) hi
                (by rw [List.getElem?_set_ne (by omega)]; exact hcap) hpron hearlier')
            · exact ⟨_, _, List.mem_cons_self _ _, rfl⟩
          · exact lift _ (ih i' (n + 1) args _ a (by rw [mapSet_other _ _ _ _ hne]; exact hm)
              hi hcap hpron hearlier')

/-! ## C7 and C8: context round trip and missing context -/

theorem onMatch_cont {σ : Type} {env : Env σ} {bot : Robot} {text : String} {p : Plugin}
    {m : InputMatcher} {st st' : ScanState σ} (h : onMatch env bot text p m st = .cont st') :
    ∃ args mem, (resolveContexts env bot m (captures m text) st.w).2 = .done args mem ∧
      st' = ⟨{ (resolveContexts env bot m (captures m text) st.w).1 with
                shortTermMemories := mem }, some (p, m), args⟩ := by
  unfold onMatch at h
  simp only at h
  split at h
  · cases h
  · cases h
  · next args mem hr =>
    split at h
    · cases h
    · simp only [Scan.cont.injEq] at h
      exact ⟨args, mem, hr, h.symm⟩

/-- A scan that selects command `m` of plugin `p` ran context resolution for `m`
alone, on the memory of the initial world. -/
theorem scan_cont_resolve {σ : Type} {env : Env σ} {cc : Bool} {bot : Robot}
    {text : String} {w w₁ : World σ} {p : Plugin} {m : InputMatcher} {args : List String}
    (h : scan env cc bot text w = .cont ⟨w₁, some (p, m), args⟩) :
    candidate env cc bot text p = some m ∧ p ∈ w.pluginlist ∧
    (resolveContexts env bot m (captures m text) w).2 = .done args w₁.shortTermMemories := by
  obtain ⟨pre, post, heq, -, -, hc, hon⟩ :=
    checkPlugins_cont_some env cc bot text w.pluginlist ⟨w, none, []⟩ ⟨w₁, some (p, m), args⟩
      rfl p m rfl h
  obtain ⟨args', mem, hr, hst⟩ := onMatch_cont hon
  simp only [ScanState.mk.injEq] at hst
  obtain ⟨hw, -, hargs⟩ := hst
  refine ⟨hc, by rw [heq]; simp, ?_⟩
  rw [hr, hargs, hw]

theorem resolveContexts_of_label {σ : Type} (env : Env σ) (bot : Robot) (m : InputMatcher)
    (args : List String) (w : World σ) (i : Nat) (L : String) (hi : m.Contexts[i]? = some L) :
    (resolveContexts env bot m args w).2 =
      contextLoop bot (env.timeNow w.ext).1 0 m.Contexts args w.shortTermMemories := by
  have hlen : m.Contexts.length > 0 := by
    by_contra hc
    rw [List.getElem?_eq_none (by omega)] at hi
    cases hi
  simp only [resolveContexts, hlen, if_true]

theorem mapSet_isSome {κ ν : Type} [DecidableEq κ] (m : κ → Option ν) (c k : κ) (s : ν)
    (h : (m k).isSome = true) : (mapSet m c s k).isSome = true := by
  unfold mapSet
  split
  · rfl
  · exact h

/-- Completion: the loop runs to its end when every position with a non-empty
label has a capture group and every pronoun captured under a label finds
something remembered for that label when the loop starts. -/
theorem contextLoop_completes (bot : Robot) (ts : Int) (labels : List String) :
    ∀ (n : Nat) (args : List String) (m : memoryContext → Option shortTermMemory),
      (∀ j l, labels[j]? = some l → l ≠ "" →
        ∃ y, args[n + j]? = some y ∧
          ((y = "it" ∨ y = "") → (m (contextKey bot l)).isSome = true)) →
      ∃ args' m', contextLoop bot ts n labels args m = .done args' m' := by
  induction labels with
  | nil =>
    intro n args m _
    exact ⟨args, m, by simp only [contextLoop]⟩
  | cons l rest ih =>
    intro n args m h
    have hshift : ∀ (args₂ : List String) (m₂ : memoryContext → Option shortTermMemory),
        (∀ k, n < k → args₂[k]? = args[k]?) →
        (∀ c, (m c).isSome = true → (m₂ c).isSome = true) →
        ∀ j l', rest[j]? = some l' → l' ≠ "" →
          ∃ y, args₂[n + 1 + j]? = some y ∧
            ((y = "it" ∨ y = "") → (m₂ (contextKey bot l')).isSome = true) := by
      intro args₂ m₂ hsame hmono j l' hj hl'
      obtain ⟨y, hy, hp⟩ := h (j + 1) l' (by simpa using hj) hl'
      have e : n + 1 + j = n + (j + 1) := by omega
      refine ⟨y, ?_, fun hpron => hmono _ (hp hpron)⟩
      rw [hsame _ (by omega), e]
      exact hy
    rw [contextLoop_cons]
    split
    · exact ih (n + 1) args m (hshift args m (fun _ _ => rfl) (fun _ hc => hc))
    · next hl =>
      obtain ⟨y, hy, hp⟩ := h 0 l (by simp) hl
      simp only [Nat.add_zero] at hy
      simp only [hy]
      split
      · next hpron =>
        cases hm : m (contextKey bot l) with
        | none =>
          have := hp hpron
          rw [hm] at this
          cases this
        | some s =>
          simp only
          exact ih (n + 1) _ _ (hshift _ _
            (fun k hk => List.getElem?_set_ne (Nat.ne_of_lt hk))
            (fun c hc => mapSet_isSome m _ c _ hc))
      · exact ih (n + 1) args _ (hshift args _ (fun _ _ => rfl)
          (fun c hc => mapSet_isSome m _ c _ hc))

/-- The scan of a registry in which `p` is the only plugin taking part, with the
matcher `m` whose context resolution completes: the command is selected with
the resolved arguments. -/
theorem scan_of_sole_candidate {σ : Type} (env : Env σ) (cc : Bool) (bot : Robot)
    (text : String) (w : World σ) (pre : List Plugin) (p : Plugin) (post : List Plugin)
    (m : InputMatcher) (args : List String) (mem : memoryContext → Option shortTermMemory)
    (hlist : w.pluginlist = pre ++ p :: post)
    (hpre : ∀ q ∈ pre, candidate env cc bot text q = none)
    (hpost : ∀ q ∈ post, candidate env cc bot text q = none)
    (hcand : candidate env cc bot text p = some m)
    (hres : (resolveContexts env bot m (captures m text) w).2 = .done args mem) :
    scan env cc bot text w =
      .cont ⟨{ (resolveContexts env bot m (captures m text) w).1 with
                shortTermMemories := mem }, some (p, m), args⟩ := by
  unfold scan
  rw [hlist, checkPlugins_append, checkPlugins_skip env cc bot text pre _ hpre]
  simp only
  rw [checkPlugins_cons, hcand]
  simp only
  rw [onMatch_done_unselected env bot text p m ⟨w, none, []⟩ args mem hres rfl]
  simp only
  exact checkPlugins_skip env cc bot text post _ hpost

/-- C7 (amended): context round trip. Let a matched message from `bot.User` in
`bot.Channel` capture `X` (neither "it" nor empty) at a position labelled `L`,
with no later position of the same matcher rebinding `L` to another value, and
let the value remembered for `L` still be the one that message left when the
next message arrives. Let `m₂` be the first matching matcher of the first
available plugin `p₂` that matches that message, capturing the pronoun "it" at a
position labelled `L` (no earlier position of `m₂` rebinding `L`). If every
labelled position of `m₂` has a capture group and every pronoun captured under
another label has something remembered for that label, then context resolution
completes with the argument at that position resolved to `X`; and when no other
plugin matches, the command is selected with these arguments and, if it passes
the gates, scheduled with them. -/
theorem context_round_trip {σ : Type} (env : Env σ) (bot : Robot) (L X : String)
    (hL : L ≠ "") (hX : X ≠ "it") (hX' : X ≠ "")
    (cc₁ : Bool) (text₁ : String) (w w₁ : World σ) (p₁ : Plugin) (m₁ : InputMatcher)
    (args₁ : List String) (i : Nat)
    (h₁ : scan env cc₁ bot text₁ w = .cont ⟨w₁, some (p₁, m₁), args₁⟩)
    (hi : m₁.Contexts[i]? = some L) (hcap₁ : (captures m₁ text₁)[i]? = some X)
    (hlater : ∀ j, i < j → m₁.Contexts[j]? = some L →
      ∀ y, (captures m₁ text₁)[j]? = some y → y = "it" ∨ y = "")
    (cc₂ : Bool) (text₂ : String) (w₂ : World σ) (pre : List Plugin) (p₂ : Plugin)
    (post : List Plugin) (m₂ : InputMatcher) (k : Nat)
    (hbetween : (w₂.shortTermMemories (contextKey bot L)).map (fun s => s.memory) =
      ((checkPluginMatchers env cc₁ bot text₁ w).world.shortTermMemories
        (contextKey bot L)).map (fun s => s.memory))
    (hlist : w₂.pluginlist = pre ++ p₂ :: post)
    (hpre : ∀ q ∈ pre, candidate env cc₂ bot text₂ q = none)
    (hcand : candidate env cc₂ bot text₂ p₂ = some m₂)
    (hk : m₂.Contexts[k]? = some L) (hcap₂ : (captures m₂ text₂)[k]? = some "it")
    (hearlier : ∀ j, j < k → m₂.Contexts[j]? = some L →
      ∀ y, (captures m₂ text₂)[j]? = some y → y = "it" ∨ y = "")
    (hothers : ∀ (j : Nat) (l : String), m₂.Contexts[j]? = some l → l ≠ "" →
      ∃ y, (captures m₂ text₂)[j]? = some y ∧
        ((y = "it" ∨ y = "") → l ≠ L →
          (w₂.shortTermMemories (contextKey bot l)).isSome = true)) :
    ∃ args mem,
      (resolveContexts env bot m₂ (captures m₂ text₂) w₂).2 = .done args mem ∧
      args[k]? = some X ∧
      ((∀ q ∈ post, candidate env cc₂ bot text₂ q = none) →
        scan env cc₂ bot text₂ w₂ =
          .cont ⟨{ (resolveContexts env bot m₂ (captures m₂ text₂) w₂).1 with
                    shortTermMemories := mem }, some (p₂, m₂), args⟩ ∧
        (passesGates env bot w₂.pluginlist p₂ m₂
            { (resolveContexts env bot m₂ (captures m₂ text₂) w₂).1 with
              shortTermMemories := mem } →
          (checkPluginMatchers env cc₂ bot text₂ w₂).world.scheduled =
            w₂.scheduled ++ [⟨bot, p₂, true, true, m₂.Command, args⟩])) := by
  -- the first message leaves `L` bound to `X`
  have hr₁ := (scan_cont_resolve h₁).2.2
  rw [resolveContexts_of_label env bot m₁ _ w i L hi] at hr₁
  obtain ⟨t, hbound⟩ := contextLoop_binds bot _ L X hX hX' hL m₁.Contexts i 0 _ _ _ _ hi
    (by simpa using hcap₁) (by simpa using hlater) hr₁
  have hmem₁ : (checkPluginMatchers env cc₁ bot text₁ w).world.shortTermMemories =
      w₁.shortTermMemories := by
    rw [checkPluginMatchers_of_scan h₁]
    exact (runMatched_sameStores env bot w.pluginlist p₁ m₁ args₁ w₁).shortTermMemories
  rw [hmem₁, hbound] at hbetween
  -- so it is still bound to `X` when the second message arrives
  obtain ⟨t₂, hbound₂⟩ : ∃ t₂, w₂.shortTermMemories (contextKey bot L) = some ⟨X, t₂⟩ := by
    cases hw : w₂.shortTermMemories (contextKey bot L) with
    | none => rw [hw] at hbetween; simp at hbetween
    | some s =>
      rw [hw] at hbetween
      simp only [Option.map_some', Option.some.injEq] at hbetween
      exact ⟨s.timestamp, by rw [← hbetween]⟩
  -- the context loop of the second message runs to its end
  have hloop := resolveContexts_of_label env bot m₂ (captures m₂ text₂) w₂ k L hk
  obtain ⟨args, mem, hdone⟩ := contextLoop_completes bot (env.timeNow w₂.ext).1 m₂.Contexts 0
    (captures m₂ text₂) w₂.shortTermMemories (by
      intro j l hj hl
      obtain ⟨y, hy, hp⟩ := hothers j l hj hl
      refine ⟨y, by simpa using hy, fun hpron => ?_⟩
      by_cases hlL : l = L
      · rw [hlL, hbound₂]
        rfl
      · exact hp hpron hlL)
  -- and resolves the pronoun
  have hres := contextLoop_resolves bot _ L X hL m₂.Contexts k 0 _ _ t₂ "it" _ _ hbound₂ hk
    (by simpa using hcap₂) (Or.inl rfl) (by simpa using hearlier) hdone
  rw [← hloop] at hdone
  refine ⟨args, mem, hdone, by simpa using hres, fun hpost => ?_⟩
  have hscan := scan_of_sole_candidate env cc₂ bot text₂ w₂ pre p₂ post m₂ args mem hlist hpre
    hpost hcand hdone
  refine ⟨hscan, fun hgates => ?_⟩
  obtain ⟨hu, -⟩ := scan_cont_frame hscan
  simp only at hu
  rw [checkPluginMatchers_of_scan hscan]
  simp only [Result.world]
  rw [(runMatched_of_passesGates env bot w₂.pluginlist p₂ m₂ args _ hgates).1, hu.scheduled]

/-- Witness for C7: "open door" binds `thing` to "door", and the following
"close it" is run with the argument "door". -/
theorem context_round_trip_witness :
    ((checkPluginMatchers demoEnv true bob "close it"
        (checkPluginMatchers demoEnv true bob "open door"
          (demoWorld [hallPlugin])).world).world.scheduled.map
      fun c => (c.command, c.args)) = [("open", ["door"]), ("close", ["door"])] ∧
    ∃ args mem,
      (resolveContexts demoEnv bob (literalMatcher "close" "close it" ["it"] ["thing"])
        (captures (literalMatcher "close" "close it" ["it"] ["thing"]) "close it")
        (checkPluginMatchers demoEnv true bob "open door" (demoWorld [hallPlugin])).world).2 =
          .done args mem ∧
      args[0]? = some "door" ∧
      (checkPluginMatchers demoEnv true bob "close it"
        (checkPluginMatchers demoEnv true bob "open door"
          (demoWorld [hallPlugin])).world).world.scheduled =
        (checkPluginMatchers demoEnv true bob "open door"
          (demoWorld [hallPlugin])).world.scheduled ++
          [⟨bob, hallPlugin, true, true, "close", args⟩] := by
  obtain ⟨args, mem, hdone, hk, hrest⟩ :=
    context_round_trip demoEnv bob "thing" "door" (by decide) (by decide) (by decide)
      true "open door" (demoWorld [hallPlugin]) _ hallPlugin
      (literalMatcher "open" "open door" ["door"] ["thing"]) ["door"] 0 rfl rfl rfl
      (fun j hj hjl => by
        have : (literalMatcher "open" "open door" ["door"] ["thing"]).Contexts[j]? = none :=
          List.getElem?_eq_none (by simp only [literalMatcher, List.length_singleton]; omega)
        rw [this] at hjl
        cases hjl)
      true "close it"
      (checkPluginMatchers demoEnv true bob "open door" (demoWorld [hallPlugin])).world
      [] hallPlugin [] (literalMatcher "close" "close it" ["it"] ["thing"]) 0 rfl rfl
      (fun q hq => by cases hq) rfl rfl rfl
      (fun j hj => absurd hj (Nat.not_lt_zero j))
      (fun j l hj hl => by
        cases j with
        | zero =>
          simp only [literalMatcher, List.getElem?_cons_zero, Option.some.injEq] at hj
          subst hj
          exact ⟨"it", rfl, fun _ hne => absurd rfl hne⟩
        | succ j' =>
          simp only [literalMatcher, List.getElem?_cons_succ, List.getElem?_nil] at hj
          cases hj)
  exact ⟨by decide, args, mem, hdone, hk,
    (hrest (fun q hq => by cases hq)).2 ⟨rfl, Or.inl rfl, rfl⟩⟩

/-- C7 as stated fails when another pronoun of the second message cannot be
resolved: "open door" is matched and binds `thing` to "door"; the next message,
"carry it there", is matched by a matcher that captures "it" at position 1,
labelled `thing`, but also "it" at position 0, labelled `place`, for which
nothing is remembered. The call asks which place is meant: context resolution
does not complete, the argument is never resolved to "door", and no command is
scheduled for the second message. -/
theorem round_trip_blocked_by_unbound_label :
    ((checkPluginMatchers demoEnv true bob "open door"
        (demoWorld [pantryPlugin])).world.scheduled.map
      fun c => (c.command, c.args)) = [("open", ["door"])] ∧
    ((checkPluginMatchers demoEnv true bob "open door"
        (demoWorld [pantryPlugin])).world.shortTermMemories (contextKey bob "thing")).map
      (fun s => s.memory) = some "door" ∧
    (literalMatcher "carry" "carry it there" ["it", "it"] ["place", "thing"]).re
      "carry it there" ≠ [] ∧
    (literalMatcher "carry" "carry it there" ["it", "it"] ["place", "thing"]).Contexts[1]? =
      some "thing" ∧
    (captures (literalMatcher "carry" "carry it there" ["it", "it"] ["place", "thing"])
      "carry it there")[1]? = some "it" ∧
    (resolveContexts demoEnv bob
      (literalMatcher "carry" "carry it there" ["it", "it"] ["place", "thing"])
      (captures (literalMatcher "carry" "carry it there" ["it", "it"] ["place", "thing"])
        "carry it there")
      (checkPluginMatchers demoEnv true bob "open door"
        (demoWorld [pantryPlugin])).world).2.cmdArgs? = none ∧
    (checkPluginMatchers demoEnv true bob "carry it there"
      (checkPluginMatchers demoEnv true bob "open door"
        (demoWorld [pantryPlugin])).world).val? = some true ∧
    (checkPluginMatchers demoEnv true bob "carry it there"
      (checkPluginMatchers demoEnv true bob "open door"
        (demoWorld [pantryPlugin])).world).world.said = [(bob, forgotMsg "place")] ∧
    ((checkPluginMatchers demoEnv true bob "carry it there"
        (checkPluginMatchers demoEnv true bob "open door"
          (demoWorld [pantryPlugin])).world).world.scheduled.map
      fun c => (c.command, c.args)) = [("open", ["door"])] :=
  ⟨by decide, by decide, by decide, rfl, rfl, rfl, rfl, by decide, by decide⟩

/-- C8 (amended): let the scan reach plugin `p` in state `st` (the plugins
before it are scanned without ending the call), let `p` be available and `m` be
its first matching matcher, and let `m` carry the non-empty context label `L` at
a capture position whose captured value is "it" or empty. If at that point the
memory store has no entry for (`L`, user, channel) and no earlier position of
`m` carries the label `L`, then `checkPluginMatchers` says a clarification
request (for `L`, or for an earlier label of `m` that could not be resolved),
returns `true`, and schedules no plugin execution. -/
theorem missing_context_short_circuits {σ : Type} (env : Env σ) (cc : Bool) (bot : Robot)
    (text : String) (w : World σ) (pre : List Plugin) (p : Plugin) (post : List Plugin)
    (st : ScanState σ) (m : InputMatcher) (i : Nat) (L a : String)
    (hlist : w.pluginlist = pre ++ p :: post)
    (hpre : checkPlugins env cc bot text pre ⟨w, none, []⟩ = .cont st)
    (hcand : candidate env cc bot text p = some m)
    (hi : m.Contexts[i]? = some L) (hL : L ≠ "")
    (hcap : (captures m text)[i]? = some a) (hpron : a = "it" ∨ a = "")
    (hmem : st.w.shortTermMemories (contextKey bot L) = none)
    (hfirst : ∀ j, j < i → m.Contexts[j]? ≠ some L) :
    ∃ L' w', L' ∈ m.Contexts ∧ checkPluginMatchers env cc bot text w = .ok true w' ∧
      w'.said = w.said ++ [(bot, forgotMsg L')] ∧ w'.scheduled = w.scheduled := by
  obtain ⟨L', mm, hmemL, hloop⟩ := contextLoop_forgets bot (env.timeNow st.w.ext).1 L hL
    m.Contexts i 0 (captures m text) st.w.shortTermMemories a hmem hi (by simpa using hcap)
    hpron hfirst
  have hres : (resolveContexts env bot m (captures m text) st.w).2 = .forgot L' mm := by
    rw [resolveContexts_of_label env bot m _ st.w i L hi]
    exact hloop
  have hpost := checkPlugins_post env cc bot text pre ⟨w, none, []⟩
  rw [hpre] at hpost
  obtain ⟨hu, hsaid⟩ := hpost
  simp only at hu hsaid
  have hscan : ∃ w', scan env cc bot text w = .ret true w' ∧
      w'.said = w.said ++ [(bot, forgotMsg L')] ∧ w'.scheduled = w.scheduled := by
    unfold scan
    rw [hlist, checkPlugins_append, hpre]
    simp only
    rw [checkPlugins_cons, hcand]
    simp only [onMatch, hres]
    refine ⟨_, rfl, ?_, ?_⟩
    · rw [resolveContexts_fst]
      simp only [World.say, hsaid]
    · rw [resolveContexts_fst]
      simp only [World.say, hu.scheduled]
  obtain ⟨w', hw', hs, hsch⟩ := hscan
  exact ⟨L', w', hmemL, by simp only [checkPluginMatchers, hw'], hs, hsch⟩

/-- Witness for C8: "close it" with nothing remembered for `thing`. -/
theorem missing_context_short_circuits_witness :
    (demoWorld [hallPlugin]).shortTermMemories (contextKey bob "thing") = none ∧
    ∃ L' w', L' ∈ ["thing"] ∧
      checkPluginMatchers demoEnv true bob "close it" (demoWorld [hallPlugin]) = .ok true w' ∧
      w'.said = [] ++ [(bob, forgotMsg L')] ∧ w'.scheduled = [] :=
  ⟨rfl, missing_context_short_circuits demoEnv true bob "close it" (demoWorld [hallPlugin]) []
    hallPlugin [] ⟨demoWorld [hallPlugin], none, []⟩
    (literalMatcher "close" "close it" ["it"] ["thing"]) 0 "thing" "it" rfl rfl rfl rfl
    (by decide) rfl (Or.inl rfl) rfl (fun j hj => absurd hj (Nat.not_lt_zero j))⟩

/-- C8 as stated fails in two ways. (1) In `shelfPlugin` the matcher matches
"move box to it", carries the label `thing` at position 1 where "it" is
captured, and the store holds nothing for `thing`; but position 0, labelled
`thing` as well, has just stored "box", so the pronoun is resolved, nothing is
said and the command is scheduled. (2) In `cupboardPlugin` the second matcher
matches "open it" with "it" captured under the label `door` and nothing
remembered; but the first matcher matches too and wins, so the command `open` is
scheduled and nothing is said. -/
theorem missing_context_not_always_clarified :
    ((literalMatcher "move" "move box to it" ["box", "it"] ["thing", "thing"]).re
        "move box to it" ≠ [] ∧
      (literalMatcher "move" "move box to it" ["box", "it"] ["thing", "thing"]).Contexts[1]? =
        some "thing" ∧
      (captures (literalMatcher "move" "move box to it" ["box", "it"] ["thing", "thing"])
        "move box to it")[1]? = some "it" ∧
      (demoWorld [shelfPlugin]).shortTermMemories (contextKey bob "thing") = none ∧
      (checkPluginMatchers demoEnv true bob "move box to it"
        (demoWorld [shelfPlugin])).world.said = [] ∧
      ((checkPluginMatchers demoEnv true bob "move box to it"
          (demoWorld [shelfPlugin])).world.scheduled.map
        fun c => (c.plugin.name, c.command, c.args)) = [("shelf", "move", ["box", "box"])]) ∧
    ((literalMatcher "unlock" "open it" ["it"] ["door"]).re "open it" ≠ [] ∧
      (literalMatcher "unlock" "open it" ["it"] ["door"]).Contexts[0]? = some "door" ∧
      (captures (literalMatcher "unlock" "open it" ["it"] ["door"]) "open it")[0]? =
        some "it" ∧
      (demoWorld [cupboardPlugin]).shortTermMemories (contextKey bob "door") = none ∧
      (checkPluginMatchers demoEnv true bob "open it"
        (demoWorld [cupboardPlugin])).world.said = [] ∧
      ((checkPluginMatchers demoEnv true bob "open it"
          (demoWorld [cupboardPlugin])).world.scheduled.map
        fun c => (c.plugin.name, c.command, c.args)) = [("cupboard", "open", [])]) :=
  ⟨⟨by decide, rfl, rfl, rfl, by decide, by decide⟩,
   ⟨by decide, rfl, rfl, rfl, by decide, by decide⟩⟩

/-! ## C9: the 77-second window -/

theorem timeSub_lt_keepListening (t u : Int) :
    timeSub t u < keepListeningDuration ↔ t - u < 77000000000 := by
  unfold timeSub keepListeningDuration
  split
  · constructor <;> intro h <;> omega
  · split
    · constructor <;> intro h <;> omega
    · constructor <;> intro h <;> omega

theorem bind_bind_ok {σ α β γ : Type} (r : Result σ α) (g : α → β)
    (f : β → World σ → Result σ γ) :
    (r.bind fun v w' => .ok (g v) w').bind f = r.bind fun v w' => f (g v) w' := by
  cases r <;> rfl

/-- The `handleMessage` of a blank directed message that is answered "Yes?". -/
theorem handleTail_matched {σ : Type} (env : Env σ) (bot : Robot) (plugins : List Plugin)
    (ts : Int) (text : String) (cs : List Plugin) (w₁ : World σ) :
    ∃ w', handleTail env true bot plugins ts ⟨text, true, cs, false⟩ w₁ = .ok () w' ∧
      w'.said = w₁.said ∧ w'.scheduled = w₁.scheduled ∧ w'.ext = w₁.ext ∧
      w'.shortTermMemories =
        mapDelete w₁.shortTermMemories (lastMsgContext bot.User bot.Channel) := by
  obtain ⟨-, -, hsch, hsaid, -, hmem, hext⟩ :=
    replyStage_frame bot ⟨text, true, cs, false⟩ w₁
  have hcm : (replyStage bot ⟨text, true, cs, false⟩ w₁).1.commandMatched = true := by
    unfold replyStage
    simp only
    split <;> rfl
  have heq : handleTail env true bot plugins ts ⟨text, true, cs, false⟩ w₁ =
      .ok () { (replyStage bot ⟨text, true, cs, false⟩ w₁).2 with
        shortTermMemories := mapDelete
          (replyStage bot ⟨text, true, cs, false⟩ w₁).2.shortTermMemories
          (lastMsgContext bot.User bot.Channel) } := by
    simp only [handleTail, commandStage, Bool.not_true, Bool.false_eq_true, false_and, if_false,
      Result.bind, ambientStage, hcm, catchAllStage, and_false, bookkeepingStage, true_or,
      if_true]
  exact ⟨_, heq, hsaid, hsch, hext, by simp only [hmem]⟩

/-- C9: for an empty directed message, with `ts` the time `handleMessage` reads on
entry: if a last-message entry exists for (user, channel) and its age
`ts - timestamp` is less than 77 seconds, `handleMessage` replays that entry's
text through command matching and carries on with it as the message text; if
the entry is absent or its age is greater than 77 seconds, it does not replay:
it says "Yes?", schedules nothing, consults neither the clock nor any plugin
again, and leaves every memory entry other than the last-message slot as it was.
Times are in nanoseconds. -/
theorem blank_message_replay_window {σ : Type} (env : Env σ) (channel user : String)
    (w : World σ) :
    (∀ last, w.shortTermMemories (lastMsgContext user channel) = some last →
      (env.timeNow w.ext).1 - last.timestamp < 77 * 1000000000 →
      handleMessage env true channel user "" w =
        (checkPluginMatchers env true ⟨user, channel, ""⟩ last.memory
            { w with ext := (env.timeNow w.ext).2 }).bind
          fun b w₁ => handleTail env true ⟨user, channel, ""⟩ w.pluginlist
            (env.timeNow w.ext).1 ⟨last.memory, b, [], false⟩ w₁) ∧
    ((w.shortTermMemories (lastMsgContext user channel) = none ∨
      ∃ last, w.shortTermMemories (lastMsgContext user channel) = some last ∧
        (env.timeNow w.ext).1 - last.timestamp > 77 * 1000000000) →
      ∃ w', handleMessage env true channel user "" w = .ok () w' ∧
        w'.said = w.said ++ [(⟨user, channel, ""⟩, "Yes?")] ∧
        w'.scheduled = w.scheduled ∧
        w'.ext = (env.timeNow w.ext).2 ∧
        ∀ k, k ≠ lastMsgContext user channel →
          w'.shortTermMemories k = w.shortTermMemories k) := by
  constructor
  · intro last hlast hage
    have hlt : timeSub (env.timeNow w.ext).1 last.timestamp < keepListeningDuration :=
      (timeSub_lt_keepListening _ _).2 (by omega)
    simp only [handleMessage, blankStage, and_self, if_true, hlast, hlt]
    exact bind_bind_ok _ _ _
  · intro h
    have hblank : blankStage env true ⟨user, channel, ""⟩ (env.timeNow w.ext).1
        ⟨"", false, [], false⟩ { w with ext := (env.timeNow w.ext).2 } =
        .ok ⟨"", true, [], false⟩
          (World.say { w with ext := (env.timeNow w.ext).2 } ⟨user, channel, ""⟩ "Yes?") := by
      rcases h with hnone | ⟨last, hlast, hage⟩
      · simp only [blankStage, and_self, if_true, hnone]
      · have hge : ¬ timeSub (env.timeNow w.ext).1 last.timestamp < keepListeningDuration := by
          rw [timeSub_lt_keepListening]
          omega
        simp only [blankStage, and_self, if_true, hlast, hge, if_false]
    obtain ⟨w', hw', hsaid, hsch, hext, hmem⟩ := handleTail_matched env ⟨user, channel, ""⟩
      w.pluginlist (env.timeNow w.ext).1 "" []
      (World.say { w with ext := (env.timeNow w.ext).2 } ⟨user, channel, ""⟩ "Yes?")
    refine ⟨w', ?_, hsaid, hsch, hext, ?_⟩
    · simp only [handleMessage, hblank, Result.bind]
      exact hw'
    · intro k hk
      rw [hmem]
      simp only [mapDelete, hk, if_false, World.say]

/-- Witness for C9: the last message is 76 seconds old and is replayed (the
command `raise` of `gatePlugin` runs); at 78 seconds the answer is "Yes?". -/
theorem blank_message_replay_window_witness :
    (handleMessage demoEnv true "general" "bob" "" (recallWorld 76000000000) =
      (checkPluginMatchers demoEnv true ⟨"bob", "general", ""⟩ "open door"
          (recallWorld 76000000000)).bind
        fun b w₁ => handleTail demoEnv true ⟨"bob", "general", ""⟩ [gatePlugin] 76000000000
          ⟨"open door", b, [], false⟩ w₁) ∧
    ((handleMessage demoEnv true "general" "bob" "" (recallWorld 76000000000)).world.scheduled.map
      fun c => (c.plugin.name, c.command, c.args)) = [("gate", "raise", [])] ∧
    (∃ w', handleMessage demoEnv true "general" "bob" "" (recallWorld 78000000000) = .ok () w' ∧
      w'.said = [] ++ [(⟨"bob", "general", ""⟩, "Yes?")] ∧
      w'.scheduled = [] ∧
      w'.ext = 78000000000 ∧
      ∀ k, k ≠ lastMsgContext "bob" "general" →
        w'.shortTermMemories k = (recallWorld 78000000000).shortTermMemories k) :=
  ⟨(blank_message_replay_window demoEnv "general" "bob" (recallWorld 76000000000)).1
      ⟨"open door", 0⟩ rfl (by decide),
    by decide,
    (blank_message_replay_window demoEnv "general" "bob" (recallWorld 78000000000)).2
      (Or.inr ⟨⟨"open door", 0⟩, rfl, by decide⟩)⟩

/-! ## C10: a command interrupts a pending reply waiter -/

/-- C10 (amended): if a reply waiter is pending for (user, channel) and command
matching of a non-empty directed message from that user in that channel selects
a command - exactly one available plugin matches and context resolution
succeeds - that passes admission, authorization and elevation, then
`handleMessage` removes the waiter, sends it the "interrupted" reply and
schedules the matched command exactly once. -/
theorem waiter_interrupted_by_command {σ : Type} (env : Env σ) (channel user text : String)
    (w w₁ : World σ) (rep : replyWaiter) (p : Plugin) (m : InputMatcher) (args : List String)
    (hwait : w.replies ⟨user, channel⟩ = some rep)
    (htext : text ≠ "")
    (hscan : scan env true ⟨user, channel, ""⟩ text { w with ext := (env.timeNow w.ext).2 } =
      .cont ⟨w₁, some (p, m), args⟩)
    (hgates : passesGates env ⟨user, channel, ""⟩ w.pluginlist p m w₁) :
    ∃ w', handleMessage env true channel user text w = .ok () w' ∧
      w'.sent = w.sent ++ [(rep.replyChannel, ⟨false, true, ""⟩)] ∧
      w'.scheduled = w.scheduled ++ [⟨⟨user, channel, ""⟩, p, true, true, m.Command, args⟩] ∧
      w'.replies ⟨user, channel⟩ = none := by
  obtain ⟨hu, -⟩ := scan_cont_frame hscan
  simp only at hu
  have hss := runMatched_sameStores env ⟨user, channel, ""⟩ w.pluginlist p m args w₁
  obtain ⟨hsch, -⟩ := runMatched_of_passesGates env ⟨user, channel, ""⟩ w.pluginlist p m args
    w₁ hgates
  have hrep : (runMatched env ⟨user, channel, ""⟩ w.pluginlist p m args w₁).replies
      ⟨user, channel⟩ = some rep := by
    rw [hss.replies, hu.replies]
    exact hwait
  have heq : handleMessage env true channel user text w =
      .ok () { runMatched env ⟨user, channel, ""⟩ w.pluginlist p m args w₁ with
        replies := mapDelete
          (runMatched env ⟨user, channel, ""⟩ w.pluginlist p m args w₁).replies
          ⟨user, channel⟩,
        sent := (runMatched env ⟨user, channel, ""⟩ w.pluginlist p m args w₁).sent ++
          [(rep.replyChannel, ⟨false, true, ""⟩)],
        shortTermMemories := mapDelete
          (runMatched env ⟨user, channel, ""⟩ w.pluginlist p m args w₁).shortTermMemories
          (lastMsgContext user channel) } := by
    simp only [handleMessage, blankStage, htext, and_false, if_false, Result.bind, handleTail,
      commandStage, Bool.not_false, and_self, if_true, checkPluginMatchers_of_scan hscan,
      replyStage, hrep, ambientStage, Bool.not_true, Bool.false_eq_true, false_and,
      catchAllStage, and_false, bookkeepingStage, true_or]
  refine ⟨_, heq, ?_, ?_, ?_⟩
  · simp only [hss.sent, hu.sent]
  · simp only [hsch, hu.scheduled]
  · simp only [mapDelete, if_true]

/-- Witness for C10: bob says "open door" while a plugin waits for his reply. -/
theorem waiter_interrupted_by_command_witness :
    (waitingWorld [gatePlugin]).replies ⟨"bob", "general"⟩ = some ⟨fun _ => true, 7⟩ ∧
    ∃ w', handleMessage demoEnv true "general" "bob" "open door" (waitingWorld [gatePlugin]) =
        .ok () w' ∧
      w'.sent = [] ++ [(7, ⟨false, true, ""⟩)] ∧
      w'.scheduled = [] ++ [⟨⟨"bob", "general", ""⟩, gatePlugin, true, true, "raise", []⟩] ∧
      w'.replies ⟨"bob", "general"⟩ = none :=
  ⟨rfl, waiter_interrupted_by_command demoEnv "general" "bob" "open door"
    (waitingWorld [gatePlugin]) (waitingWorld [gatePlugin]) ⟨fun _ => true, 7⟩ gatePlugin
    (literalMatcher "raise" "open door" [] []) [] rfl (by decide) rfl
    ⟨rfl, Or.inl rfl, rfl⟩⟩

/-- C10 as stated fails when context resolution fails: a waiter is pending for
bob in "general", his directed "close it" matches the command `close` of the
only plugin, which is not paused or shutting down, names no authorizer and is
not elevated; but nothing is remembered for the label `thing`, so the waiter is
told "interrupted" while no command is scheduled at all. -/
theorem waiter_interrupted_without_execution :
    ((waitingWorld [hallPlugin]).replies ⟨"bob", "general"⟩).isSome = true ∧
    candidates demoEnv true bob "close it" [hallPlugin] =
      [literalMatcher "close" "close it" ["it"] ["thing"]] ∧
    admissionRefusal (waitingWorld [hallPlugin]) hallPlugin
      (literalMatcher "close" "close it" ["it"] ["thing"]) = none ∧
    hallPlugin.Authorizer = "" ∧
    "close" ∉ hallPlugin.ElevatedCommands ∧ "close" ∉ hallPlugin.ElevateImmediateCommands ∧
    (handleMessage demoEnv true "general" "bob" "close it"
      (waitingWorld [hallPlugin])).world.sent = [(7, ⟨false, true, ""⟩)] ∧
    (handleMessage demoEnv true "general" "bob" "close it"
      (waitingWorld [hallPlugin])).world.scheduled.length = 0 :=
  ⟨rfl, rfl, rfl, rfl, by decide, by decide, by decide, by decide⟩

/-! ## C13, C14, C15: `pluginAvailable` -/

theorem string_length_eq_zero_iff (s : String) : s.length = 0 ↔ s = "" := by
  constructor
  · intro h
    cases s with
    | mk d =>
      have hd : d.length = 0 := h
      have : d = [] := List.length_eq_zero.1 hd
      subst this
      rfl
  · rintro rfl
    rfl

theorem list_contains_iff (l : List String) (a : String) : l.contains a = true ↔ a ∈ l :=
  List.elem_iff

theorem userOk_iff {σ : Type} (env : Env σ) (user : String) (l : List String) :
    userOk env user l = true ↔ ∃ a ∈ l, env.filepathMatch a user = some true := by
  induction l with
  | nil => simp [userOk]
  | cons a rest ih =>
    unfold userOk
    by_cases h : env.filepathMatch a user = some true
    · simp [h]
    · simp [h, ih]

/-- The result of `pluginAvailable` rule by rule, with the tests of the source
written as propositions. -/
theorem pluginAvailable_eq {σ : Type} (env : Env σ) (user channel : String) (p : Plugin) :
    pluginAvailable env user channel p = true ↔
      ¬ (channel ≠ "" ∧ p.DirectOnly = true) ∧
      ¬ (p.RequireAdmin = true ∧ user ∉ env.adminUsers) ∧
      ¬ (p.Users ≠ [] ∧ ∀ a ∈ p.Users, env.filepathMatch a user ≠ some true) ∧
      ((channel = "" ∧ (p.AllowDirect = true ∨ p.DirectOnly = true)) ∨
        (p.Channels ≠ [] ∧ channel ∈ p.Channels) ∨
        (p.Channels = [] ∧ p.AllChannels = true)) := by
  have hch : (channel.length == 0) = decide (channel = "") := by
    by_cases h : channel = ""
    · subst h; rfl
    · have : channel.length ≠ 0 := fun hl => h ((string_length_eq_zero_iff _).1 hl)
      simp [h, this]
  have huo : userOk env user p.Users = false ↔
      ∀ a ∈ p.Users, env.filepathMatch a user ≠ some true := by
    rw [← Bool.not_eq_true, userOk_iff]
    simp
  unfold pluginAvailable
  simp only [hch]
  split
  · next h1 =>
    simp only [Bool.and_eq_true, Bool.not_eq_true', decide_eq_false_iff_not] at h1
    simp [h1.1, h1.2]
  · next h1 =>
    have h1' : ¬ (channel ≠ "" ∧ p.DirectOnly = true) := by
      simpa [Bool.and_eq_true] using h1
    split
    · next h2 =>
      simp only [Bool.and_eq_true, Bool.not_eq_true'] at h2
      have : user ∉ env.adminUsers := fun hm => by
        rw [(list_contains_iff _ _).2 hm] at h2
        exact absurd h2.2 (by simp)
      simp [h2.1, this]
    · next h2 =>
      have h2' : ¬ (p.RequireAdmin = true ∧ user ∉ env.adminUsers) := by
        rintro ⟨hr, hn⟩
        apply h2
        simp only [Bool.and_eq_true, Bool.not_eq_true', hr, true_and]
        cases hc : env.adminUsers.contains user with
        | false => rfl
        | true => exact absurd ((list_contains_iff _ _).1 hc) hn
      split
      · next h3 =>
        simp only [Bool.and_eq_true, decide_eq_true_eq, Bool.not_eq_true'] at h3
        have hne : p.Users ≠ [] := by
          intro he
          rw [he] at h3
          simp at h3
        have hall := huo.1 h3.2
        constructor
        · intro h; cases h
        · rintro ⟨-, -, h, -⟩
          exact absurd ⟨hne, hall⟩ h
      · next h3 =>
        have h3' : ¬ (p.Users ≠ [] ∧ ∀ a ∈ p.Users, env.filepathMatch a user ≠ some true) := by
          rintro ⟨hne, hall⟩
          apply h3
          simp only [Bool.and_eq_true, decide_eq_true_eq, Bool.not_eq_true']
          refine ⟨?_, huo.2 hall⟩
          cases hu : p.Users with
          | nil => exact absurd hu hne
          | cons x xs => simp
        simp only [h1', h2', h3', not_false_eq_true, true_and]
        split
        · next h4 =>
          simp only [Bool.and_eq_true, decide_eq_true_eq, Bool.or_eq_true] at h4
          simp [h4.1, h4.2]
        · next h4 =>
          have h4' : ¬ (channel = "" ∧ (p.AllowDirect = true ∨ p.DirectOnly = true)) := by
            simpa [Bool.and_eq_true, Bool.or_eq_true] using h4
          split
          · next h5 =>
            have hne : p.Channels ≠ [] := by
              intro he
              rw [he] at h5
              simp at h5
            simp only [h4', hne, not_false_eq_true, true_and, not_true_eq_false, false_and,
              or_false, false_or, ne_eq]
            exact list_contains_iff _ _
          · next h5 =>
            have he : p.Channels = [] := by
              cases hc : p.Channels with
              | nil => rfl
              | cons x xs => rw [hc] at h5; simp at h5
            simp [h4', he]

/-- C13: `pluginAvailable` returns false whenever (a) the channel is non-empty
and the plugin is direct-only, or (b) the plugin requires admin and the user is
not in the configured admin set, or (c) the plugin declares a non-empty user
allow-list and the user matches none of its glob entries. -/
theorem pluginAvailable_rejects {σ : Type} (env : Env σ) (user channel : String) (p : Plugin)
    (h : (channel ≠ "" ∧ p.DirectOnly = true) ∨
      (p.RequireAdmin = true ∧ user ∉ env.adminUsers) ∨
      (p.Users ≠ [] ∧ ∀ a ∈ p.Users, env.filepathMatch a user ≠ some true)) :
    pluginAvailable env user channel p = false := by
  cases hv : pluginAvailable env user channel p with
  | false => rfl
  | true =>
    obtain ⟨ha, hb, hc, -⟩ := (pluginAvailable_eq env user channel p).1 hv
    rcases h with h | h | h
    · exact absurd h ha
    · exact absurd h hb
    · exact absurd h hc

/-- Witness for C13: a direct-only plugin in channel "general". -/
theorem pluginAvailable_rejects_witness :
    ("general" ≠ "" ∧ whisperPlugin.DirectOnly = true) ∧
    pluginAvailable demoEnv "bob" "general" whisperPlugin = false :=
  ⟨⟨by decide, rfl⟩,
    pluginAvailable_rejects demoEnv "bob" "general" whisperPlugin (Or.inl ⟨by decide, rfl⟩)⟩

/-- C14 (amended): for a channel message (non-empty channel) and a plugin that
is not direct-only and passes the admin and user allow-list rules,
`pluginAvailable` returns true exactly when the channel is in the plugin's
channel list, or that list is empty and the plugin declares all-channels. -/
theorem pluginAvailable_in_channel {σ : Type} (env : Env σ) (user channel : String)
    (p : Plugin) (hch : channel ≠ "") (hdo : p.DirectOnly = false)
    (hadmin : p.RequireAdmin = false ∨ user ∈ env.adminUsers)
    (husers : p.Users = [] ∨ ∃ a ∈ p.Users, env.filepathMatch a user = some true) :
    pluginAvailable env user channel p = true ↔
      channel ∈ p.Channels ∨ (p.Channels = [] ∧ p.AllChannels = true) := by
  rw [pluginAvailable_eq]
  have h1 : ¬ (channel ≠ "" ∧ p.DirectOnly = true) := by simp [hdo]
  have h2 : ¬ (p.RequireAdmin = true ∧ user ∉ env.adminUsers) := by
    rintro ⟨hr, hn⟩
    rcases hadmin with h | h
    · rw [h] at hr; cases hr
    · exact hn h
  have h3 : ¬ (p.Users ≠ [] ∧ ∀ a ∈ p.Users, env.filepathMatch a user ≠ some true) := by
    rintro ⟨hne, hall⟩
    rcases husers with h | ⟨a, ha, hm⟩
    · exact hne h
    · exact hall a ha hm
  simp only [h1, h2, h3, not_false_eq_true, true_and, hch, false_and, false_or]
  constructor
  · rintro (⟨-, h⟩ | h)
    · exact Or.inl h
    · exact Or.inr h
  · rintro (h | h)
    · exact Or.inl ⟨List.ne_nil_of_mem h, h⟩
    · exact Or.inr h

/-- Witness for C14: `opsPlugin` is available in its listed channel "ops". -/
theorem pluginAvailable_in_channel_witness :
    pluginAvailable demoEnv "bob" "ops" opsPlugin = true ↔
      "ops" ∈ opsPlugin.Channels ∨ (opsPlugin.Channels = [] ∧ opsPlugin.AllChannels = true) :=
  pluginAvailable_in_channel demoEnv "bob" "ops" opsPlugin (by decide) rfl (Or.inl rfl)
    (Or.inl rfl)

/-- C14 as stated fails for a plugin that has a channel list and declares
all-channels: `opsPlugin` is not direct-only, requires no admin, has no user
allow-list and declares all-channels, yet it is not available in "general",
because its channel list `["ops"]` is not empty and does not contain "general". -/
theorem allChannels_ignored_with_channel_list :
    "general" ≠ "" ∧ opsPlugin.DirectOnly = false ∧ opsPlugin.RequireAdmin = false ∧
    opsPlugin.Users = [] ∧ opsPlugin.AllChannels = true ∧
    pluginAvailable demoEnv "bob" "general" opsPlugin = false :=
  ⟨by decide, rfl, rfl, rfl, rfl, by decide⟩

/-- C15 (evaluation at the failing input): in a direct message (empty channel),
`roamingPlugin` neither allows direct messages nor is direct-only, requires no
admin and has no user allow-list; `pluginAvailable` nevertheless returns true,
through the all-channels rule that follows the direct-message rule. -/
theorem direct_message_reaches_channel_rules :
    roamingPlugin.AllowDirect = false ∧ roamingPlugin.DirectOnly = false ∧
    roamingPlugin.RequireAdmin = false ∧ roamingPlugin.Users = [] ∧
    roamingPlugin.Channels = [] ∧ roamingPlugin.AllChannels = true ∧
    pluginAvailable demoEnv "bob" "" roamingPlugin = true :=
  ⟨rfl, rfl, rfl, rfl, rfl, rfl, by decide⟩

/-! ## C16: a refused elevation can be overridden -/

/-- C16 (evaluation at the failing inputs): (1) `open` of `vaultPlugin` is listed
in both elevated sets; the provider of `flagEnv` is invoked twice, refuses the
standard elevation and grants the immediate one, and the command is scheduled
with nothing said. (2) `open` of `cellarPlugin` is listed twice in the standard
set; the provider of `retryEnv` refuses the first invocation and grants the
second, and the command is scheduled with nothing said. -/
theorem refused_elevation_overridden :
    ((∃ f, flagEnv.elevator = some f ∧ (f (elevatorBot flagEnv bob) false 0).1 = false) ∧
      (checkPluginMatchers flagEnv true bob "open vault" (demoWorld [vaultPlugin])).world.ext
        = 2 ∧
      (checkPluginMatchers flagEnv true bob "open vault" (demoWorld [vaultPlugin])).world.said
        = [] ∧
      ((checkPluginMatchers flagEnv true bob "open vault"
          (demoWorld [vaultPlugin])).world.scheduled.map
        fun c => (c.plugin.name, c.command)) = [("vault", "open")]) ∧
    ((∃ f, retryEnv.elevator = some f ∧ (f (elevatorBot retryEnv bob) false 0).1 = false) ∧
      (checkPluginMatchers retryEnv true bob "open cellar" (demoWorld [cellarPlugin])).world.ext
        = 2 ∧
      (checkPluginMatchers retryEnv true bob "open cellar" (demoWorld [cellarPlugin])).world.said
        = [] ∧
      ((checkPluginMatchers retryEnv true bob "open cellar"
          (demoWorld [cellarPlugin])).world.scheduled.map
        fun c => (c.plugin.name, c.command)) = [("cellar", "open")]) :=
  ⟨⟨⟨_, rfl, rfl⟩, by decide, by decide, by decide⟩,
   ⟨⟨_, rfl, rfl⟩, by decide, by decide, by decide⟩⟩

/-! ## C17: the order of the gates -/

/-- C17 (amended): for every matched command, `checkPluginMatchers` performs the
lifecycle admission check first, then authorization, then elevation, and
schedules the plugin body right after elevation. A command refused for pause or
shutdown is refused in the world the matching loops left, before any authorizer
or elevation provider is consulted; a command that fails authorization is
refused with the external state as the authorizer left it, the elevation
provider not being consulted; an authorized command goes through elevation in
the world authorization left. -/
theorem gate_order {σ : Type} (env : Env σ) (cc : Bool) (bot : Robot)
    (text : String) (w w₁ : World σ) (p : Plugin) (m : InputMatcher) (args : List String)
    (hscan : scan env cc bot text w = .cont ⟨w₁, some (p, m), args⟩) :
    (∀ msg, admissionRefusal w p m = some msg →
      checkPluginMatchers env cc bot text w = .ok true (w₁.say bot msg)) ∧
    (admissionRefusal w p m = none → ¬ authorizationPasses env bot w.pluginlist p m w₁ →
      ∃ w' refusal, checkPluginMatchers env cc bot text w = .ok true w' ∧
        w'.scheduled = w.scheduled ∧ w'.said = w.said ++ [(bot, refusal)] ∧
        w'.ext = (afterAuthorization env bot w.pluginlist p m w₁).ext) ∧
    (admissionRefusal w p m = none → authorizationPasses env bot w.pluginlist p m w₁ →
      checkPluginMatchers env cc bot text w =
        .ok true (elevateAndRun env bot p m args
          (afterAuthorization env bot w.pluginlist p m w₁))) := by
  obtain ⟨hu, hsaid⟩ := scan_cont_frame hscan
  simp only at hu hsaid
  have hadm := admissionRefusal_congr hu.paused hu.shuttingDown p m
  rw [checkPluginMatchers_of_scan hscan]
  refine ⟨fun msg h => ?_, fun h hfail => ?_, fun h hpass => ?_⟩
  · simp only [runMatched, hadm, h]
  · simp only [runMatched, hadm, h]
    unfold authorizationPasses at hfail
    unfold authorizeAndRun afterAuthorization
    by_cases hauth : p.Authorizer = ""
    · exact absurd (Or.inl hauth) hfail
    · simp only [ne_eq, hauth, not_false_eq_true, if_true]
      cases hloop : authLoop env bot p m w.pluginlist w₁ with
      | inr w' =>
        obtain ⟨-, ⟨msg, hmsg⟩, hsch⟩ := authLoop_inr env bot p m w.pluginlist w₁ w' hloop
        exact ⟨w', msg, rfl, by rw [hsch, hu.scheduled], by rw [hmsg, hsaid], rfl⟩
      | inl r =>
        obtain ⟨authorized, w'⟩ := r
        obtain ⟨-, hs, hsch⟩ := authLoop_inl env bot p m w.pluginlist w₁ authorized w' hloop
        cases authorized with
        | true => exact absurd (Or.inr ⟨w', hloop⟩) hfail
        | false =>
          refine ⟨w'.say bot authMechanismMsg, authMechanismMsg, rfl, ?_, ?_, rfl⟩
          · simp only [World.say, hsch, hu.scheduled]
          · simp only [World.say, hs, hsaid]
  · simp only [runMatched, hadm, h]
    unfold authorizationPasses at hpass
    unfold authorizeAndRun afterAuthorization
    by_cases hauth : p.Authorizer = ""
    · simp only [ne_eq, hauth, not_true_eq_false, if_false]
    · rcases hpass with h' | ⟨w', hloop⟩
      · exact absurd h' hauth
      · simp only [ne_eq, hauth, not_false_eq_true, if_true, hloop, Bool.not_true,
          Bool.false_eq_true, if_false]

/-- Witness for C17: `unlock` of `safePlugin` on a robot that is shutting down;
the refusal leaves the invocation counter of the authorizer at 0. -/
theorem gate_order_witness :
    (checkPluginMatchers denyEnv true bob "unlock safe"
      { demoWorld [safePlugin, guardPlugin] with shuttingDown := true }).world.ext = 0 ∧
    checkPluginMatchers denyEnv true bob "unlock safe"
        { demoWorld [safePlugin, guardPlugin] with shuttingDown := true } =
      .ok true (World.say { demoWorld [safePlugin, guardPlugin] with shuttingDown := true } bob
        shuttingDownMsg) :=
  ⟨by decide,
    (gate_order denyEnv true bob "unlock safe"
      { demoWorld [safePlugin, guardPlugin] with shuttingDown := true }
      { demoWorld [safePlugin, guardPlugin] with shuttingDown := true } safePlugin
      (literalMatcher "unlock" "unlock safe" [] []) [] rfl).1 shuttingDownMsg rfl⟩

/-- C17 as stated fails: with the robot shutting down, `unlock` of `safePlugin`
is refused for shutdown although it has not passed authorization - its
authorizer was never invoked (the invocation counter stays at 0) and would have
answered `Fail`, as it does for the same message when the robot is not shutting
down. -/
theorem shutdown_refusal_precedes_authorization :
    (checkPluginMatchers denyEnv true bob "unlock safe"
      { demoWorld [safePlugin, guardPlugin] with shuttingDown := true }).world.said =
        [(bob, shuttingDownMsg)] ∧
    (checkPluginMatchers denyEnv true bob "unlock safe"
      { demoWorld [safePlugin, guardPlugin] with shuttingDown := true }).world.ext = 0 ∧
    (denyEnv.callPlugin bob guardPlugin "authorize" ["safe", "unlock", "", "ops"] 0).1 =
      PlugRetVal.Fail ∧
    (checkPluginMatchers denyEnv true bob "unlock safe"
      (demoWorld [safePlugin, guardPlugin])).world.said = [(bob, notAuthorizedMsg)] ∧
    (checkPluginMatchers denyEnv true bob "unlock safe"
      (demoWorld [safePlugin, guardPlugin])).world.ext = 1 :=
  ⟨by decide, by decide, rfl, by decide, by decide⟩

/-! ## C20: which command is scheduled, with which arguments -/

/-- Context substitution keeps the number of arguments and changes an argument
only at a position that carries a non-empty label and captured a pronoun. -/
theorem contextLoop_done_shape (bot : Robot) (ts : Int) (labels : List String) :
    ∀ (n : Nat) (args : List String) (m : memoryContext → Option shortTermMemory)
      (args' : List String) (m' : memoryContext → Option shortTermMemory),
      contextLoop bot ts n labels args m = .done args' m' →
      args'.length = args.length ∧
      ∀ j, (labels[j]? = none ∨ labels[j]? = some "" ∨
          (args[n + j]? ≠ some "it" ∧ args[n + j]? ≠ some "")) →
        args'[n + j]? = args[n + j]? := by
  induction labels with
  | nil =>
    intro n args m args' m' h
    simp only [contextLoop, CtxResult.done.injEq] at h
    rw [h.1]
    exact ⟨rfl, fun _ _ => rfl⟩
  | cons l rest ih =>
    intro n args m args' m' h
    rw [contextLoop_cons] at h
    -- the loop continues on `args₂`, which agrees with `args` after position `n`
    have step : ∀ (args₂ : List String) (m₂ : memoryContext → Option shortTermMemory),
        args₂.length = args.length → (∀ k, n < k → args₂[k]? = args[k]?) →
        contextLoop bot ts (n + 1) rest args₂ m₂ = .done args' m' →
        args'.length = args.length ∧
        ∀ j, (rest[j]? = none ∨ rest[j]? = some "" ∨
            (args[n + (j + 1)]? ≠ some "it" ∧ args[n + (j + 1)]? ≠ some "")) →
          args'[n + (j + 1)]? = args[n + (j + 1)]? := by
      intro args₂ m₂ hlen hsame h₂
      obtain ⟨hl, hj⟩ := ih (n + 1) args₂ m₂ args' m' h₂
      refine ⟨hl.trans hlen, ?_⟩
      intro j hc
      have e : n + (j + 1) = n + 1 + j := by omega
      rw [e] at hc ⊢
      rw [← hsame (n + 1 + j) (by omega)] at hc ⊢
      exact hj j hc
    have finish : (args'[n]? = args[n]? ∨
          ¬ ((l :: rest)[0]? = none ∨ (l :: rest)[0]? = some "" ∨
            (args[n + 0]? ≠ some "it" ∧ args[n + 0]? ≠ some ""))) →
        (args'.length = args.length ∧
          ∀ j, (rest[j]? = none ∨ rest[j]? = some "" ∨
              (args[n + (j + 1)]? ≠ some "it" ∧ args[n + (j + 1)]? ≠ some "")) →
            args'[n + (j + 1)]? = args[n + (j + 1)]?) →
        args'.length = args.length ∧
          ∀ j, ((l :: rest)[j]? = none ∨ (l :: rest)[j]? = some "" ∨
              (args[n + j]? ≠ some "it" ∧ args[n + j]? ≠ some "")) →
            args'[n + j]? = args[n + j]? := by
      rintro h0 ⟨hl, hj⟩
      refine ⟨hl, ?_⟩
      intro j hc
      cases j with
      | zero =>
        rcases h0 with h0 | h0
        · simpa using h0
        · exact absurd hc h0
      | succ j' => exact hj j' (by simpa using hc)
    split at h
    · exact finish (Or.inl
        (contextLoop_done_before bot ts rest (n + 1) args m args' m' h n (by omega)))
        (step args m rfl (fun _ _ => rfl) h)
    · split at h
      · cases h
      · next a ha =>
        split at h
        · next hp =>
          split at h
          · exact finish (Or.inr (by
              rintro (h0 | h0 | h0)
              · simp at h0
              · simp only [List.getElem?_cons_zero, Option.some.injEq] at h0
                contradiction
              · simp only [Nat.add_zero, ha, ne_eq, Option.some.injEq] at h0
                rcases hp with hp | hp
                · exact h0.1 hp
                · exact h0.2 hp))
              (step _ _ (by simp) (fun k hk => List.getElem?_set_ne (Nat.ne_of_lt hk)) h)
          · cases h
        · exact finish (Or.inl
            (contextLoop_done_before bot ts rest (n + 1) args _ args' m' h n (by omega)))
            (step args _ rfl (fun _ _ => rfl) h)

theorem resolveContexts_done_shape {σ : Type} (env : Env σ) (bot : Robot) (m : InputMatcher)
    (caps : List String) (w : World σ) (args : List String)
    (mem : memoryContext → Option shortTermMemory)
    (h : (resolveContexts env bot m caps w).2 = .done args mem) :
    args.length = caps.length ∧
    ∀ j : Nat, (m.Contexts[j]? = none ∨ m.Contexts[j]? = some "" ∨
        (caps[j]? ≠ some "it" ∧ caps[j]? ≠ some "")) → args[j]? = caps[j]? := by
  unfold resolveContexts at h
  split at h
  · have := contextLoop_done_shape bot _ m.Contexts 0 caps _ args mem h
    simpa using this
  · simp only [CtxResult.done.injEq] at h
    rw [h.1]
    exact ⟨rfl, fun _ _ => rfl⟩

/-- C20: when exactly one available plugin `p` of the registry has a matcher
(of the kind being checked) that matches the text, and `m` is the first
matching matcher in `p`'s declared matcher order, then whatever
`checkPluginMatchers` schedules is a single call of plugin `p` with command
`m.Command` and the arguments `args` that context resolution produces from the
capture groups of `m`'s first match; and it does schedule that call when
context resolution completes and the command passes the gates. The arguments
are as many as the capture groups and equal them at every position that
carries no context label or did not capture a pronoun. -/
theorem first_match_is_scheduled {σ : Type} (env : Env σ) (cc : Bool) (bot : Robot)
    (text : String) (w : World σ) (pre : List Plugin) (p : Plugin) (post : List Plugin)
    (m : InputMatcher)
    (hlist : w.pluginlist = pre ++ p :: post)
    (hpre : ∀ q ∈ pre, candidate env cc bot text q = none)
    (hpost : ∀ q ∈ post, candidate env cc bot text q = none)
    (hav : pluginAvailable env bot.User bot.Channel p = true)
    (hfirst : firstMatch text (matchersOf cc p) = some m) :
    ((checkPluginMatchers env cc bot text w).world.scheduled = w.scheduled ∨
      ∃ args mem, (resolveContexts env bot m (captures m text) w).2 = .done args mem ∧
        (checkPluginMatchers env cc bot text w).world.scheduled =
          w.scheduled ++ [⟨bot, p, true, true, m.Command, args⟩]) ∧
    ∀ args mem, (resolveContexts env bot m (captures m text) w).2 = .done args mem →
      (passesGates env bot w.pluginlist p m
          { (resolveContexts env bot m (captures m text) w).1 with shortTermMemories := mem } →
        (checkPluginMatchers env cc bot text w).world.scheduled =
          w.scheduled ++ [⟨bot, p, true, true, m.Command, args⟩]) ∧
      args.length = (captures m text).length ∧
      ∀ j : Nat, (m.Contexts[j]? = none ∨ m.Contexts[j]? = some "" ∨
          ((captures m text)[j]? ≠ some "it" ∧ (captures m text)[j]? ≠ some "")) →
        args[j]? = (captures m text)[j]? := by
  have hcand : candidate env cc bot text p = some m := by
    simp only [candidate, hav, if_true, hfirst]
  -- the scan is what `onMatch` makes of `m`, followed by the plugins after `p`
  have hscan₀ : scan env cc bot text w =
      match onMatch env bot text p m ⟨w, none, []⟩ with
      | .cont st' => checkPlugins env cc bot text post st'
      | .ret b w' => .ret b w'
      | .panic w' => .panic w' := by
    unfold scan
    rw [hlist, checkPlugins_append, checkPlugins_skip env cc bot text pre _ hpre]
    simp only
    rw [checkPlugins_cons, hcand]
  have hdone : ∀ args mem, (resolveContexts env bot m (captures m text) w).2 = .done args mem →
      scan env cc bot text w =
        .cont ⟨{ (resolveContexts env bot m (captures m text) w).1 with
                  shortTermMemories := mem }, some (p, m), args⟩ := by
    intro args mem hres
    rw [hscan₀, onMatch_done_unselected env bot text p m ⟨w, none, []⟩ args mem hres rfl]
    simp only
    exact checkPlugins_skip env cc bot text post _ hpost
  have hsched : ∀ args mem, (resolveContexts env bot m (captures m text) w).2 = .done args mem →
      passesGates env bot w.pluginlist p m
        { (resolveContexts env bot m (captures m text) w).1 with shortTermMemories := mem } →
      (checkPluginMatchers env cc bot text w).world.scheduled =
        w.scheduled ++ [⟨bot, p, true, true, m.Command, args⟩] := by
    intro args mem hres hgates
    obtain ⟨hu, -⟩ := scan_cont_frame (hdone args mem hres)
    simp only at hu
    rw [checkPluginMatchers_of_scan (hdone args mem hres)]
    simp only [Result.world]
    rw [(runMatched_of_passesGates env bot w.pluginlist p m args _ hgates).1, hu.scheduled]
  refine ⟨?_, fun args mem hres => ?_⟩
  · rcases (checkPluginMatchers_scheduled env cc bot text w).2.2.2.2.2 with h | h
    · exact Or.inl h
    · obtain ⟨w₁, p', m', args', hscan', hgates', -⟩ := h
      right
      cases hr : (resolveContexts env bot m (captures m text) w).2 with
      | done args mem =>
        rw [hdone args mem hr] at hscan'
        simp only [Scan.cont.injEq, ScanState.mk.injEq, Option.some.injEq,
          Prod.mk.injEq] at hscan'
        obtain ⟨hw, ⟨hp, hm⟩, hargs⟩ := hscan'
        subst hw hp hm hargs
        exact ⟨_, _, rfl, hsched _ _ hr hgates'⟩
      | forgot L mem =>
        rw [hscan₀] at hscan'
        simp only [onMatch, hr] at hscan'
        cases hscan'
      | outOfRange mem =>
        rw [hscan₀] at hscan'
        simp only [onMatch, hr] at hscan'
        cases hscan'
  · obtain ⟨hl, hj⟩ := resolveContexts_done_shape env bot m _ w args mem hres
    exact ⟨hsched args mem hres, hl, hj⟩

/-- Witness for C20: "close it" after "door" was remembered for `thing`: the
second matcher of `hallPlugin` is its first matching one, and its command is
scheduled with the substituted argument. -/
theorem first_match_is_scheduled_witness :
    ((checkPluginMatchers demoEnv true bob "close it"
        { demoWorld [gatePlugin, hallPlugin] with
          shortTermMemories := fun k =>
            if k = contextKey bob "thing" then some ⟨"door", 0⟩ else none }).world.scheduled.map
      fun c => (c.plugin.name, c.command, c.args)) = [("hall", "close", ["door"])] ∧
    (checkPluginMatchers demoEnv true bob "close it"
        { demoWorld [gatePlugin, hallPlugin] with
          shortTermMemories := fun k =>
            if k = contextKey bob "thing" then some ⟨"door", 0⟩ else none }).world.scheduled =
      [] ++ [⟨bob, hallPlugin, true, true, "close", ["door"]⟩] :=
  ⟨by decide,
    ((first_match_is_scheduled demoEnv true bob "close it"
      { demoWorld [gatePlugin, hallPlugin] with
        shortTermMemories := fun k =>
          if k = contextKey bob "thing" then some ⟨"door", 0⟩ else none }
      [gatePlugin] hallPlugin [] (literalMatcher "close" "close it" ["it"] ["thing"])
      rfl (by intro q hq; simp only [List.mem_singleton] at hq; subst hq; rfl)
      (by intro q hq; cases hq) rfl rfl).2 ["door"] _ rfl).1 ⟨rfl, Or.inl rfl, rfl⟩⟩

/-! ## The last-message slots are written by `handleMessage` only -/

theorem contextKey_ne_lastMsg (bot : Robot) (L u c : String) :
    lastMsgContext u c ≠ contextKey bot L := by
  intro h
  unfold contextKey lastMsgContext at h
  simp only [memoryContext.mk.injEq] at h
  have hd := congrArg String.data h.1
  simp only [String.data_append] at hd
  simp at hd

theorem keepsLastMsg_refl {σ : Type} (w : World σ) : KeepsLastMsg w w :=
  fun _ _ => rfl

theorem keepsLastMsg_trans {σ : Type} {a b c : World σ} (h₁ : KeepsLastMsg a b)
    (h₂ : KeepsLastMsg b c) : KeepsLastMsg a c :=
  fun u ch => (h₂ u ch).trans (h₁ u ch)

theorem keepsLastMsg_of_eq {σ : Type} {w w' : World σ}
    (h : w'.shortTermMemories = w.shortTermMemories) : KeepsLastMsg w w' :=
  fun _ _ => by rw [h]

theorem contextLoop_lastMsg (bot : Robot) (ts : Int) (labels : List String) :
    ∀ (n : Nat) (args : List String) (m : memoryContext → Option shortTermMemory) (u c : String),
      (contextLoop bot ts n labels args m).memory (lastMsgContext u c) =
        m (lastMsgContext u c) := by
  induction labels with
  | nil => intro n args m u c; rfl
  | cons l rest ih =>
    intro n args m u c
    rw [contextLoop_cons]
    split
    · exact ih _ _ _ u c
    · split
      · rfl
      · split
        · split
          · rw [ih, mapSet_other _ _ _ _ (contextKey_ne_lastMsg bot l u c)]
          · rfl
        · rw [ih, mapSet_other _ _ _ _ (contextKey_ne_lastMsg bot l u c)]

theorem resolveContexts_lastMsg {σ : Type} (env : Env σ) (bot : Robot) (m : InputMatcher)
    (args : List String) (w : World σ) (u c : String) :
    (resolveContexts env bot m args w).2.memory (lastMsgContext u c) =
      w.shortTermMemories (lastMsgContext u c) := by
  unfold resolveContexts
  split
  · exact contextLoop_lastMsg bot _ _ _ _ _ u c
  · rfl

theorem onMatch_lastMsg {σ : Type} (env : Env σ) (bot : Robot) (text : String) (p : Plugin)
    (m : InputMatcher) (st : ScanState σ) :
    KeepsLastMsg st.w (onMatch env bot text p m st).world := by
  intro u c
  have h := resolveContexts_lastMsg env bot m (captures m text) st.w u c
  unfold onMatch
  simp only
  split
  · next hr => rw [hr] at h; exact h
  · next hr => rw [hr] at h; exact h
  · next hr =>
    rw [hr] at h
    split <;> exact h

theorem checkPlugins_lastMsg {σ : Type} (env : Env σ) (cc : Bool) (bot : Robot) (text : String)
    (ps : List Plugin) (st : ScanState σ) :
    KeepsLastMsg st.w (checkPlugins env cc bot text ps st).world := by
  induction ps generalizing st with
  | nil => exact keepsLastMsg_refl _
  | cons p rest ih =>
    rw [checkPlugins_cons]
    cases candidate env cc bot text p with
    | none => exact ih st
    | some m =>
      have hm := onMatch_lastMsg env bot text p m st
      simp only
      cases ho : onMatch env bot text p m st with
      | cont st' =>
        rw [ho] at hm
        exact keepsLastMsg_trans hm (ih st')
      | ret b w' => rw [ho] at hm; exact hm
      | panic w' => rw [ho] at hm; exact hm

theorem checkPluginMatchers_lastMsg {σ : Type} (env : Env σ) (cc : Bool) (bot : Robot)
    (text : String) (w : World σ) :
    KeepsLastMsg w (checkPluginMatchers env cc bot text w).world := by
  have h := checkPlugins_lastMsg env cc bot text w.pluginlist ⟨w, none, []⟩
  unfold checkPluginMatchers scan
  cases hs : checkPlugins env cc bot text w.pluginlist ⟨w, none, []⟩ with
  | ret b w' => rw [hs] at h; exact h
  | panic w' => rw [hs] at h; exact h
  | cont st =>
    rw [hs] at h
    obtain ⟨w₁, sel, args⟩ := st
    cases sel with
    | none => exact h
    | some pm =>
      obtain ⟨p, m⟩ := pm
      exact keepsLastMsg_trans h (keepsLastMsg_of_eq
        (runMatched_sameStores env bot w.pluginlist p m args w₁).shortTermMemories)

/-! ## The stages of `handleMessage` -/

theorem stageFrame_refl {σ : Type} (w : World σ) : StageFrame w w :=
  ⟨rfl, rfl, rfl, rfl, rfl, keepsLastMsg_refl w⟩

theorem stageFrame_trans {σ : Type} {a b c : World σ} (h₁ : StageFrame a b)
    (h₂ : StageFrame b c) : StageFrame a c :=
  ⟨h₂.pluginlist.trans h₁.pluginlist, h₂.replies.trans h₁.replies, h₂.sent.trans h₁.sent,
   h₂.paused.trans h₁.paused, h₂.shuttingDown.trans h₁.shuttingDown,
   keepsLastMsg_trans h₁.lastMsg h₂.lastMsg⟩

theorem checkPluginMatchers_stageFrame {σ : Type} (env : Env σ) (cc : Bool) (bot : Robot)
    (text : String) (w : World σ) :
    StageFrame w (checkPluginMatchers env cc bot text w).world := by
  obtain ⟨hp, hs, hpl, hr, hsent, -⟩ := checkPluginMatchers_scheduled env cc bot text w
  exact ⟨hpl, hr, hsent, hp, hs, checkPluginMatchers_lastMsg env cc bot text w⟩

theorem blankStage_stageFrame {σ : Type} (env : Env σ) (isCommand : Bool) (bot : Robot)
    (ts : Int) (l : Locals) (w : World σ) :
    StageFrame w (blankStage env isCommand bot ts l w).world := by
  unfold blankStage
  split
  · split
    · split
      · rw [bind_ok_world]
        exact checkPluginMatchers_stageFrame env true bot _ w
      · exact ⟨rfl, rfl, rfl, rfl, rfl, fun _ _ => rfl⟩
    · exact ⟨rfl, rfl, rfl, rfl, rfl, fun _ _ => rfl⟩
  · exact stageFrame_refl w

theorem commandStage_stageFrame {σ : Type} (env : Env σ) (isCommand : Bool) (bot : Robot)
    (plugins : List Plugin) (l : Locals) (w : World σ) :
    StageFrame w (commandStage env isCommand bot plugins l w).world := by
  unfold commandStage
  split
  · rw [bind_ok_world]
    exact checkPluginMatchers_stageFrame env true bot _ w
  · exact stageFrame_refl w

theorem ambientStage_stageFrame {σ : Type} (env : Env σ) (isCommand : Bool) (bot : Robot)
    (l : Locals) (w : World σ) :
    StageFrame w (ambientStage env isCommand bot l w).world := by
  unfold ambientStage
  split
  · rw [bind_ok_world]
    exact checkPluginMatchers_stageFrame env false bot _ w
  · exact stageFrame_refl w

/-- A `handleMessage` that returns went through all its stages. -/
theorem handleMessage_ok {σ : Type} (env : Env σ) (isCommand : Bool)
    (channel user text : String) (w w' : World σ)
    (h : handleMessage env isCommand channel user text w = .ok () w') :
    ∃ l₁ w₁ l₂ w₂ l₄ w₄,
      blankStage env isCommand ⟨user, channel, ""⟩ (env.timeNow w.ext).1
        ⟨text, false, [], false⟩ { w with ext := (env.timeNow w.ext).2 } = .ok l₁ w₁ ∧
      commandStage env isCommand ⟨user, channel, ""⟩ w.pluginlist l₁ w₁ = .ok l₂ w₂ ∧
      ambientStage env isCommand ⟨user, channel, ""⟩ (replyStage ⟨user, channel, ""⟩ l₂ w₂).1
        (replyStage ⟨user, channel, ""⟩ l₂ w₂).2 = .ok l₄ w₄ ∧
      w' = bookkeepingStage isCommand ⟨user, channel, ""⟩ (env.timeNow w.ext).1 l₄
        (catchAllStage isCommand ⟨user, channel, ""⟩ l₄ w₄) := by
  unfold handleMessage at h
  simp only at h
  cases h₁ : blankStage env isCommand ⟨user, channel, ""⟩ (env.timeNow w.ext).1
      ⟨text, false, [], false⟩ { w with ext := (env.timeNow w.ext).2 } with
  | panic wp => rw [h₁] at h; cases h
  | ok l₁ w₁ =>
    rw [h₁] at h
    simp only [Result.bind, handleTail] at h
    cases h₂ : commandStage env isCommand ⟨user, channel, ""⟩ w.pluginlist l₁ w₁ with
    | panic wp => rw [h₂] at h; cases h
    | ok l₂ w₂ =>
      rw [h₂] at h
      simp only at h
      cases h₄ : ambientStage env isCommand ⟨user, channel, ""⟩
          (replyStage ⟨user, channel, ""⟩ l₂ w₂).1 (replyStage ⟨user, channel, ""⟩ l₂ w₂).2 with
      | panic wp => rw [h₄] at h; cases h
      | ok l₄ w₄ =>
        rw [h₄] at h
        simp only [Result.ok.injEq, true_and] at h
        exact ⟨l₁, w₁, l₂, w₂, l₄, w₄, rfl, h₂, h₄, h.symm⟩

/-! ## C12: last-message bookkeeping -/

theorem catchAllStage_memories {σ : Type} (isCommand : Bool) (bot : Robot) (l : Locals)
    (w : World σ) :
    (catchAllStage isCommand bot l w).shortTermMemories = w.shortTermMemories ∧
    (catchAllStage isCommand bot l w).replies = w.replies ∧
    (catchAllStage isCommand bot l w).sent = w.sent := by
  unfold catchAllStage
  split
  · split <;> exact ⟨rfl, rfl, rfl⟩
  · exact ⟨rfl, rfl, rfl⟩

theorem bookkeepingStage_frame {σ : Type} (isCommand : Bool) (bot : Robot) (ts : Int)
    (l : Locals) (w : World σ) :
    (bookkeepingStage isCommand bot ts l w).replies = w.replies ∧
    (bookkeepingStage isCommand bot ts l w).sent = w.sent ∧
    (bookkeepingStage isCommand bot ts l w).scheduled = w.scheduled ∧
    ∀ k, k ≠ lastMsgContext bot.User bot.Channel →
      (bookkeepingStage isCommand bot ts l w).shortTermMemories k = w.shortTermMemories k := by
  unfold bookkeepingStage
  split
  · exact ⟨rfl, rfl, rfl, fun k hk => by simp only [mapDelete, hk, if_false]⟩
  · exact ⟨rfl, rfl, rfl, fun k hk => by simp only [mapSet, hk, if_false]⟩

/-- What an undirected message leaves in the locals after the reply and ambient
stages: it counts as matched exactly when a waiter was pending or the ambient
check returned true, and its text is unchanged. -/
theorem undirected_locals {σ : Type} (env : Env σ) (bot : Robot) (text : String)
    (w₀ : World σ) (l₄ : Locals) (w₄ : World σ)
    (h₄ : ambientStage env false bot (replyStage bot ⟨text, false, [], false⟩ w₀).1
      (replyStage bot ⟨text, false, [], false⟩ w₀).2 = .ok l₄ w₄) :
    l₄.messagetext = text ∧
    ((w₀.replies ⟨bot.User, bot.Channel⟩).isSome = true → l₄.commandMatched = true) ∧
    (w₀.replies ⟨bot.User, bot.Channel⟩ = none →
      (checkPluginMatchers env false bot text w₀).val? = some l₄.commandMatched) := by
  cases hr : w₀.replies ⟨bot.User, bot.Channel⟩ with
  | some rep =>
    simp only [replyStage, hr, Bool.false_eq_true, if_false, ambientStage, Bool.not_true,
      false_and, Result.ok.injEq] at h₄
    obtain ⟨rfl, -⟩ := h₄
    exact ⟨rfl, fun _ => rfl, fun h => by cases h⟩
  | none =>
    simp only [replyStage, hr, ambientStage, Bool.not_false, and_self, if_true] at h₄
    cases hc : checkPluginMatchers env false bot text w₀ with
    | panic wp => rw [hc] at h₄; cases h₄
    | ok b wx =>
      rw [hc] at h₄
      simp only [Result.bind, Result.ok.injEq] at h₄
      obtain ⟨rfl, -⟩ := h₄
      exact ⟨rfl, fun h => (by cases h), fun _ => rfl⟩

/-- C12: after `handleMessage` returns, if the message was directed, or a reply
waiter was pending for (user, channel), or the ambient check matched, the
memory store holds no last-message entry for (user, channel); if it was
undirected, no waiter was pending and the ambient check did not match, the
store holds exactly the message text with the timestamp `handleMessage` read on
entry. The last-message entries of every other (user, channel) pair are
unchanged. -/
theorem last_message_bookkeeping {σ : Type} (env : Env σ) (isCommand : Bool)
    (channel user text : String) (w w' : World σ)
    (h : handleMessage env isCommand channel user text w = .ok () w') :
    ((isCommand = true ∨ (w.replies ⟨user, channel⟩).isSome = true ∨
        (checkPluginMatchers env false ⟨user, channel, ""⟩ text
          { w with ext := (env.timeNow w.ext).2 }).val? = some true) →
      w'.shortTermMemories (lastMsgContext user channel) = none) ∧
    (isCommand = false → w.replies ⟨user, channel⟩ = none →
      (checkPluginMatchers env false ⟨user, channel, ""⟩ text
        { w with ext := (env.timeNow w.ext).2 }).val? = some false →
      w'.shortTermMemories (lastMsgContext user channel) =
        some ⟨text, (env.timeNow w.ext).1⟩) ∧
    (∀ u c, (u, c) ≠ (user, channel) →
      w'.shortTermMemories (lastMsgContext u c) = w.shortTermMemories (lastMsgContext u c)) := by
  obtain ⟨l₁, w₁, l₂, w₂, l₄, w₄, h₁, h₂, h₄, hw'⟩ :=
    handleMessage_ok env isCommand channel user text w w' h
  have f₁ := blankStage_stageFrame env isCommand ⟨user, channel, ""⟩ (env.timeNow w.ext).1
    ⟨text, false, [], false⟩ { w with ext := (env.timeNow w.ext).2 }
  rw [h₁] at f₁
  have f₂ := commandStage_stageFrame env isCommand ⟨user, channel, ""⟩ w.pluginlist l₁ w₁
  rw [h₂] at f₂
  have f₄ := ambientStage_stageFrame env isCommand ⟨user, channel, ""⟩
    (replyStage ⟨user, channel, ""⟩ l₂ w₂).1 (replyStage ⟨user, channel, ""⟩ l₂ w₂).2
  rw [h₄] at f₄
  simp only [Result.world] at f₁ f₂ f₄
  obtain ⟨-, -, -, -, -, hrmem, -⟩ := replyStage_frame ⟨user, channel, ""⟩ l₂ w₂
  -- the decision taken by the bookkeeping
  have hbook : w'.shortTermMemories (lastMsgContext user channel) =
      if l₄.commandMatched = true ∨ isCommand = true then none
      else some ⟨l₄.messagetext, (env.timeNow w.ext).1⟩ := by
    rw [hw']
    unfold bookkeepingStage
    split
    · simp only [mapDelete, if_true]
    · simp only [mapSet, if_true]
  refine ⟨?_, ?_, ?_⟩
  · intro hm
    rw [hbook]
    cases isCommand with
    | true => simp
    | false =>
      simp only [blankStage, Bool.false_eq_true, false_and, if_false, Result.ok.injEq] at h₁
      obtain ⟨rfl, rfl⟩ := h₁
      simp only [commandStage, Bool.false_eq_true, and_false, if_false, Result.ok.injEq] at h₂
      obtain ⟨rfl, rfl⟩ := h₂
      obtain ⟨-, hsome, hnone⟩ := undirected_locals env ⟨user, channel, ""⟩ text _ l₄ w₄ h₄
      rcases hm with hm | hm | hm
      · cases hm
      · simp [hsome hm]
      · cases hr : w.replies ⟨user, channel⟩ with
        | some rep => simp [hsome (by simp only [hr]; rfl)]
        | none =>
          have := hnone hr
          rw [hm] at this
          simp only [Option.some.injEq] at this
          simp [← this]
  · intro hic hr hm
    subst hic
    rw [hbook]
    simp only [blankStage, Bool.false_eq_true, false_and, if_false, Result.ok.injEq] at h₁
    obtain ⟨rfl, rfl⟩ := h₁
    simp only [commandStage, Bool.false_eq_true, and_false, if_false, Result.ok.injEq] at h₂
    obtain ⟨rfl, rfl⟩ := h₂
    obtain ⟨htext, -, hnone⟩ := undirected_locals env ⟨user, channel, ""⟩ text _ l₄ w₄ h₄
    have := hnone hr
    rw [hm] at this
    simp only [Option.some.injEq] at this
    simp [← this, htext]
  · intro u c hne
    have hk : lastMsgContext u c ≠ lastMsgContext user channel := by
      intro he
      simp only [lastMsgContext, memoryContext.mk.injEq, true_and] at he
      exact hne (by rw [he.1, he.2])
    rw [hw', (bookkeepingStage_frame isCommand ⟨user, channel, ""⟩ _ l₄ _).2.2.2 _ hk,
      (catchAllStage_memories isCommand ⟨user, channel, ""⟩ l₄ w₄).1, f₄.lastMsg u c, hrmem,
      f₂.lastMsg u c, f₁.lastMsg u c]

/-- Witness for C12: an undirected "hello there" that nothing matches is
recorded with the time read on entry. -/
theorem last_message_bookkeeping_witness :
    (handleMessage demoEnv false "general" "bob" "hello there"
        { demoWorld [gatePlugin] with ext := 5 }).world.shortTermMemories
      (lastMsgContext "bob" "general") = some ⟨"hello there", 5⟩ ∧
    ∀ u c, (u, c) ≠ ("bob", "general") →
      (handleMessage demoEnv false "general" "bob" "hello there"
        { demoWorld [gatePlugin] with ext := 5 }).world.shortTermMemories
        (lastMsgContext u c) = none :=
  ⟨(last_message_bookkeeping demoEnv false "general" "bob" "hello there"
      { demoWorld [gatePlugin] with ext := 5 } _ rfl).2.1 rfl rfl rfl,
    fun u c hne => (last_message_bookkeeping demoEnv false "general" "bob" "hello there"
      { demoWorld [gatePlugin] with ext := 5 } _ rfl).2.2 u c hne⟩

/-! ## C11: delivery to a reply waiter -/

/-- Whenever `handleMessage` returns, a waiter registered for the message's
(user, channel) has been removed and sent exactly one reply, and the waiters
under every other key are as they were. -/
theorem reply_delivered_on_return {σ : Type} (env : Env σ) (isCommand : Bool)
    (channel user text : String) (w w' : World σ) (rep : replyWaiter)
    (h : handleMessage env isCommand channel user text w = .ok () w')
    (hwait : w.replies ⟨user, channel⟩ = some rep) :
    w'.replies ⟨user, channel⟩ = none ∧
    (∃ r, w'.sent = w.sent ++ [(rep.replyChannel, r)]) ∧
    ∀ k, k ≠ ⟨user, channel⟩ → w'.replies k = w.replies k := by
  obtain ⟨l₁, w₁, l₂, w₂, l₄, w₄, h₁, h₂, h₄, hw'⟩ :=
    handleMessage_ok env isCommand channel user text w w' h
  have f₁ := blankStage_stageFrame env isCommand ⟨user, channel, ""⟩ (env.timeNow w.ext).1
    ⟨text, false, [], false⟩ { w with ext := (env.timeNow w.ext).2 }
  rw [h₁] at f₁
  have f₂ := commandStage_stageFrame env isCommand ⟨user, channel, ""⟩ w.pluginlist l₁ w₁
  rw [h₂] at f₂
  have f₄ := ambientStage_stageFrame env isCommand ⟨user, channel, ""⟩
    (replyStage ⟨user, channel, ""⟩ l₂ w₂).1 (replyStage ⟨user, channel, ""⟩ l₂ w₂).2
  rw [h₄] at f₄
  simp only [Result.world] at f₁ f₂ f₄
  have hrep₂ : w₂.replies = w.replies := f₂.replies.trans f₁.replies
  have hsent₂ : w₂.sent = w.sent := f₂.sent.trans f₁.sent
  have hwait₂ : w₂.replies ⟨user, channel⟩ = some rep := by rw [hrep₂]; exact hwait
  have hstage : (replyStage ⟨user, channel, ""⟩ l₂ w₂).2.replies =
        mapDelete w.replies ⟨user, channel⟩ ∧
      ∃ r, (replyStage ⟨user, channel, ""⟩ l₂ w₂).2.sent = w.sent ++ [(rep.replyChannel, r)] := by
    unfold replyStage
    simp only [hwait₂]
    split
    · exact ⟨by simp only [hrep₂], ⟨false, true, ""⟩, by simp only [hsent₂]⟩
    · exact ⟨by simp only [hrep₂], ⟨rep.re l₂.messagetext, false, l₂.messagetext⟩,
        by simp only [hsent₂]⟩
  obtain ⟨hdel, r, hsent⟩ := hstage
  have hrep' : w'.replies = mapDelete w.replies ⟨user, channel⟩ := by
    rw [hw', (bookkeepingStage_frame isCommand ⟨user, channel, ""⟩ _ l₄ _).1,
      (catchAllStage_memories isCommand ⟨user, channel, ""⟩ l₄ w₄).2.1, f₄.replies, hdel]
  have hsent' : w'.sent = w.sent ++ [(rep.replyChannel, r)] := by
    rw [hw', (bookkeepingStage_frame isCommand ⟨user, channel, ""⟩ _ l₄ _).2.1,
      (catchAllStage_memories isCommand ⟨user, channel, ""⟩ l₄ w₄).2.2, f₄.sent, hsent]
  refine ⟨by rw [hrep']; simp only [mapDelete, if_true], ⟨r, hsent'⟩, ?_⟩
  intro k hk
  rw [hrep']
  simp only [mapDelete, hk, if_false]

/-- C11 (evaluation at the failing input): a waiter is pending for bob in
"general" and bob's directed "set alarm" matches the command of `clockPlugin`,
whose matcher declares a context label but has no capture group. Command
matching panics on `cmdArgs[0]` before the reply check is reached:
`handleMessage` does not return, the waiter is still registered and nothing was
sent to it. -/
theorem panic_leaves_waiter_registered :
    ((waitingWorld [clockPlugin]).replies ⟨"bob", "general"⟩).isSome = true ∧
    (handleMessage demoEnv true "general" "bob" "set alarm"
      (waitingWorld [clockPlugin])).val? = none ∧
    ((handleMessage demoEnv true "general" "bob" "set alarm"
      (waitingWorld [clockPlugin])).world.replies ⟨"bob", "general"⟩).isSome = true ∧
    (handleMessage demoEnv true "general" "bob" "set alarm"
      (waitingWorld [clockPlugin])).world.sent = [] :=
  ⟨rfl, rfl, rfl, by decide⟩

/-! ## C18: the catch-all plugins -/

theorem checkPluginMatchers_no_candidates {σ : Type} (env : Env σ) (cc : Bool) (bot : Robot)
    (text : String) (w : World σ)
    (h : ∀ p ∈ w.pluginlist, candidate env cc bot text p = none) :
    checkPluginMatchers env cc bot text w = .ok false w := by
  simp only [checkPluginMatchers, scan, checkPlugins_skip env cc bot text w.pluginlist _ h]

/-- The stages of `handleMessage` on a directed message with effective text `T`
that matches nothing, with no waiter pending and the robot not shutting down. -/
theorem unmatched_directed_stages {σ : Type} (env : Env σ) (bot : Robot)
    (plugins : List Plugin) (ts : Int) (text T : String) (w₀ : World σ)
    (hwait : w₀.replies ⟨bot.User, bot.Channel⟩ = none)
    (hsd : w₀.shuttingDown = false)
    (hcpm : checkPluginMatchers env true bot T w₀ = .ok false w₀)
    (heff : (text ≠ "" ∧ T = text) ∨
      (text = "" ∧ ∃ last, w₀.shortTermMemories (lastMsgContext bot.User bot.Channel) =
          some last ∧
        timeSub ts last.timestamp < keepListeningDuration ∧ T = last.memory)) :
    (blankStage env true bot ts ⟨text, false, [], false⟩ w₀).bind
        (handleTail env true bot plugins ts) =
      .ok () { w₀ with
        scheduled := w₀.scheduled ++
          catchAllCalls bot T (plugins.filter fun p => p.CatchAll),
        shortTermMemories :=
          mapDelete w₀.shortTermMemories (lastMsgContext bot.User bot.Channel) } := by
  have hblank : blankStage env true bot ts ⟨text, false, [], false⟩ w₀ =
      .ok ⟨T, false, [], false⟩ w₀ := by
    rcases heff with ⟨hne, rfl⟩ | ⟨he, last, hlast, hlt, rfl⟩
    · simp only [blankStage, hne, and_false, if_false]
    · subst he
      simp only [blankStage, and_self, if_true, hlast, hlt, hcpm, Result.bind]
  have hcmd : commandStage env true bot plugins ⟨T, false, [], false⟩ w₀ =
      .ok ⟨T, false, plugins.filter fun p => p.CatchAll, false⟩ w₀ := by
    simp only [commandStage, Bool.not_false, and_self, if_true, hcpm, Result.bind]
  have hreply : replyStage bot ⟨T, false, plugins.filter fun p => p.CatchAll, false⟩ w₀ =
      (⟨T, false, plugins.filter fun p => p.CatchAll, false⟩, w₀) := by
    simp only [replyStage, hwait]
  have hamb : ambientStage env true bot ⟨T, false, plugins.filter fun p => p.CatchAll, false⟩
      w₀ = .ok ⟨T, false, plugins.filter fun p => p.CatchAll, false⟩ w₀ := by
    simp only [ambientStage, Bool.not_true, Bool.false_eq_true, and_false, if_false]
  rw [hblank]
  simp only [Result.bind, handleTail, hcmd, hreply, hamb]
  simp only [catchAllStage, Bool.not_false, and_self, if_true, hsd, bookkeepingStage, or_true]

/-- C18 (amended): for a directed message whose text `T` is non-empty, or is
the text replayed for an empty message from a last-message entry younger than
77 seconds, such that no available plugin has a command matcher matching `T`
and no reply waiter is pending for (user, channel), when the robot is not
shutting down, `handleMessage` schedules every plugin whose catch-all flag is
set exactly once, in registry order, with command "catchall" and `T` as its
single argument, and schedules nothing else. -/
theorem catchall_for_unmatched_directed {σ : Type} (env : Env σ)
    (channel user text T : String) (w : World σ)
    (hwait : w.replies ⟨user, channel⟩ = none)
    (hsd : w.shuttingDown = false)
    (heff : (text ≠ "" ∧ T = text) ∨
      (text = "" ∧ ∃ last, w.shortTermMemories (lastMsgContext user channel) = some last ∧
        (env.timeNow w.ext).1 - last.timestamp < 77 * 1000000000 ∧ T = last.memory))
    (hnone : ∀ p ∈ w.pluginlist, candidate env true ⟨user, channel, ""⟩ T p = none) :
    ∃ w', handleMessage env true channel user text w = .ok () w' ∧
      w'.scheduled = w.scheduled ++
        (w.pluginlist.filter fun p => p.CatchAll).map
          fun p => ⟨⟨user, channel, ""⟩, p, true, true, "catchall", [T]⟩ := by
  have hcpm : checkPluginMatchers env true ⟨user, channel, ""⟩ T
      { w with ext := (env.timeNow w.ext).2 } =
      .ok false { w with ext := (env.timeNow w.ext).2 } :=
    checkPluginMatchers_no_candidates env true _ T _ hnone
  have heff' : (text ≠ "" ∧ T = text) ∨
      (text = "" ∧ ∃ last, w.shortTermMemories (lastMsgContext user channel) = some last ∧
        timeSub (env.timeNow w.ext).1 last.timestamp < keepListeningDuration ∧
        T = last.memory) := by
    rcases heff with h | ⟨he, last, hlast, hage, hT⟩
    · exact Or.inl h
    · exact Or.inr ⟨he, last, hlast, (timeSub_lt_keepListening _ _).2 (by omega), hT⟩
  have heq := unmatched_directed_stages env ⟨user, channel, ""⟩ w.pluginlist
    (env.timeNow w.ext).1 text T { w with ext := (env.timeNow w.ext).2 } hwait hsd hcpm heff'
  exact ⟨_, heq, rfl⟩

/-- Witness for C18: bob's directed "what now" matches nothing and goes to the
catch-all plugin. -/
theorem catchall_for_unmatched_directed_witness :
    ∃ w', handleMessage demoEnv true "general" "bob" "what now"
        (demoWorld [gatePlugin, fallbackPlugin]) = .ok () w' ∧
      w'.scheduled = [] ++
        ([gatePlugin, fallbackPlugin].filter fun p => p.CatchAll).map
          fun p => ⟨⟨"bob", "general", ""⟩, p, true, true, "catchall", ["what now"]⟩ :=
  catchall_for_unmatched_directed demoEnv "general" "bob" "what now" "what now"
    (demoWorld [gatePlugin, fallbackPlugin]) rfl rfl (Or.inl ⟨by decide, rfl⟩)
    (by
      intro p hp
      simp only [demoWorld, List.mem_cons, List.mem_singleton, List.not_mem_nil, or_false] at hp
      rcases hp with rfl | rfl <;> rfl)

/-- C18 as stated fails for an empty directed message with nothing to replay:
no command matcher matches it, no waiter is pending, the robot is not shutting
down and `fallbackPlugin` has its catch-all flag set, yet `handleMessage` only
says "Yes?" and schedules nothing. -/
theorem blank_message_skips_catchall :
    candidates demoEnv true bob "" [fallbackPlugin] = [] ∧
    (demoWorld [fallbackPlugin]).replies ⟨"bob", "general"⟩ = none ∧
    (demoWorld [fallbackPlugin]).shuttingDown = false ∧
    fallbackPlugin.CatchAll = true ∧
    (handleMessage demoEnv true "general" "bob" "" (demoWorld [fallbackPlugin])).world.said =
      [(bob, "Yes?")] ∧
    (handleMessage demoEnv true "general" "bob" ""
      (demoWorld [fallbackPlugin])).world.scheduled.length = 0 :=
  ⟨rfl, rfl, rfl, rfl, by decide, by decide⟩

/-! ## C19: immediate elevation always challenges -/

/-- Every call of `getcode` starts by announcing the elevation and asking the
user, directly, for a launch code. -/
theorem getcode_said {τ δ : Type} (tenv : TotpEnv τ δ) (r : Robot) (immediate : Bool)
    (w : TotpWorld τ) :
    ∃ tail, (getcode tenv r immediate w).2.said =
      w.said ++ [(r, false, elevationNotice r immediate),
        (r, true, "Please provide your totp launch code")] ++ tail := by
  unfold getcode
  simp only [TotpWorld.say]
  split_ifs
  all_goals simp

/-- When `checkOTP` answers `(true, Ok)`: the stored configuration was checked
out with `Ok` and exists, `Authenticate` accepted this code without error, and
the update of the datum was stored with `Ok`. -/
theorem checkOTP_accepts_iff {τ δ : Type} (tenv : TotpEnv τ δ) (r : Robot) (code : String)
    (s : τ) :
    (checkOTP tenv r code s).1 = (true, PlugRetVal.Ok) ↔
      (tenv.checkoutDatum r r.User true s).1.2.2.1 = PlugRetVal.Ok ∧
      (tenv.checkoutDatum r r.User true s).1.2.1 = true ∧
      (tenv.authenticate (tenv.checkoutDatum r r.User true s).1.2.2.2 code).2.1 = false ∧
      (tenv.authenticate (tenv.checkoutDatum r r.User true s).1.2.2.2 code).1 = true ∧
      (tenv.updateDatum r r.User (tenv.checkoutDatum r r.User true s).1.1
        (tenv.authenticate (tenv.checkoutDatum r r.User true s).1.2.2.2 code).2.2
        (tenv.checkoutDatum r r.User true s).2).1 = PlugRetVal.Ok := by
  unfold checkOTP
  simp only
  split_ifs <;> simp_all [Prod.ext_iff]

/-- The challenge succeeds exactly when the reply `getcode` ends up with came
with `Ok` and `checkOTP` accepted that reply in the state the reply left. -/
theorem getcode_iff {τ δ : Type} (tenv : TotpEnv τ δ) (r : Robot) (immediate : Bool)
    (w : TotpWorld τ) :
    (getcode tenv r immediate w).1 = true ↔
      (challengeReply tenv r (tenv.pause 1 w.ext)).1.2 = PlugRetVal.Ok ∧
      (checkOTP tenv r (challengeReply tenv r (tenv.pause 1 w.ext)).1.1
        (challengeReply tenv r (tenv.pause 1 w.ext)).2).1 = (true, PlugRetVal.Ok) := by
  unfold getcode challengeReply
  simp only [TotpWorld.say]
  split_ifs <;> simp_all [Prod.ext_iff]

/-- C19: for every call of the TOTP provider's `elevate` with `immediate = true`,
whatever the recorded last elevation and the timeout configuration, `getcode`
is invoked (in the world after the clock read): the elevation is announced and
the user is asked directly for a launch code, and `elevate` returns what that
challenge returned. It returns true exactly when the reply the user gave to this
challenge (the first one, or the one to the repeated request when the first
wait failed) came with `Ok` and `checkOTP` accepted that very reply; and
`checkOTP` accepts a code only if the user's stored configuration was checked
out and exists, `Authenticate` found the code valid without error, and the
updated configuration was stored. -/
theorem immediate_elevation_always_challenges {τ δ : Type} (tenv : TotpEnv τ δ) (r : Robot)
    (w : TotpWorld τ) :
    (elevate tenv r true w).1 =
      (getcode tenv r true { w with ext := (tenv.timeNow w.ext).2 }).1 ∧
    (elevate tenv r true w).2.said =
      (getcode tenv r true { w with ext := (tenv.timeNow w.ext).2 }).2.said ∧
    (elevate tenv r true w).2.ext =
      (getcode tenv r true { w with ext := (tenv.timeNow w.ext).2 }).2.ext ∧
    (∃ tail, (elevate tenv r true w).2.said =
      w.said ++ [(r, false, elevationNotice r true),
        (r, true, "Please provide your totp launch code")] ++ tail) ∧
    ((elevate tenv r true w).1 = true ↔
      (challengeReply tenv r (tenv.pause 1 (tenv.timeNow w.ext).2)).1.2 = PlugRetVal.Ok ∧
      (checkOTP tenv r (challengeReply tenv r (tenv.pause 1 (tenv.timeNow w.ext).2)).1.1
        (challengeReply tenv r (tenv.pause 1 (tenv.timeNow w.ext).2)).2).1 =
          (true, PlugRetVal.Ok)) ∧
    (∀ code s, (checkOTP tenv r code s).1 = (true, PlugRetVal.Ok) ↔
      (tenv.checkoutDatum r r.User true s).1.2.2.1 = PlugRetVal.Ok ∧
      (tenv.checkoutDatum r r.User true s).1.2.1 = true ∧
      (tenv.authenticate (tenv.checkoutDatum r r.User true s).1.2.2.2 code).2.1 = false ∧
      (tenv.authenticate (tenv.checkoutDatum r r.User true s).1.2.2.2 code).1 = true ∧
      (tenv.updateDatum r r.User (tenv.checkoutDatum r r.User true s).1.1
        (tenv.authenticate (tenv.checkoutDatum r r.User true s).1.2.2.2 code).2.2
        (tenv.checkoutDatum r r.User true s).2).1 = PlugRetVal.Ok) := by
  have h1 : (elevate tenv r true w).1 =
      (getcode tenv r true { w with ext := (tenv.timeNow w.ext).2 }).1 := by
    unfold elevate
    simp only [if_true]
    split <;> rfl
  have h2 : (elevate tenv r true w).2.said =
      (getcode tenv r true { w with ext := (tenv.timeNow w.ext).2 }).2.said := by
    unfold elevate
    simp only [if_true]
    split <;> rfl
  have h3 : (elevate tenv r true w).2.ext =
      (getcode tenv r true { w with ext := (tenv.timeNow w.ext).2 }).2.ext := by
    unfold elevate
    simp only [if_true]
    split <;> rfl
  refine ⟨h1, h2, h3, ?_, ?_, fun code s => checkOTP_accepts_iff tenv r code s⟩
  · rw [h2]
    exact getcode_said tenv r true { w with ext := (tenv.timeNow w.ext).2 }
  · rw [h1]
    exact getcode_iff tenv r true { w with ext := (tenv.timeNow w.ext).2 }

/-- Witness for C19: bob elevated one second ago and the timeout is one hour, so
a standard elevation asks nothing, but an immediate one challenges him; it is
granted when he replies with the code his configuration accepts and refused when
he replies with another one. -/
theorem immediate_elevation_always_challenges_witness :
    (elevate demoTotpEnv bob false demoTotpWorld).2.said = [] ∧
    (elevate demoTotpEnv bob true demoTotpWorld).2.said =
      [(bob, false, "This command requires immediate elevation - I'll message you directly"),
       (bob, true, "Please provide your totp launch code")] ∧
    (elevate wrongCodeEnv bob true demoTotpWorld).1 = false ∧
    (elevate wrongCodeEnv bob true demoTotpWorld).2.said =
      [(bob, false, "This command requires immediate elevation - I'll message you directly"),
       (bob, true, "Please provide your totp launch code")] ∧
    (elevate demoTotpEnv bob true demoTotpWorld).1 = true ∧
    (challengeReply demoTotpEnv bob (demoTotpEnv.pause 1
        (demoTotpEnv.timeNow demoTotpWorld.ext).2)).1 = ("123456", PlugRetVal.Ok) ∧
    ((challengeReply demoTotpEnv bob (demoTotpEnv.pause 1
        (demoTotpEnv.timeNow demoTotpWorld.ext).2)).1.2 = PlugRetVal.Ok ∧
      (checkOTP demoTotpEnv bob (challengeReply demoTotpEnv bob (demoTotpEnv.pause 1
          (demoTotpEnv.timeNow demoTotpWorld.ext).2)).1.1
        (challengeReply demoTotpEnv bob (demoTotpEnv.pause 1
          (demoTotpEnv.timeNow demoTotpWorld.ext).2)).2).1 = (true, PlugRetVal.Ok)) :=
  ⟨by decide, by decide, by decide, by decide, by decide, by decide,
    (immediate_elevation_always_challenges demoTotpEnv bob demoTotpWorld).2.2.2.2.1.1
      (by decide)⟩

/-! ## C21: availability of the scheduled plugins -/

/-- Every plugin body `checkPluginMatchers` schedules belongs to a plugin that
is available to the sender in the channel of the message. -/
theorem checkPluginMatchers_available_only {σ : Type} (env : Env σ) (cc : Bool) (bot : Robot)
    (text : String) (w : World σ) (plugins : List Plugin) :
    ScheduledOnly (AvailableOrCatchAll env bot.User bot.Channel plugins) w
      (checkPluginMatchers env cc bot text w).world := by
  obtain ⟨hp, hs, -, -, -, hsch⟩ := checkPluginMatchers_scheduled env cc bot text w
  rcases hsch with hsch | ⟨w₁, p, m, args, hscan, -, hsch⟩
  · exact scheduledOnly_of_eq _ hp hs hsch
  · refine ⟨hp, hs, _, hsch, ?_⟩
    intro c hc
    simp only [List.mem_singleton] at hc
    subst hc
    obtain ⟨pre, post, -, -, -, hcand, -⟩ :=
      checkPlugins_cont_some env cc bot text w.pluginlist ⟨w, none, []⟩
        ⟨w₁, some (p, m), args⟩ rfl p m rfl hscan
    left
    unfold candidate at hcand
    by_cases hav : pluginAvailable env bot.User bot.Channel p = true
    · exact hav
    · rw [if_neg hav] at hcand
      cases hcand

theorem bind_ok_eq {σ α β : Type} {r : Result σ α} {g : α → β} {x : β} {w₁ : World σ}
    (h : (r.bind fun v w' => .ok (g v) w') = .ok x w₁) : ∃ v, r = .ok v w₁ ∧ x = g v := by
  cases r with
  | panic wp => cases h
  | ok v w' =>
    simp only [Result.bind, Result.ok.injEq] at h
    exact ⟨v, by rw [h.2], h.1.symm⟩

theorem blankStage_catchAll {σ : Type} {env : Env σ} {isCommand : Bool} {bot : Robot}
    {ts : Int} {l l₁ : Locals} {w w₁ : World σ}
    (h : blankStage env isCommand bot ts l w = .ok l₁ w₁) :
    l₁.catchAllPlugins = l.catchAllPlugins := by
  unfold blankStage at h
  split at h
  · split at h
    · split at h
      · obtain ⟨v, -, hx⟩ := bind_ok_eq h
        rw [hx]
      · simp only [Result.ok.injEq] at h
        rw [← h.1]
    · simp only [Result.ok.injEq] at h
      rw [← h.1]
  · simp only [Result.ok.injEq] at h
    rw [← h.1]

theorem commandStage_catchAll {σ : Type} {env : Env σ} {isCommand : Bool} {bot : Robot}
    {plugins : List Plugin} {l l₂ : Locals} {w w₂ : World σ}
    (h : commandStage env isCommand bot plugins l w = .ok l₂ w₂) :
    l₂.catchAllPlugins = l.catchAllPlugins ∨
      l₂.catchAllPlugins = plugins.filter fun plugin => plugin.CatchAll := by
  unfold commandStage at h
  split at h
  · obtain ⟨v, -, hx⟩ := bind_ok_eq h
    right
    rw [hx]
  · simp only [Result.ok.injEq] at h
    left
    rw [← h.1]

theorem replyStage_catchAll {σ : Type} (bot : Robot) (l : Locals) (w : World σ) :
    (replyStage bot l w).1.catchAllPlugins = l.catchAllPlugins := by
  unfold replyStage
  simp only
  split
  · rfl
  · split <;> rfl

theorem ambientStage_catchAll {σ : Type} {env : Env σ} {isCommand : Bool} {bot : Robot}
    {l l₄ : Locals} {w w₄ : World σ}
    (h : ambientStage env isCommand bot l w = .ok l₄ w₄) :
    l₄.catchAllPlugins = l.catchAllPlugins := by
  unfold ambientStage at h
  split at h
  · obtain ⟨v, -, hx⟩ := bind_ok_eq h
    rw [hx]
  · simp only [Result.ok.injEq] at h
    rw [← h.1]

/-- Every plugin body that `handleMessage` schedules belongs to a plugin that is
available to the sender in the channel of the message, or is the `catchall`
call of a registered plugin whose catch-all flag is set. -/
theorem handleMessage_available_or_catchall {σ : Type} (env : Env σ) (isCommand : Bool)
    (channel user text : String) (w : World σ) :
    ∃ extra, (handleMessage env isCommand channel user text w).world.scheduled =
        w.scheduled ++ extra ∧
      ∀ c ∈ extra, AvailableOrCatchAll env user channel w.pluginlist c := by
  have hblank : ScheduledOnly (AvailableOrCatchAll env user channel w.pluginlist)
      { w with ext := (env.timeNow w.ext).2 }
      (blankStage env isCommand ⟨user, channel, ""⟩ (env.timeNow w.ext).1
        ⟨text, false, [], false⟩ { w with ext := (env.timeNow w.ext).2 }).world := by
    unfold blankStage
    split
    · split
      · split
        · rw [bind_ok_world]
          exact checkPluginMatchers_available_only env true ⟨user, channel, ""⟩ _ _ _
        · exact scheduledOnly_of_eq _ rfl rfl rfl
      · exact scheduledOnly_of_eq _ rfl rfl rfl
    · exact scheduledOnly_refl _ _
  have key : ScheduledOnly (AvailableOrCatchAll env user channel w.pluginlist)
      { w with ext := (env.timeNow w.ext).2 }
      (handleMessage env isCommand channel user text w).world := by
    unfold handleMessage
    simp only
    refine bind_scheduledOnly hblank ?_
    intro l₁ w₁ h₁
    have c₁ : l₁.catchAllPlugins = [] := blankStage_catchAll h₁
    unfold handleTail
    have hcmd : ScheduledOnly (AvailableOrCatchAll env user channel w.pluginlist) w₁
        (commandStage env isCommand ⟨user, channel, ""⟩ w.pluginlist l₁ w₁).world := by
      unfold commandStage
      split
      · rw [bind_ok_world]
        exact checkPluginMatchers_available_only env true ⟨user, channel, ""⟩ _ _ _
      · exact scheduledOnly_refl _ _
    refine bind_scheduledOnly hcmd ?_
    intro l₂ w₂ h₂
    have c₂ : ∀ p ∈ l₂.catchAllPlugins, p.CatchAll = true ∧ p ∈ w.pluginlist := by
      intro p hp
      rcases commandStage_catchAll h₂ with hc | hc
      · rw [hc, c₁] at hp
        cases hp
      · rw [hc] at hp
        obtain ⟨hmem, hflag⟩ := List.mem_filter.1 hp
        exact ⟨hflag, hmem⟩
    obtain ⟨rp, rs, rsch, -⟩ := replyStage_frame ⟨user, channel, ""⟩ l₂ w₂
    refine scheduledOnly_trans (scheduledOnly_of_eq _ rp rs rsch) ?_
    have hamb : ScheduledOnly (AvailableOrCatchAll env user channel w.pluginlist)
        (replyStage ⟨user, channel, ""⟩ l₂ w₂).2
        (ambientStage env isCommand ⟨user, channel, ""⟩ (replyStage ⟨user, channel, ""⟩ l₂ w₂).1
          (replyStage ⟨user, channel, ""⟩ l₂ w₂).2).world := by
      unfold ambientStage
      split
      · rw [bind_ok_world]
        exact checkPluginMatchers_available_only env false ⟨user, channel, ""⟩ _ _ _
      · exact scheduledOnly_refl _ _
    refine bind_scheduledOnly hamb ?_
    intro l₄ w₄ h₄
    have c₄ : l₄.catchAllPlugins = l₂.catchAllPlugins :=
      (ambientStage_catchAll h₄).trans (replyStage_catchAll _ l₂ w₂)
    simp only [Result.world]
    have hcatch : ScheduledOnly (AvailableOrCatchAll env user channel w.pluginlist) w₄
        (catchAllStage isCommand ⟨user, channel, ""⟩ l₄ w₄) := by
      unfold catchAllStage
      split
      · split
        · refine ⟨rfl, rfl, _, rfl, ?_⟩
          intro c hc
          simp only [catchAllCalls, List.mem_map] at hc
          obtain ⟨p, hp, rfl⟩ := hc
          rw [c₄] at hp
          exact Or.inr ⟨rfl, c₂ p hp⟩
        · exact scheduledOnly_refl _ _
      · exact scheduledOnly_refl _ _
    refine scheduledOnly_trans hcatch ?_
    unfold bookkeepingStage
    split <;> exact scheduledOnly_of_eq _ rfl rfl rfl
  obtain ⟨-, -, extra, he, hq⟩ := key
  exact ⟨extra, he, hq⟩

/-- C21 (evaluation at the failing input): `vipPlugin` requires admin and bob is
not an administrator, so the plugin is not available to him in "general"; his
directed "what now" matches no command and `handleMessage` returns having
scheduled the `catchall` body of `vipPlugin`. -/
theorem catchall_ignores_availability :
    vipPlugin.RequireAdmin = true ∧ "bob" ∉ demoEnv.adminUsers ∧
    pluginAvailable demoEnv "bob" "general" vipPlugin = false ∧
    (handleMessage demoEnv true "general" "bob" "what now" (demoWorld [vipPlugin])).val? =
      some () ∧
    ((handleMessage demoEnv true "general" "bob" "what now"
        (demoWorld [vipPlugin])).world.scheduled.map
      fun c => (c.plugin.name, c.command, c.args)) = [("vip", "catchall", ["what now"])] :=
  ⟨rfl, by decide, by decide, rfl, by decide⟩


/-! ## C22: a context label beyond the capture groups -/

/-- A non-empty context label at a position at or beyond the number of capture
groups is not skipped: the loop reads `cmdArgs[i]` in the else branch of line 139
and ends out of range, whatever labels follow. -/
theorem contextLoop_beyond_captures (bot : Robot) (ts : Int) (i : Nat) (contextLabel : String)
    (rest cmdArgs : List String) (m : memoryContext → Option shortTermMemory)
    (hl : contextLabel ≠ "") (hi : cmdArgs.length ≤ i) :
    contextLoop bot ts i (contextLabel :: rest) cmdArgs m = .outOfRange m := by
  have hnone : cmdArgs[i]? = none := List.getElem?_eq_none hi
  unfold contextLoop
  simp only [ne_eq, hl, not_false_eq_true, if_true, hnone, gt_iff_lt, Nat.not_lt.2 hi,
    false_and, if_false]

/-- C22 (evaluation at the failing inputs): (1) the matcher of `clockPlugin`
matches "set alarm" with no capture group and declares the label `time` at
position 0; (2) the matcher of `cratePlugin` matches "move box" with one capture
group and declares the labels `thing` and `place`. In both cases
`checkPluginMatchers` does not return: the label beyond the captures makes it
index `cmdArgs` out of range. In (2) the label within range has been stored
before. Nothing is said or scheduled. -/
theorem label_beyond_captures_panics :
    ((captures (literalMatcher "alarm" "set alarm" [] ["time"]) "set alarm").length = 0 ∧
      (checkPluginMatchers demoEnv true bob "set alarm" (demoWorld [clockPlugin])).val? = none ∧
      (checkPluginMatchers demoEnv true bob "set alarm" (demoWorld [clockPlugin])).world.said
        = [] ∧
      (checkPluginMatchers demoEnv true bob "set alarm"
        (demoWorld [clockPlugin])).world.scheduled.length = 0) ∧
    ((captures (literalMatcher "move" "move box" ["box"] ["thing", "place"]) "move box").length
        = 1 ∧
      (checkPluginMatchers demoEnv true bob "move box" (demoWorld [cratePlugin])).val? = none ∧
      (checkPluginMatchers demoEnv true bob "move box"
          (demoWorld [cratePlugin])).world.shortTermMemories (contextKey bob "thing") =
        some ⟨"box", 0⟩ ∧
      (checkPluginMatchers demoEnv true bob "move box"
          (demoWorld [cratePlugin])).world.shortTermMemories (contextKey bob "place") = none ∧
      (checkPluginMatchers demoEnv true bob "move box" (demoWorld [cratePlugin])).world.said
        = [] ∧
      (checkPluginMatchers demoEnv true bob "move box"
        (demoWorld [cratePlugin])).world.scheduled.length = 0) :=
  ⟨⟨rfl, rfl, by decide, by decide⟩, ⟨rfl, rfl, by decide, by decide, by decide, by decide⟩⟩


/-! ## C23: what `elevate` writes to `lastElevate` -/

/-- `getcode` writes neither `lastElevate` nor `cfg`. -/
theorem getcode_frame {τ δ : Type} (tenv : TotpEnv τ δ) (r : Robot) (immediate : Bool)
    (w : TotpWorld τ) :
    (getcode tenv r immediate w).2.lastElevate = w.lastElevate ∧
    (getcode tenv r immediate w).2.cfg = w.cfg := by
  unfold getcode
  simp only [TotpWorld.say]
  split_ifs <;> exact ⟨rfl, rfl⟩

/-- The value of `allowed` and the world at line 107 of `elevator.go`, before the
last elevation is recorded. -/
theorem elevate_eq {τ δ : Type} (tenv : TotpEnv τ δ) (r : Robot) (immediate : Bool)
    (w : TotpWorld τ) :
    ∃ res : Bool × TotpWorld τ, res.2.lastElevate = w.lastElevate ∧ res.2.cfg = w.cfg ∧
      elevate tenv r immediate w =
        if res.1 = true ∧ w.cfg.tt = timeoutType.idle then
          (true, { res.2 with
            lastElevate := mapSet w.lastElevate r.User (tenv.timeNow w.ext).1 })
        else res := by
  have key : ∀ res : Bool × TotpWorld τ, res.2.lastElevate = w.lastElevate → res.2.cfg = w.cfg →
      (if res.1 = true ∧ res.2.cfg.tt = timeoutType.idle then
          (res.1, { res.2 with
            lastElevate := mapSet res.2.lastElevate r.User (tenv.timeNow w.ext).1 })
        else res) =
      if res.1 = true ∧ w.cfg.tt = timeoutType.idle then
          (true, { res.2 with
            lastElevate := mapSet w.lastElevate r.User (tenv.timeNow w.ext).1 })
        else res := by
    intro res hl hc
    rw [hl, hc]
    split
    · next h => rw [h.1]
    · rfl
  unfold elevate
  simp only
  cases immediate with
  | true =>
    have hg := getcode_frame tenv r true { w with ext := (tenv.timeNow w.ext).2 }
    simp only [if_true]
    exact ⟨_, hg.1, hg.2, key _ hg.1 hg.2⟩
  | false =>
    have hg := getcode_frame tenv r false { w with ext := (tenv.timeNow w.ext).2 }
    simp only [Bool.false_eq_true, if_false]
    cases hle : w.lastElevate r.User with
    | none => exact ⟨_, hg.1, hg.2, key _ hg.1 hg.2⟩
    | some le =>
      simp only
      split
      · exact ⟨_, hg.1, hg.2, key _ hg.1 hg.2⟩
      · exact ⟨_, rfl, rfl, key _ rfl rfl⟩

/-- What `provider` leaves in `cfg.tt`: `absolute` when the loaded configuration
names the timeout type "absolute", and otherwise whatever `tt` the loaded
configuration carries (the zero value `idle` on a fresh package state when the
handler fills in the exported fields only). -/
theorem provider_timeout_type {τ δ : Type} (tenv : TotpEnv τ δ) (h : Handler τ)
    (w : TotpWorld τ) :
    ((h.GetElevateConfig w.cfg w.ext).1.TimeoutType = "absolute" →
      (provider tenv h w).2.cfg.tt = timeoutType.absolute) ∧
    ((h.GetElevateConfig w.cfg w.ext).1.TimeoutType ≠ "absolute" →
      (provider tenv h w).2.cfg.tt = (h.GetElevateConfig w.cfg w.ext).1.tt) ∧
    (provider tenv h w).2.lastElevate = w.lastElevate ∧
    (provider tenv h w).1 = elevate tenv := by
  refine ⟨fun ha => ?_, fun hn => ?_, rfl, rfl⟩
  · simp only [provider, ha, if_true]
  · simp only [provider, hn, if_false]

/-- C23: `elevate` records the time it read on entry as the user's last
elevation exactly when it returns true and the timeout type `cfg.tt` is idle;
in every other case (a refused elevation, or any call with an absolute timeout)
the `lastElevate` map is left as it was. The entries of other users are never
modified and the configuration is not written. The timeout type is absolute in
the state `provider` leaves whenever the loaded configuration names the type
"absolute", and `elevate` then leaves the map unchanged. -/
theorem elevate_records_last_elevation {τ δ : Type} (tenv : TotpEnv τ δ) (r : Robot)
    (immediate : Bool) (w : TotpWorld τ) :
    ((elevate tenv r immediate w).1 = true ∧ w.cfg.tt = timeoutType.idle →
      (elevate tenv r immediate w).2.lastElevate =
          mapSet w.lastElevate r.User (tenv.timeNow w.ext).1 ∧
        (elevate tenv r immediate w).2.lastElevate r.User = some (tenv.timeNow w.ext).1) ∧
    (¬ ((elevate tenv r immediate w).1 = true ∧ w.cfg.tt = timeoutType.idle) →
      (elevate tenv r immediate w).2.lastElevate = w.lastElevate) ∧
    (∀ u, u ≠ r.User → (elevate tenv r immediate w).2.lastElevate u = w.lastElevate u) ∧
    (elevate tenv r immediate w).2.cfg = w.cfg ∧
    (∀ h : Handler τ, (h.GetElevateConfig w.cfg w.ext).1.TimeoutType = "absolute" →
      ((provider tenv h w).1 r immediate (provider tenv h w).2).2.lastElevate =
        w.lastElevate) := by
  have main : ∀ v : TotpWorld τ,
      ((elevate tenv r immediate v).1 = true ∧ v.cfg.tt = timeoutType.idle →
        (elevate tenv r immediate v).2.lastElevate =
          mapSet v.lastElevate r.User (tenv.timeNow v.ext).1) ∧
      (¬ ((elevate tenv r immediate v).1 = true ∧ v.cfg.tt = timeoutType.idle) →
        (elevate tenv r immediate v).2.lastElevate = v.lastElevate) ∧
      (elevate tenv r immediate v).2.cfg = v.cfg := by
    intro v
    obtain ⟨res, hl, hc, he⟩ := elevate_eq tenv r immediate v
    by_cases hca : res.1 = true ∧ v.cfg.tt = timeoutType.idle
    · rw [if_pos hca] at he
      rw [he]
      exact ⟨fun _ => rfl, fun hn => absurd ⟨rfl, hca.2⟩ hn, hc⟩
    · rw [if_neg hca] at he
      rw [he]
      exact ⟨fun hy => absurd hy hca, fun _ => hl, hc⟩
  obtain ⟨hrec, hkeep, hcfg⟩ := main w
  refine ⟨fun hy => ⟨hrec hy, ?_⟩, hkeep, fun u hu => ?_, hcfg, fun h ha => ?_⟩
  · rw [hrec hy]
    simp only [mapSet, if_true]
  · by_cases hy : (elevate tenv r immediate w).1 = true ∧ w.cfg.tt = timeoutType.idle
    · rw [hrec hy]
      simp only [mapSet, hu, if_false]
    · rw [hkeep hy]
  · obtain ⟨habs, -, hlast, hfun⟩ := provider_timeout_type tenv h w
    rw [hfun, (main (provider tenv h w).2).2.1 (fun hy => ?_), hlast]
    rw [habs ha] at hy
    exact absurd hy.2 (by decide)

/-- Witness for C23: with an idle timeout, bob's successful immediate elevation
at clock reading 10 s replaces his recorded elevation of 9 s; with an absolute
timeout the same call leaves the record alone. -/
theorem elevate_records_last_elevation_witness :
    ((elevate demoTotpEnv bob true idleTotpWorld).2.lastElevate =
        mapSet idleTotpWorld.lastElevate "bob" 10000000000 ∧
      (elevate demoTotpEnv bob true idleTotpWorld).2.lastElevate "bob" = some 10000000000) ∧
    (elevate demoTotpEnv bob true demoTotpWorld).1 = true ∧
    (elevate demoTotpEnv bob true demoTotpWorld).2.lastElevate "bob" = some 9000000000 ∧
    ((provider demoTotpEnv absoluteHandler (init 10)).1 bob true
      (provider demoTotpEnv absoluteHandler (init 10)).2).2.lastElevate "bob" = none ∧
    ((provider demoTotpEnv idleHandler (init 10)).1 bob true
      (provider demoTotpEnv idleHandler (init 10)).2).2.lastElevate "bob" = some 10 :=
  ⟨(elevate_records_last_elevation demoTotpEnv bob true idleTotpWorld).1 ⟨by decide, rfl⟩,
    by decide, by decide, by decide, by decide⟩

end Gopherbot
